import Mathlib

/-!
# EMF structured errors: matcher protocol and cross-service decoding

A shallow embedding of the error subsystem of `cambridge-blockchain/emf`
(`emf/context/errors` and `DecodeEMFError` of `emf/context/request_handler.go`).

Conventions of the embedding:

* Go strings are Lean `String`s; `strings.HasPrefix` is the prefix test on the
  character lists.
* Go `int` values are `Int`; the only place where the 64-bit width matters is
  `strconv.ParseInt` inside the JSON decoder, which is modelled with its range test.
* A Go `error` interface value is `Option GoError`: `none` is the nil interface, and a
  `GoError` records the result of `Error()` together with the optional methods the
  matcher probes for with its type switch.
* A Go `map` is `Option (List (String × V))`: `none` is the nil map, the list holds one
  entry per key.
* A function that can end in a runtime panic returns `Except Panic _`.
-/

namespace EMF

/-! ## Go values -/

/-- A non-nil Go `error` value, seen through the method sets that `EMFErrorType.Is`
probes: `Error()` always, and `ErrorType()`, `Code()`, `Component()` when the dynamic
type has them. -/
structure GoError where
  msg : String
  errorType : Option String := none
  code : Option Int := none
  component : Option String := none
deriving DecidableEq, Repr

/-- `ErrorType(code)` of `error_interfaces.go`: a `*typedErrorType`, which has
`ErrorType()` and `Error()`, both returning the code. -/
def ErrorType (code : String) : GoError :=
  { msg := code, errorType := some code }

/-- `ErrorFromComponent(component)`: a `*componentErrorType`, which has `Component()`
and `Error()`, both returning the component. -/
def ErrorFromComponent (component : String) : GoError :=
  { msg := component, component := some component }

/-- `ErrorResponseCode(code)`: a `*responseCodeErrorType`, which has `Code()` and an
`Error()` that returns the empty string. -/
def ErrorResponseCode (code : Int) : GoError :=
  { msg := "", code := some code }

/-- A JSON number literal, as far as Go's decoder distinguishes them: a literal in plain
integer syntax (its value), or a literal with a fraction or an exponent (its text and
whether `strconv.ParseFloat` accepts it as a finite float64). -/
inductive JNumber where
  | int (n : Int)
  | real (lit : String) (finite : Bool)
deriving DecidableEq, Repr

/-- Values held in a Go `interface{}`: what the callers of `NewError` put in the data
map and what `encoding/json` produces when it decodes into `interface{}`. A float64 is
represented by the number literal it was parsed from; a literal out of the float64 range
stands for the infinite float64 that `strconv.ParseFloat` gives for it. -/
inductive GoValue where
  | nil
  | bool (b : Bool)
  | int (n : Int)
  | float (n : JNumber)
  | str (s : String)
  | bytes (b : List Nat)
  | err (e : GoError)
  | list (xs : List GoValue)
  | map (kvs : List (String × GoValue))
deriving Repr

/-- Lookup in the entry list of a map. -/
def entriesGet {V : Type} (k : String) : List (String × V) → Option V
  | [] => none
  | (k', v) :: rest => if k' = k then some v else entriesGet k rest

/-- Assignment `m[k] = v` on the entry list of a map: replaces the entry of `k` when
there is one, and adds one otherwise. -/
def entriesSet {V : Type} (k : String) (v : V) : List (String × V) → List (String × V)
  | [] => [(k, v)]
  | (k', v') :: rest => if k' = k then (k, v) :: rest else (k', v') :: entriesSet k v rest

/-- Reading `m[k]` from a possibly nil map (`v, ok := m[k]`). -/
def mapGet {V : Type} (m : Option (List (String × V))) (k : String) : Option V :=
  match m with
  | none => none
  | some kvs => entriesGet k kvs

/-! ## Error instances -/

/-- `EMFErrorType` of `error_handler.go`. -/
structure EMFErrorType where
  Timestamp : String := ""
  StatusCode : Int := 0
  ErrorCode : String := ""
  Description : String := ""
  Message : Option (List (String × String)) := none
  Level : String := ""
  Data : Option (List (String × GoValue)) := none
  stackTrace : String := ""
  internalError : Option GoError := none

/-- `SimpleErrorType` of `error_handler.go`; the nested `Error` struct is flattened into
`Message` and `ErrorCode`. -/
structure SimpleErrorType where
  Message : String := ""
  ErrorCode : String := ""
  StatusCode : Int := 0
deriving DecidableEq, Repr

namespace EMFErrorType

/-- `(*EMFErrorType).Error()`: the English message, `""` when there is none. -/
def Error (e : EMFErrorType) : String :=
  (mapGet e.Message "en").getD ""

/-- `EMFErrorType.ErrorType()`. -/
def ErrorType (e : EMFErrorType) : String :=
  e.ErrorCode

/-- `EMFErrorType.Unwrap()`. -/
def Unwrap (e : EMFErrorType) : Option GoError :=
  e.internalError

/-- A non-nil `*EMFErrorType` used as an `error`: its method set has `Error()` and
`ErrorType()`, and neither `Code()` nor `Component()`. -/
def asError (e : EMFErrorType) : GoError :=
  { msg := e.Error, errorType := some e.ErrorType }

end EMFErrorType

/-- `strings.HasPrefix(s, prefix)`. -/
def HasPrefix (s pre : String) : Bool :=
  pre.data.isPrefixOf s.data

/-- `EMFErrorType.Is(target)`: the type switch takes the first case whose interface the
target's dynamic type implements; a nil target matches no case. -/
def EMFErrorType.Is (e : EMFErrorType) (target : Option GoError) : Bool :=
  match target with
  | none => false
  | some err =>
    match err.errorType with
    | some t => e.ErrorCode == t
    | none =>
      match err.code with
      | some c => e.StatusCode == c
      | none =>
        match err.component with
        | some comp => HasPrefix e.ErrorCode (comp ++ ".")
        | none => false

/-- The leading dot-delimited segment of a code: the text before the first `.`, or the
whole code when it has none. -/
def leadingSegment (code : String) : String :=
  String.mk (code.data.takeWhile (fun c => c != '.'))

/-! ## `encoding/json`, as `DecodeEMFError` uses it

`json.NewDecoder(r).Decode(v)` first scans one complete JSON value and reports a syntax
error (or `io.EOF`) before it stores anything; only then does it unmarshal the value into
`v`. The scanner is not modelled: a body is given by what the scanner finds in it. The
unmarshalling of a scanned value into the three targets of `DecodeEMFError` is modelled
below, member by member, in the order of the text. A type mismatch does not stop the
decoding: the first one is kept as the error of the call and the member is skipped. -/

/-- A scanned JSON value; the members of an object are in the order of the text and may
repeat a key. -/
inductive JSON where
  | null
  | bool (b : Bool)
  | num (n : JNumber)
  | str (s : String)
  | arr (xs : List JSON)
  | obj (kvs : List (String × JSON))
deriving Repr

/-- What `DecodeEMFError` gets from its reader: `ioutil.ReadAll` fails (with the bytes
read so far), or the bytes do not start with a well-formed JSON value (the decoder's
error is a syntax error, or `io.EOF` for an empty body), or they start with the JSON
value `j`. -/
inductive Body where
  | readError (read : List Nat) (err : GoError)
  | invalid (err : GoError)
  | value (j : JSON)

/-- The description of a JSON value in an `UnmarshalTypeError`. -/
def JSON.kind : JSON → String
  | .null => "null"
  | .bool _ => "bool"
  | .num _ => "number"
  | .str _ => "string"
  | .arr _ => "array"
  | .obj _ => "object"

/-- An `*json.UnmarshalTypeError`. -/
def unmarshalTypeError (value goType : String) : GoError :=
  { msg := "json: cannot unmarshal " ++ value ++ " into Go value of type " ++ goType }

/-- The error a decoding call reports: the first one saved. -/
def firstError (a b : Option GoError) : Option GoError :=
  match a with
  | some e => some e
  | none => b

/-- `strconv.ParseInt(lit, 10, 64)` succeeds on an integer literal iff the value fits in
64 bits. -/
def fitsInt64 (n : Int) : Bool :=
  decide (-(2 : Int) ^ 63 ≤ n) && decide (n < (2 : Int) ^ 63)

/-- `strconv.ParseFloat(lit, 64)` succeeds iff the literal rounds to a finite float64. -/
def JNumber.finiteFloat : JNumber → Bool
  | .int n => decide (n.natAbs < 2 ^ 1024 - 2 ^ 970)
  | .real _ finite => finite

/-- The case folding under which the decoder matches an object key with a struct field:
ASCII letters ignore case, and the Kelvin sign and the long s fold to `K` and `S`. -/
def foldRune (c : Char) : Char :=
  if 'a'.toNat ≤ c.toNat ∧ c.toNat ≤ 'z'.toNat then Char.ofNat (c.toNat - 32)
  else if c.toNat = 0x212A then 'K'
  else if c.toNat = 0x17F then 'S'
  else c

/-- Whether the object key `key` selects the struct field with JSON name `name`. The
names of one struct differ under folding, so at most one field is selected. -/
def fieldMatches (name key : String) : Bool :=
  key.data.map foldRune == name.data.map foldRune

mutual
/-- Decoding into an `interface{}`: objects become `map[string]interface{}`, arrays
`[]interface{}`, numbers float64; a number outside the float64 range is a type error and
leaves nil. -/
def decodeAny : JSON → GoValue × Option GoError
  | .null => (.nil, none)
  | .bool b => (.bool b, none)
  | .num n =>
    if n.finiteFloat then (.float n, none)
    else (.nil, some (unmarshalTypeError "number" "float64"))
  | .str s => (.str s, none)
  | .arr xs =>
    let r := decodeAnyList xs
    (.list r.1, r.2)
  | .obj kvs =>
    let r := decodeAnyMembers kvs []
    (.map r.1, r.2)
/-- The elements of an array decoded into `[]interface{}`. -/
def decodeAnyList : List JSON → List GoValue × Option GoError
  | [] => ([], none)
  | x :: xs =>
    let a := decodeAny x
    let r := decodeAnyList xs
    (a.1 :: r.1, firstError a.2 r.2)
/-- The members of an object stored one after the other into a
`map[string]interface{}` that already holds `acc`. -/
def decodeAnyMembers :
    List (String × JSON) → List (String × GoValue) → List (String × GoValue) × Option GoError
  | [], acc => (acc, none)
  | (k, v) :: rest, acc =>
    let a := decodeAny v
    let r := decodeAnyMembers rest (entriesSet k a.1 acc)
    (r.1, firstError a.2 r.2)
end

/-- Decoding into a `string` that holds `cur`: `null` leaves it, a string sets it, every
other value is a type error and leaves it. -/
def decodeString (cur : String) : JSON → String × Option GoError
  | .null => (cur, none)
  | .str s => (s, none)
  | j => (cur, some (unmarshalTypeError j.kind "string"))

/-- Decoding into an `int` that holds `cur`: `null` leaves it, an integer literal that
fits in 64 bits sets it, every other value is a type error and leaves it. -/
def decodeInt (cur : Int) : JSON → Int × Option GoError
  | .null => (cur, none)
  | .num (.int n) =>
    if fitsInt64 n then (n, none) else (cur, some (unmarshalTypeError "number" "int"))
  | j => (cur, some (unmarshalTypeError j.kind "int"))

/-- The members of an object stored one after the other into a `map[string]string` that
already holds `acc`; each element starts from the zero string. -/
def decodeStringMembers :
    List (String × JSON) → List (String × String) → List (String × String) × Option GoError
  | [], acc => (acc, none)
  | (k, v) :: rest, acc =>
    let a := decodeString "" v
    let r := decodeStringMembers rest (entriesSet k a.1 acc)
    (r.1, firstError a.2 r.2)

/-- Decoding into a `map[string]string` that holds `cur`: `null` sets it to nil, an
object is stored into it (a nil map is made first), every other value is a type error. -/
def decodeStringMap (cur : Option (List (String × String))) :
    JSON → Option (List (String × String)) × Option GoError
  | .null => (none, none)
  | .obj kvs =>
    let r := decodeStringMembers kvs (cur.getD [])
    (some r.1, r.2)
  | j => (cur, some (unmarshalTypeError j.kind "map[string]string"))

/-- Decoding into a `map[string]interface{}` that holds `cur`. -/
def decodeAnyMap (cur : Option (List (String × GoValue))) :
    JSON → Option (List (String × GoValue)) × Option GoError
  | .null => (none, none)
  | .obj kvs =>
    let r := decodeAnyMembers kvs (cur.getD [])
    (some r.1, r.2)
  | j => (cur, some (unmarshalTypeError j.kind "map[string]interface {}"))

/-- One member of an object decoded into an `EMFErrorType`. The struct has no JSON tags,
so the exported fields go by their Go names; `stackTrace` and `internalError` are
unexported and never set; a key that selects no field is skipped. -/
def decodeEMFField (e : EMFErrorType) (key : String) (v : JSON) :
    EMFErrorType × Option GoError :=
  if fieldMatches "Timestamp" key then
    let r := decodeString e.Timestamp v
    ({ e with Timestamp := r.1 }, r.2)
  else if fieldMatches "StatusCode" key then
    let r := decodeInt e.StatusCode v
    ({ e with StatusCode := r.1 }, r.2)
  else if fieldMatches "ErrorCode" key then
    let r := decodeString e.ErrorCode v
    ({ e with ErrorCode := r.1 }, r.2)
  else if fieldMatches "Description" key then
    let r := decodeString e.Description v
    ({ e with Description := r.1 }, r.2)
  else if fieldMatches "Message" key then
    let r := decodeStringMap e.Message v
    ({ e with Message := r.1 }, r.2)
  else if fieldMatches "Level" key then
    let r := decodeString e.Level v
    ({ e with Level := r.1 }, r.2)
  else if fieldMatches "Data" key then
    let r := decodeAnyMap e.Data v
    ({ e with Data := r.1 }, r.2)
  else (e, none)

/-- The members of an object decoded one after the other into an `EMFErrorType`. -/
def decodeEMFMembers : List (String × JSON) → EMFErrorType → EMFErrorType × Option GoError
  | [], e => (e, none)
  | (k, v) :: rest, e =>
    let a := decodeEMFField e k v
    let r := decodeEMFMembers rest a.1
    (r.1, firstError a.2 r.2)

/-- `Decode(&e)` for `e` a nil `*EMFErrorType`: the pointer afterwards (`none` is nil)
and the error. `null` sets the pointer to nil without an error; every other value makes
the decoder allocate the struct before it looks at the value. -/
def decodeEMFErrorType : JSON → Option EMFErrorType × Option GoError
  | .null => (none, none)
  | .obj kvs =>
    let r := decodeEMFMembers kvs {}
    (some r.1, r.2)
  | j => (some {}, some (unmarshalTypeError j.kind "errors.EMFErrorType"))

/-- One member of the object under `error` decoded into the nested struct of a
`SimpleErrorType` (tags `message` and `errorCode`). -/
def decodeSimpleInnerField (s : SimpleErrorType) (key : String) (v : JSON) :
    SimpleErrorType × Option GoError :=
  if fieldMatches "message" key then
    let r := decodeString s.Message v
    ({ s with Message := r.1 }, r.2)
  else if fieldMatches "errorCode" key then
    let r := decodeString s.ErrorCode v
    ({ s with ErrorCode := r.1 }, r.2)
  else (s, none)

/-- The members of the object under `error`, one after the other. -/
def decodeSimpleInnerMembers :
    List (String × JSON) → SimpleErrorType → SimpleErrorType × Option GoError
  | [], s => (s, none)
  | (k, v) :: rest, s =>
    let a := decodeSimpleInnerField s k v
    let r := decodeSimpleInnerMembers rest a.1
    (r.1, firstError a.2 r.2)

/-- One member of an object decoded into a `SimpleErrorType` (tags `error` and
`statusCode`). -/
def decodeSimpleField (s : SimpleErrorType) (key : String) (v : JSON) :
    SimpleErrorType × Option GoError :=
  if fieldMatches "error" key then
    match v with
    | .null => (s, none)
    | .obj kvs => decodeSimpleInnerMembers kvs s
    | j => (s, some (unmarshalTypeError j.kind "struct"))
  else if fieldMatches "statusCode" key then
    let r := decodeInt s.StatusCode v
    ({ s with StatusCode := r.1 }, r.2)
  else (s, none)

/-- The members of an object decoded one after the other into a `SimpleErrorType`. -/
def decodeSimpleMembers :
    List (String × JSON) → SimpleErrorType → SimpleErrorType × Option GoError
  | [], s => (s, none)
  | (k, v) :: rest, s =>
    let a := decodeSimpleField s k v
    let r := decodeSimpleMembers rest a.1
    (r.1, firstError a.2 r.2)

/-- `Decode(&serr)` for a zero `SimpleErrorType`. -/
def decodeSimpleErrorType : JSON → SimpleErrorType × Option GoError
  | .null => ({}, none)
  | .obj kvs => decodeSimpleMembers kvs {}
  | j => ({}, some (unmarshalTypeError j.kind "errors.SimpleErrorType"))

/-! ## The builtin registry -/

/-- The template action `{{.Data.<key>}}`. -/
def dataAction (key : String) : String :=
  "\x7b\x7b.Data." ++ key ++ "\x7d\x7d"

/-- `getBuiltin` of `builtin_errors.go`: the definition of a builtin code, `none` when
the code is not in the table (`ok` false). -/
def getBuiltin (code : String) : Option EMFErrorType :=
  if code = "emf.400.QueryParameterInvalid" then some {
    ErrorCode := "emf.400.QueryParameterInvalid"
    StatusCode := 400
    Description := "An invalid query parameter was provided in the request."
    Message := some [("en", "The incoming request payload has an invalid query parameter '"
      ++ dataAction "Param" ++ "'. Error: '" ++ dataAction "Error" ++ "'")]
    Data := some [("Param", .str "The invalid Query parameter."),
      ("Error", .str "The error raised while validating the query parameters.")] }
  else if code = "emf.400.TokenMissing" then some {
    ErrorCode := "emf.400.TokenMissing"
    StatusCode := 400
    Description := "The JWT Token Verification request failed, so the API Request could not be completed."
    Message := some [("en", "JWT Token is missing or malformed and could not be validated. Error: '"
      ++ dataAction "Error" ++ "'")]
    Data := some [("Error", .str "Error found when extracting the JWT token from the request.")] }
  else if code = "emf.400.InvalidParametersFailure" then some {
    ErrorCode := "emf.400.InvalidParametersFailure"
    StatusCode := 400
    Description := "The parameters are invalid."
    Data := some [("Error", .str "The error raised while parsing the request parameters.")]
    Message := some [("en", "The request parameters are invalid. Error: '"
      ++ dataAction "Error" ++ "'")] }
  else if code = "emf.401.Unauthorized" then some {
    ErrorCode := "emf.401.Unauthorized"
    StatusCode := 401
    Description := "The API request cannot be performed as the User associated with the JWT token in the request does not have access to this endpoint."
    Message := some [("en", "User with identifier '" ++ dataAction "Target" ++ "' and role '"
      ++ dataAction "Role" ++ "' does not have access.")]
    Data := some [("Role", .str "Type of authorization access being used."),
      ("Target", .str "Identity being acted on.")] }
  else if code = "emf.401.TokenExpired" then some {
    ErrorCode := "emf.401.TokenExpired"
    StatusCode := 401
    Description := "The JWT Token provided with the request is Expired."
    Message := some [("en", "The provided access token expired at '"
      ++ dataAction "ExpirationDate" ++ "'.")]
    Data := some [("ExpirationDate", .str "Expiration Date of the given token.")] }
  else if code = "emf.401.TokenInactive" then some {
    ErrorCode := "emf.401.TokenInactive"
    StatusCode := 401
    Description := "The JWT Token provided with the request is no longer Active (the User logged out or switched roles)."
    Message := some [("en", "The provided token with User '" ++ dataAction "Target"
      ++ "' and role '" ++ dataAction "Role" ++ "' is no longer active.")]
    Data := some [("Role", .str "Type of authorization access being used."),
      ("Target", .str "Identity being acted on.")] }
  else if code = "emf.401.TokenVerificationFailure" then some {
    ErrorCode := "emf.401.TokenVerificationFailure"
    StatusCode := 401
    Description := "The JWT Token Verification request failed, so the API Request could not be completed."
    Message := some [("en", "The provided token with User '" ++ dataAction "Target"
      ++ "' and role '" ++ dataAction "Role" ++ "' could not be verified,\nplease try again. Error: '"
      ++ dataAction "error" ++ "'")]
    Data := some [("Role", .str "Type of authorization access being used."),
      ("Target", .str "Identity being acted on.")] }
  else if code = "emf.401.TokenInvalidProperty" then some {
    ErrorCode := "emf.401.TokenInvalidProperty"
    StatusCode := 401
    Description := "The JWT Token in the request has an invalid property, so the API Request could not be completed. Please try again."
    Message := some [("en", "The provided token has an invalid '" ++ dataAction "Name"
      ++ "' value\n\t\t\t\t'" ++ dataAction "Value" ++ "', please try again. Error: '"
      ++ dataAction "Error" ++ "'")]
    Data := some [("Error", .str "Error found when retrieving the property from the JWT token."),
      ("Name", .str "Name of the JWT token property."),
      ("Value", .str "Value associated with JWT token property.")] }
  else if code = "emf.401.UnauthorizedCaller" then some {
    ErrorCode := "emf.401.UnauthorizedCaller"
    StatusCode := 401
    Description := "The API request sent by the Caller/Client cannot be performed as the User associated with the JWT token in the API request does not have access to this endpoint."
    Message := some [("en", "User with identifier '" ++ dataAction "Target" ++ "' and role '"
      ++ dataAction "Role" ++ "' does not have access.")]
    Data := some [("Role", .str "Type of authorization access being used."),
      ("Target", .str "Identity being acted on.")] }
  else if code = "emf.500.RequesterEncodingFailure" then some {
    ErrorCode := "emf.500.RequesterEncodingFailure"
    StatusCode := 500
    Description := "The internal HTTP Request could not be performed as the request or response could not be JSON encoded"
    Message := some [("en", "Failed to encode request payload. Error: '"
      ++ dataAction "Error" ++ "'")]
    Data := some [("Error", .str "JSON Encoding Error")] }
  else if code = "emf.500.RequesterDecodingFailure" then some {
    ErrorCode := "emf.500.RequesterDecodingFailure"
    StatusCode := 500
    Description := "The internal HTTP Request could not be performed as the response could not be JSON decoded"
    Message := some [("en", "Failed to decode response payload. Error: '"
      ++ dataAction "Error" ++ "'")]
    Data := some [("Error", .str "JSON Decoding Error")] }
  else if code = "emf.500.RequesterErrorResponseFailure" then some {
    ErrorCode := "emf.500.RequesterErrorResponseFailure"
    StatusCode := 500
    Description := "The internal HTTP Request could not be performed as the CBError response could not be JSON decoded"
    Message := some [("en", "Failed to decode failing response payload as CBError. Response: '"
      ++ dataAction "Response" ++ "'")]
    Data := some [("Response", .str "Response sent by the downstream component"),
      ("Error", .str "Error encountered while trying to decode 'Response'")] }
  else if code = "emf.500.RequesterCreateRequestFailure" then some {
    ErrorCode := "emf.500.RequesterCreateRequestFailure"
    StatusCode := 500
    Description := "The internal HTTP Request could not be performed as the request object could not be initialized"
    Message := some [("en", "Failed to initialize request. Error: '"
      ++ dataAction "Error" ++ "'")]
    Data := some [("Error", .str "Error created while initializing the http request")] }
  else if code = "emf.500.RequesterSendRequestFailure" then some {
    ErrorCode := "emf.500.RequesterSendRequestFailure"
    StatusCode := 500
    Description := "The internal HTTP Request could not be performed as the HTTP client failed to execute the request"
    Message := some [("en", "Failed to execute request. Error: '"
      ++ dataAction "Error" ++ "'")]
    Data := some [("Error", .str "HTTP client error")] }
  else none

/-! ## The error handler

`NewError` reaches outside the repository for the clock, the call stack, `fmt`,
`text/template`, `mapstructure` and the configured template source. The clock, the stack
and the formatting of composite values are fields of `Runtime`. Of `text/template` the
part the builtin messages use is modelled: literal text and actions of the form
`{{.Data.<key>}}`, executed with the option `missingkey=zero`; every other template is
left to `Runtime.execTemplate`. `mapstructure.Decode` of a struct into a map stores the
exported fields under their names and does not fail. Log output is not modelled, only
that a nil logger cannot be called. -/

/-- A runtime panic, by cause. -/
inductive Panic where
  | nilDereference
  | typeAssertion
  | nilMapAssignment
  | templateParse
  | marshalFailure
deriving DecidableEq, Repr

/-- The outcome of parsing and executing a template. -/
inductive TemplateResult where
  | parseError
  | execError (err : GoError)
  | rendered (text : String)

/-- `EMFErrorHandlerType` of `error_handler.go`. `logger` tells whether the logger is
set, and the calls of a set logger return; what the logger behind the field does in
`Debugj` is the `Logger` of `NewErrorLogged`. `templates` is the `UnmarshalKey` of the
configured source, applied to the zero definition (`none` is a nil `ConfigReader`). -/
structure EMFErrorHandlerType where
  logger : Bool := true
  templates : Option (String → Except GoError EMFErrorType) := none
  DebugMode : Bool := false
  Method : String := ""
  Path : String := ""
  QueryString : String := ""
  Data : Option (List (String × GoValue)) := none

/-- What `NewError` takes from outside the repository: the clock, the captured stack and
its printing, the printing of composite values, the templates outside the modelled part,
and whether `json.Marshal` accepts an error value, which its dynamic type decides. -/
structure Runtime where
  now : String
  frames : List String
  formatFrames : List String → String
  format : GoValue → String
  execTemplate : String → String → EMFErrorHandlerType → TemplateResult
  marshalError : GoError → Bool

/-- A piece of a scanned template: literal text, or the inside of an action. -/
inductive Chunk where
  | text (cs : List Char)
  | action (cs : List Char)

/-- The template scanner: text runs up to the next `{{`, an action up to the next `}}`;
the result is `none` when an action is not closed. `cur` collects the piece being read
and `out` the pieces read. -/
def scanTemplate : List Char → Bool → List Char → List Chunk → Option (List Chunk)
  | [], false, cur, out => some (out ++ [Chunk.text cur])
  | [], true, _, _ => none
  | '{' :: '{' :: rest, false, cur, out => scanTemplate rest true [] (out ++ [Chunk.text cur])
  | c :: rest, false, cur, out => scanTemplate rest false (cur ++ [c]) out
  | '}' :: '}' :: rest, true, cur, out => scanTemplate rest false [] (out ++ [Chunk.action cur])
  | c :: rest, true, cur, out => scanTemplate rest true (cur ++ [c]) out

/-- An ASCII letter or an underscore. -/
def isNameStart (c : Char) : Bool :=
  c.isAlpha || c = '_'

/-- An ASCII letter, a digit or an underscore. -/
def isNameChar (c : Char) : Bool :=
  c.isAlphanum || c = '_'

/-- The key of an action of the form `.Data.<key>`, `none` for every other action. -/
def dataKey (action : List Char) : Option String :=
  if ".Data.".data.isPrefixOf action then
    match action.drop 6 with
    | [] => none
    | c :: cs => if isNameStart c && cs.all isNameChar then some (String.mk (c :: cs)) else none
  else none

/-- Printing a value with `fmt.Fprint`: a string is printed as it is, an error by its
`Error()`, composite values and floats by `Runtime.format`. -/
def sprint (R : Runtime) : GoValue → String
  | .str s => s
  | .err e => e.msg
  | .bool true => "true"
  | .bool false => "false"
  | .int n => toString n
  | v => R.format v

/-- Executing `{{.Data.<key>}}` on the handler with `missingkey=zero`: a missing key
gives the zero `interface{}`, and a nil `interface{}` prints as `<no value>`. -/
def renderDataField (R : Runtime) (eh : EMFErrorHandlerType) (key : String) : String :=
  match mapGet eh.Data key with
  | none => "<no value>"
  | some .nil => "<no value>"
  | some v => sprint R v

/-- Executing the pieces of a template in the modelled part; `none` when an action is
outside it. -/
def renderChunks (R : Runtime) (eh : EMFErrorHandlerType) : List Chunk → Option String
  | [] => some ""
  | .text cs :: rest => (renderChunks R eh rest).map (fun s => String.mk cs ++ s)
  | .action a :: rest =>
    match dataKey a with
    | none => none
    | some key => (renderChunks R eh rest).map (fun s => renderDataField R eh key ++ s)

/-- `template.New(language).Parse(message)` followed by `ExecuteTemplate` on the handler. -/
def executeTemplate (R : Runtime) (eh : EMFErrorHandlerType) (language message : String) :
    TemplateResult :=
  match scanTemplate message.data false [] [] with
  | none => .parseError
  | some chunks =>
    match renderChunks R eh chunks with
    | some text => .rendered text
    | none => R.execTemplate language message eh

/-- The loop of `EMFErrorType.Execute` over the entries of `Message`, `done` being the
entries already rendered: `template.Must` panics on a parse error, an execution error is
returned, and a rendered text replaces the template. The list gives the entries in the
order in which the `range` over the map visits them, which Go does not fix. -/
def executeEntries (R : Runtime) (eh : EMFErrorHandlerType) :
    List (String × String) → List (String × String) →
      Except Panic (Except GoError (List (String × String)))
  | [], done => .ok (.ok done)
  | (language, message) :: rest, done =>
    match executeTemplate R eh language message with
    | .parseError => .error .templateParse
    | .execError err => .ok (.error err)
    | .rendered text => executeEntries R eh rest (done ++ [(language, text)])

/-- `EMFErrorType.Execute(eh)`: the instance with its messages rendered, or the error. -/
def EMFErrorType.Execute (R : Runtime) (e : EMFErrorType) (eh : EMFErrorHandlerType) :
    Except Panic (Except GoError EMFErrorType) :=
  match e.Message with
  | none => .ok (.ok e)
  | some entries =>
    match executeEntries R eh entries [] with
    | .error p => .error p
    | .ok (.error err) => .ok (.error err)
    | .ok (.ok rendered) => .ok (.ok { e with Message := some rendered })

/-- The frames `ErrorWrap` keeps: `frames[3:len(frames)-6]` when there are more than 9,
all of them otherwise. -/
def trimFrames (frames : List String) : List String :=
  if frames.length > 9 then (frames.drop 3).take (frames.length - 6 - 3) else frames

/-- `(*EMFErrorType).ErrorWrap()`: stores the formatted, trimmed stack. -/
def EMFErrorType.ErrorWrap (R : Runtime) (e : EMFErrorType) : EMFErrorType :=
  { e with stackTrace := R.formatFrames (trimFrames R.frames) }

/-- `mapstructure.Decode(eh, &data)`: the exported fields of the handler stored into the
data map, which is made first when it is nil. -/
def mergeHandler (eh : EMFErrorHandlerType) (data : Option (List (String × GoValue))) :
    List (String × GoValue) :=
  entriesSet "Data" (.map (eh.Data.getD []))
    (entriesSet "QueryString" (.str eh.QueryString)
      (entriesSet "Path" (.str eh.Path)
        (entriesSet "Method" (.str eh.Method)
          (entriesSet "DebugMode" (.bool eh.DebugMode) (data.getD [])))))

/-- The dynamic value of the `error` that a `NewError` returns. -/
inductive ErrorValue where
  | nil
  | inst (e : EMFErrorType)
  | other (err : GoError)

/-- The definition `NewError` starts from: the builtin one when the code is builtin,
otherwise what `UnmarshalKey` of the template source gives; `Except.error` is the error
that `NewError` returns. -/
def resolveDefinition (eh : EMFErrorHandlerType) (code : String) :
    Except Panic (Except GoError EMFErrorType) :=
  match getBuiltin code with
  | some e => .ok (.ok e)
  | none =>
    match eh.templates with
    | none => .error .nilDereference
    | some unmarshalKey => .ok (unmarshalKey code)

/-- The binding of the cause in `NewError`: with causes the first one is bound and
stored under `"Error"` unless the data has a non-nil entry there (a store into a nil map
panics); without causes an error value under `"Error"` is bound. -/
def bindCause (e : EMFErrorType) (data : Option (List (String × GoValue)))
    (errors : List (Option GoError)) :
    Except Panic (EMFErrorType × Option (List (String × GoValue))) :=
  match errors with
  | first :: _ =>
    let e' := { e with internalError := first }
    let stored : GoValue := match first with
      | none => .nil
      | some err => .err err
    let store : Except Panic (EMFErrorType × Option (List (String × GoValue))) :=
      match data with
      | none => .error .nilMapAssignment
      | some kvs => .ok (e', some (entriesSet "Error" stored kvs))
    match mapGet data "Error" with
    | none => store
    | some .nil => store
    | some _ => .ok (e', data)
  | [] =>
    match mapGet data "Error" with
    | some (.err err) => .ok ({ e with internalError := some err }, data)
    | _ => .ok (e, data)

/-- `(*EMFErrorHandlerType).NewError(code, data, errors...)`: the returned `error` and
the handler afterwards. -/
def EMFErrorHandlerType.NewError (R : Runtime) (eh : EMFErrorHandlerType) (code : String)
    (data : Option (List (String × GoValue))) (errors : List (Option GoError)) :
    Except Panic (ErrorValue × EMFErrorHandlerType) :=
  match resolveDefinition eh code with
  | .error p => .error p
  | .ok (.error err) => .ok (.other err, eh)
  | .ok (.ok e0) =>
    let e1 := { e0 with Timestamp := R.now, ErrorCode := code }
    match bindCause e1 data errors with
    | .error p => .error p
    | .ok (e2, data2) =>
      let data3 := if eh.DebugMode then some (mergeHandler eh data2) else data2
      let e3 := { e2 with Data := data3 }
      let eh' := { eh with Data := data3 }
      match e3.Execute R eh' with
      | .error p => .error p
      | .ok (.error err) => .ok (.other err, eh')
      | .ok (.ok e4) =>
        if eh.logger then .ok (.inst (e4.ErrorWrap R), eh') else .error .nilDereference

/-- `SimpleErrorType.ToEMFError()`; `now` is `time.Now().Format(time.RFC3339)`. -/
def SimpleErrorType.ToEMFError (now : String) (serr : SimpleErrorType) : EMFErrorType :=
  { Message := some [("en", serr.Message)]
    StatusCode := serr.StatusCode
    ErrorCode := serr.ErrorCode
    Timestamp := now }

/-! ## `DecodeEMFError` -/

/-- The `NewError` method of an `errors.EMFErrorHandler` interface value. -/
abbrev NewErrorMethod :=
  String → Option (List (String × GoValue)) → List (Option GoError) → Except Panic ErrorValue

/-- The method of a non-nil `*EMFErrorHandlerType`. -/
def EMFErrorHandlerType.method (R : Runtime) (eh : EMFErrorHandlerType) : NewErrorMethod :=
  fun code data errors => (eh.NewError R code data errors).map Prod.fst

/-- The type assertion `.(*errors.EMFErrorType)` on the result of `NewError`. -/
def assertEMFErrorType : ErrorValue → Except Panic EMFErrorType
  | .inst e => .ok e
  | _ => .error .typeAssertion

/-- The builtin code of a failed decoding of a failing response. -/
def responseFailureCode : String := "emf.500.RequesterErrorResponseFailure"

/-- The last tier of `DecodeEMFError`: the instance `NewError` builds from the builtin
code with the generically decoded body and the error of that decoding. -/
def decodeFailure (newError : NewErrorMethod) (response : GoValue) (err : Option GoError) :
    Except Panic EMFErrorType :=
  let errValue : GoValue := match err with
    | none => .nil
    | some e => .err e
  match newError responseFailureCode (some [("Response", response), ("Error", errValue)]) [] with
  | .error p => .error p
  | .ok v => assertEMFErrorType v

/-- The second and third tier of `DecodeEMFError` for a scanned value. -/
def decodeSimpleOrFailure (now : String) (newError : NewErrorMethod) (j : JSON) :
    Except Panic EMFErrorType :=
  let s := decodeSimpleErrorType j
  if s.2.isNone && s.1.ErrorCode != "" then .ok (s.1.ToEMFError now)
  else
    let bad := decodeAny j
    decodeFailure newError bad.1 bad.2

/-- `DecodeEMFError(r, eh)`: `now` is the clock read by `ToEMFError`, `newError` the
method of `eh`. In the first tier the test `err == nil && e.ErrorCode != ""` reads
through the decoded pointer. -/
def DecodeEMFError (now : String) (newError : NewErrorMethod) : Body → Except Panic EMFErrorType
  | .readError read err => decodeFailure newError (.bytes read) (some err)
  | .invalid err => decodeFailure newError .nil (some err)
  | .value j =>
    match decodeEMFErrorType j with
    | (none, none) => .error .nilDereference
    | (some e, none) =>
      if e.ErrorCode != "" then .ok e else decodeSimpleOrFailure now newError j
    | (_, some _) => decodeSimpleOrFailure now newError j

/-! ## Projection and the outbound response -/

/-- `EMFErrorType.ToSimpleError()`. -/
def EMFErrorType.ToSimpleError (e : EMFErrorType) : SimpleErrorType :=
  { Message := e.Error
    ErrorCode := e.ErrorCode
    StatusCode := e.StatusCode }

/-- A value passed as `msg interface{}` to `sendJSONorPanic`: a (non-nil)
`*errors.EMFErrorType`, a `*errors.SimpleErrorType`, or a value of another type. -/
inductive Payload where
  | inst (e : EMFErrorType)
  | simple (s : SimpleErrorType)
  | value (v : GoValue)

/-- The type assertion `msg.(*errors.EMFErrorType)`: the instance when `ok`. -/
def Payload.asInstance : Payload → Option EMFErrorType
  | .inst e => some e
  | _ => none

/-- What `sendJSONorPanic` does with its arguments: the message it logs, and the status
and the message it hands to `c.JSON`. -/
structure Sent where
  logged : Payload
  code : Int
  body : Payload

/-- `sendJSONorPanic(c, code, isDebug, msg)` of `middleware/error_handler.go`. -/
def sendJSONorPanic (code : Int) (isDebug : Bool) (msg : Payload) : Sent :=
  match msg.asInstance with
  | some e =>
    if !isDebug then { logged := msg, code := code, body := .simple e.ToSimpleError }
    else { logged := msg, code := code, body := msg }
  | none => { logged := msg, code := code, body := msg }

/-! ## The configured template source -/

/-- `UnmarshalKey` of the `viper` configuration that `WithTemplate` loads through
`configurer.LoadConfig`: it decodes `Get(key)` into the definition, and for a key that
the configuration does not hold `Get` gives nil, for which the decoding stores nothing
and reports no error. `table` gives, for each key the configuration holds, the outcome of
decoding its value into the zero definition. -/
def viperUnmarshalKey (table : List (String × Except GoError EMFErrorType)) (code : String) :
    Except GoError EMFErrorType :=
  match entriesGet code table with
  | some outcome => outcome
  | none => .ok {}

/-! ## Reading a body

What a statement about "the `errorCode` member of the body" refers to: the members of an
object whose key selects a given field, and the codes a body holds at the top level and
under `error`. -/

/-- The values of the members of an object whose key selects the field `name`, in the
order of the text. -/
def membersOf (name : String) : List (String × JSON) → List JSON
  | [] => []
  | (k, v) :: rest =>
    if fieldMatches name k then v :: membersOf name rest else membersOf name rest

/-- The value of the last member of an object whose key is exactly `k`: the one a Go map
holds under `k` after the members were stored in the order of the text. -/
def lastMember (k : String) : List (String × JSON) → Option JSON
  | [] => none
  | (k', v) :: rest =>
    match lastMember k rest with
    | some w => some w
    | none => if k' = k then some v else none

/-- Whether one of the values is a non-empty string. -/
def hasCode : List JSON → Bool
  | [] => false
  | .str c :: rest => c != "" || hasCode rest
  | _ :: rest => hasCode rest

/-- The values of the top-level `errorCode` members of a body. -/
def topLevelCodes : JSON → List JSON
  | .obj kvs => membersOf "ErrorCode" kvs
  | _ => []

/-- The values of the `errorCode` members of the objects among `vs`. -/
def innerCodes : List JSON → List JSON
  | [] => []
  | .obj inner :: rest => membersOf "errorCode" inner ++ innerCodes rest
  | _ :: rest => innerCodes rest

/-- The values of the `errorCode` members under the top-level `error` members of a
body. -/
def nestedCodes : JSON → List JSON
  | .obj kvs => innerCodes (membersOf "error" kvs)
  | _ => []

/-- Whether a JSON value is the literal `null`. -/
def JSON.isNull : JSON → Bool
  | .null => true
  | _ => false

/-- A runtime for the examples: a fixed clock, an empty stack, composite values printed
as nothing, and error values that `json.Marshal` accepts. -/
def exampleRuntime : Runtime :=
  { now := "2020-01-01T00:00:00Z"
    frames := []
    formatFrames := fun fs => String.join fs
    format := fun _ => ""
    execTemplate := fun _ _ _ => .rendered ""
    marshalError := fun _ => true }

/-- A handler for the examples: a logger, no template source, debug mode off. -/
def exampleHandler : EMFErrorHandlerType := {}

/-! ## Status groups and the stack trace -/

/-- `EMFErrorType.IsStatusGroup(code)`; the division of Go truncates toward zero. -/
def EMFErrorType.IsStatusGroup (e : EMFErrorType) (code : Int) : Bool :=
  (e.StatusCode.tdiv 100) * 100 == code

/-- `EMFErrorType.GetStackTrace()`: the returned text, and the instance that the caller
holds after the call. The method has a value receiver, so `ErrorWrap` works on the copy
`e` of the receiver that the call made. `R` is the runtime at the call. -/
def EMFErrorType.GetStackTrace (R : Runtime) (held : EMFErrorType) : String × EMFErrorType :=
  let e := held
  let e := if e.stackTrace = "" then e.ErrorWrap R else e
  (e.stackTrace, held)

/-! ## Limit and offset -/

/-- The outcome of `strconv.Atoi`: the value, or a syntax error (with value 0), or a
range error (with the nearest 64-bit value). -/
inductive AtoiResult where
  | ok (n : Int)
  | syntaxError
  | rangeError (n : Int)
deriving DecidableEq, Repr

/-- The value of a run of decimal digits after `acc`; `none` when a character is not a
digit. -/
def digitsValue : List Char → Nat → Option Nat
  | [], acc => some acc
  | c :: rest, acc =>
    if c.isDigit then digitsValue rest (acc * 10 + (c.toNat - '0'.toNat)) else none

/-- The magnitude of an unsigned decimal literal; `none` when it is empty or has a
character that is not a digit. -/
def parseMagnitude (cs : List Char) : Option Nat :=
  match cs with
  | [] => none
  | _ => digitsValue cs 0

/-- `strconv.Atoi(s)` with a 64-bit `int`: an optional sign and decimal digits. -/
def Atoi (s : String) : AtoiResult :=
  let signed : Bool × List Char :=
    match s.data with
    | '-' :: rest => (true, rest)
    | '+' :: rest => (false, rest)
    | cs => (false, cs)
  match parseMagnitude signed.2 with
  | none => .syntaxError
  | some m =>
    if signed.1 then
      if m ≤ 2 ^ 63 then .ok (-(m : Int)) else .rangeError (-(2 : Int) ^ 63)
    else
      if m < 2 ^ 63 then .ok (m : Int) else .rangeError ((2 : Int) ^ 63 - 1)

/-- The value that `Atoi` returns next to its error. -/
def AtoiResult.value : AtoiResult → Int
  | .ok n => n
  | .syntaxError => 0
  | .rangeError n => n

/-- `RequestHandlerType.GetMaxLimit()`; `configured` is `cfg.GetInt("api.max_limit")`,
which is 0 when the key is not set. -/
def GetMaxLimit (configured : Int) : Int :=
  if configured = 0 then 50 else configured

/-- `RequestHandlerType.GetDefaultLimit()`; `configured` is
`cfg.GetInt("api.default_limit")`. -/
def GetDefaultLimit (configured : Int) : Int :=
  if configured = 0 then 20 else configured

/-- A call `ctx.NewError(code, data)`, whose result is the `err` that
`GetLimitAndOffset` returns. -/
structure NewErrorCall where
  code : String
  data : List (String × GoValue)

/-- The call `ctx.NewError("emf.400.QueryParameterInvalid", {"Param": param, "Error":
fmt.Errorf(text)})`. -/
def queryParameterInvalid (param text : String) : NewErrorCall :=
  { code := "emf.400.QueryParameterInvalid"
    data := [("Param", .str param), ("Error", .err { msg := text })] }

/-- The `Param` of a recorded call. -/
def NewErrorCall.param (call : NewErrorCall) : Option GoValue :=
  entriesGet "Param" call.data

/-- The limit part of `GetLimitAndOffset`: the value of `limit` before the default is
applied. `limStr` is `ctx.QueryParam("limit")`, the empty string when the parameter is
absent. -/
def checkLimit (maxLimit : Int) (limStr : String) : Except NewErrorCall Int :=
  if limStr ≠ "" then
    match Atoi limStr with
    | .ok limit =>
      if limit < 0 ∨ limit > maxLimit then
        .error (queryParameterInvalid "limit"
          ("limit '" ++ toString limit ++ "' must be between 1 and " ++ toString maxLimit))
      else .ok limit
    | r =>
      .error (queryParameterInvalid "limit"
        ("limit '" ++ toString r.value ++ "' is not a valid integer"))
  else .ok 0

/-- The offset part of `GetLimitAndOffset`. -/
def checkOffset (offStr : String) : Except NewErrorCall Int :=
  if offStr ≠ "" then
    match Atoi offStr with
    | .ok offset =>
      if offset < 0 then
        .error (queryParameterInvalid "offset"
          ("offset '" ++ toString offset ++ "' is not a positive integer"))
      else .ok offset
    | r =>
      .error (queryParameterInvalid "offset"
        ("offset '" ++ toString r.value ++ "' is not a valid integer"))
  else .ok 0

/-- `(*EMFContextType).GetLimitAndOffset()`: the pair `(limit, offset)`, or the
`NewError` call whose result is returned as `err`. `maxLimit` and `defaultLimit` are
`ctx.GetMaxLimit()` and `ctx.GetDefaultLimit()`. -/
def GetLimitAndOffset (maxLimit defaultLimit : Int) (limStr offStr : String) :
    Except NewErrorCall (Int × Int) :=
  match checkLimit maxLimit limStr with
  | .error call => .error call
  | .ok limit0 =>
    let limit := if limit0 = 0 then defaultLimit else limit0
    match checkOffset offStr with
    | .error call => .error call
    | .ok offset => .ok (limit, offset)

/-! ## The HTTP error handler -/

/-- The error that `CustomHTTPErrorHandler` is given, by the cases of its type switch: a
(non-nil) `*errors.EMFErrorType`; a (non-nil) `*echo.HTTPError` with its `Message`, its
`Code`, its `Error()` text and whether it is the pointer `ErrJWTMissing`; a
`jwt.ValidationError` value with its `Error()` text; or any other `error`, nil
included. -/
inductive HandledError where
  | emf (e : EMFErrorType)
  | http (isErrJWTMissing : Bool) (message : GoValue) (code : Int) (text : String)
  | jwtValidation (text : String)
  | other (err : Option GoError)

/-- What the handler reads from the `echo.Context`: the request method, the route path,
the query string and `c.QueryParam("debug_mode")`. -/
structure RequestInfo where
  Method : String := ""
  Path : String := ""
  QueryString : String := ""
  debugMode : String := ""

/-- The value of an `error` passed on as `msg interface{}`. -/
def ErrorValue.payload : ErrorValue → Payload
  | .nil => .value .nil
  | .inst e => .inst e
  | .other err => .value (.err err)

/-- The comparison `e.Message == "invalid or expired jwt"` of an `interface{}` with a
string. -/
def isExpiredMessage : GoValue → Bool
  | .str s => s == "invalid or expired jwt"
  | _ => false

/-- `sendJSONorPanic(c, code, eh.DebugMode, eh.NewError(code, {"Error": e}))`. -/
def sendNewError (R : Runtime) (eh : EMFErrorHandlerType) (status : Int) (code text : String) :
    Except Panic Sent :=
  match eh.NewError R code (some [("Error", .err { msg := text })]) [] with
  | .error p => .error p
  | .ok r => .ok (sendJSONorPanic status eh.DebugMode r.1.payload)

/-- `CustomHTTPErrorHandler(err, c)` of `middleware/error_handler.go`; the handler it
makes has the logger of the context and no template source. -/
def CustomHTTPErrorHandler (R : Runtime) (c : RequestInfo) (err : HandledError) :
    Except Panic Sent :=
  let eh : EMFErrorHandlerType :=
    { logger := true
      templates := none
      DebugMode := c.debugMode == "true"
      Method := c.Method
      Path := c.Path
      QueryString := c.QueryString }
  match err with
  | .emf e =>
    let code := if e.StatusCode ≠ 0 then e.StatusCode else 500
    .ok (sendJSONorPanic code eh.DebugMode (.inst e))
  | .http isErrJWTMissing message code text =>
    if isErrJWTMissing then sendNewError R eh 400 "emf.400.TokenMissing" text
    else if isExpiredMessage message then sendNewError R eh 401 "emf.401.TokenExpired" text
    else
      let status := if code ≠ 0 then code else 500
      .ok (sendJSONorPanic status eh.DebugMode (.value message))
  | .jwtValidation text => sendNewError R eh 400 "emf.400.TokenMissing" text
  | .other err =>
    let msg : Payload := match err with
      | none => .value .nil
      | some e => .value (.err e)
    .ok (sendJSONorPanic 500 eh.DebugMode msg)

/-! ## The closing log call of `NewError` -/

mutual
/-- Whether `json.Marshal` accepts a value held in an `interface{}`: a float64 that is
not finite is an `UnsupportedValueError`, an error value goes by its dynamic type, and a
slice or a map is accepted when its elements are. -/
def jsonMarshals (R : Runtime) : GoValue → Bool
  | .nil => true
  | .bool _ => true
  | .int _ => true
  | .float n => n.finiteFloat
  | .str _ => true
  | .bytes _ => true
  | .err e => R.marshalError e
  | .list xs => jsonMarshalsList R xs
  | .map kvs => jsonMarshalsEntries R kvs
/-- Whether `json.Marshal` accepts every element of a slice. -/
def jsonMarshalsList (R : Runtime) : List GoValue → Bool
  | [] => true
  | x :: xs => jsonMarshals R x && jsonMarshalsList R xs
/-- Whether `json.Marshal` accepts every value of a map. -/
def jsonMarshalsEntries (R : Runtime) : List (String × GoValue) → Bool
  | [] => true
  | (_, v) :: rest => jsonMarshals R v && jsonMarshalsEntries R rest
end

/-- `EMFErrorType.ErrorMap()`: `mapstructure.Decode(e, &errmap)` stores the exported
fields under their names; it reports no error for this struct. -/
def EMFErrorType.ErrorMap (e : EMFErrorType) : List (String × GoValue) :=
  [("Timestamp", .str e.Timestamp),
   ("StatusCode", .int e.StatusCode),
   ("ErrorCode", .str e.ErrorCode),
   ("Description", .str e.Description),
   ("Message", .map ((e.Message.getD []).map (fun kv => (kv.1, GoValue.str kv.2)))),
   ("Level", .str e.Level),
   ("Data", .map (e.Data.getD []))]

/-- The `echo.Logger` behind the `logger` field of a handler: gommon's `*log.Logger`,
which `logger.New` returns at the level `DEBUG` when neither elasticsearch nor syslog is
configured (`debug` tells whether its level admits `DEBUG`), or the logrus wrapper
`logger.Logger` of `emf/logger`. -/
inductive Logger where
  | gommon (debug : Bool)
  | logrus
deriving DecidableEq, Repr

/-- `Debugj(j)` of the logger: gommon's logger at a level that admits `DEBUG` marshals
`j` with `json.Marshal` and panics with the error when that fails; below that level it
does nothing; the logrus wrapper hands the fields to logrus, which returns. -/
def Logger.Debugj (R : Runtime) (lg : Logger) (j : List (String × GoValue)) :
    Except Panic Unit :=
  match lg with
  | .gommon true => if jsonMarshalsEntries R j then .ok () else .error .marshalFailure
  | _ => .ok ()

/-- `(*EMFErrorHandlerType).NewError(code, data, errors...)` on a handler whose logger is
`lg`: the steps of `EMFErrorHandlerType.NewError`, and for an instance the closing
`eh.logger.Debugj(errorMap)` as `lg` does it. The error map is made before `ErrorWrap`,
which changes no exported field. -/
def EMFErrorHandlerType.NewErrorLogged (R : Runtime) (lg : Logger) (eh : EMFErrorHandlerType)
    (code : String) (data : Option (List (String × GoValue)))
    (errors : List (Option GoError)) : Except Panic (ErrorValue × EMFErrorHandlerType) :=
  match eh.NewError R code data errors with
  | .ok (.inst e, eh') =>
    match lg.Debugj R e.ErrorMap with
    | .error p => .error p
    | .ok _ => .ok (.inst e, eh')
  | r => r

end EMF

/-! # Theorems -/

namespace EMF

/-- The characters of `p ++ "." ++ r`. -/
theorem data_append_dot (p r : String) : (p ++ "." ++ r).data = p.data ++ '.' :: r.data := by
  simp [String.data_append]

/-- `HasPrefix s (p ++ ".")` holds iff `s` is `p`, a dot and a rest. -/
theorem hasPrefix_dot_iff (s p : String) :
    HasPrefix s (p ++ ".") = true ↔ ∃ r : String, s = p ++ "." ++ r := by
  unfold HasPrefix
  rw [List.isPrefixOf_iff_prefix]
  constructor
  · rintro ⟨t, ht⟩
    refine ⟨String.mk t, ?_⟩
    apply String.ext
    rw [data_append_dot, ← ht]
    simp [String.data_append]
  · rintro ⟨r, rfl⟩
    refine ⟨r.data, ?_⟩
    simp [String.data_append]

/-- The text before the first dot of `p ++ "." ++ t` is `p` when `p` has no dot. -/
theorem takeWhile_not_dot (p t : List Char) (hp : '.' ∉ p) :
    (p ++ '.' :: t).takeWhile (fun c => c != '.') = p := by
  induction p with
  | nil => simp
  | cons a p ih =>
    have ha : a ≠ '.' := fun h => hp (by simp [h])
    have hp' : '.' ∉ p := fun h => hp (by simp [h])
    have hb : (a != '.') = true := by simpa using ha
    rw [List.cons_append, List.takeWhile_cons, hb]
    simp [ih hp']

/-- A text with a dot starts with its leading segment followed by a dot. -/
theorem prefix_dot_of_takeWhile (l : List Char) (h : '.' ∈ l) :
    (l.takeWhile (fun c => c != '.') ++ ['.']) <+: l := by
  induction l with
  | nil => simp at h
  | cons a l ih =>
    by_cases ha : a = '.'
    · subst ha
      simp [List.takeWhile]
    · have hl : '.' ∈ l := by
        rcases List.mem_cons.mp h with h1 | h1
        · exact absurd h1.symm ha
        · exact h1
      obtain ⟨t, ht⟩ := ih hl
      have hb : (a != '.') = true := by simpa using ha
      refine ⟨t, ?_⟩
      rw [List.takeWhile_cons, hb]
      simpa using ht

/-! ## Matcher protocol -/

/-- C1: a target that implements `TypedError` is judged by the code comparison alone:
for every instance `e` and every target whose dynamic type has `ErrorType()` returning
`c` (whatever else it implements), `e.Is(target)` is true iff `e.ErrorCode = c`. This
holds for the probe `ErrorType(c)` and for another instance used as target, so two
instances match each other exactly when their codes are equal, whatever their other
fields. -/
theorem is_typed_iff_code_eq (e : EMFErrorType) (c : String) :
    (∀ (msg : String) (code : Option Int) (comp : Option String),
        e.Is (some { msg := msg, errorType := some c, code := code, component := comp }) = true
          ↔ e.ErrorCode = c) ∧
    (e.Is (some (ErrorType c)) = true ↔ e.ErrorCode = c) ∧
    (∀ e' : EMFErrorType, e.Is (some e'.asError) = true ↔ e.ErrorCode = e'.ErrorCode) := by
  refine ⟨?_, ?_, ?_⟩
  · intro msg code comp
    simp [EMFErrorType.Is]
  · simp [EMFErrorType.Is, ErrorType]
  · intro e'
    simp [EMFErrorType.Is, EMFErrorType.asError, EMFErrorType.ErrorType]

/-- C2: `e.Is(ErrorResponseCode(n))` is true iff `e.StatusCode = n` (exact equality).
Hence another instance with the same status and a different code matches the same status
probe while neither matches the code probe of the other, and a status of 400 never
matches `ErrorResponseCode(401)`. -/
theorem is_response_code_iff_status_eq (e : EMFErrorType) (n : Int) :
    (e.Is (some (ErrorResponseCode n)) = true ↔ e.StatusCode = n) ∧
    (∀ e' : EMFErrorType, e'.StatusCode = e.StatusCode → e'.ErrorCode ≠ e.ErrorCode →
        e'.Is (some (ErrorResponseCode e.StatusCode)) = true ∧
        e.Is (some (ErrorResponseCode e.StatusCode)) = true ∧
        e.Is (some (ErrorType e'.ErrorCode)) = false ∧
        e'.Is (some (ErrorType e.ErrorCode)) = false) ∧
    (e.StatusCode = 400 → e.Is (some (ErrorResponseCode 401)) = false) := by
  refine ⟨?_, ?_, ?_⟩
  · simp [EMFErrorType.Is, ErrorResponseCode]
  · intro e' hs hc
    refine ⟨?_, ?_, ?_, ?_⟩
    · simp [EMFErrorType.Is, ErrorResponseCode, hs]
    · simp [EMFErrorType.Is, ErrorResponseCode]
    · simpa [EMFErrorType.Is, ErrorType] using fun h => hc h.symm
    · simpa [EMFErrorType.Is, ErrorType] using hc
  · intro h
    simp [EMFErrorType.Is, ErrorResponseCode, h]

/-- C3, as the claim states it, fails in both directions: the code `"emf"` has leading
segment `"emf"` and does not match the component probe `"emf"`, and the code `"a.b.c"`
matches the component probe `"a.b"`, which is not its leading segment `"a"`. -/
theorem is_component_leading_segment_counterexample :
    (EMFErrorType.Is { ErrorCode := "emf" } (some (ErrorFromComponent "emf")) = false ∧
      "emf" = leadingSegment "emf") ∧
    (EMFErrorType.Is { ErrorCode := "a.b.c" } (some (ErrorFromComponent "a.b")) = true ∧
      "a.b" ≠ leadingSegment "a.b.c") := by
  decide

/-- C3 (amended): for a component that contains no `.`, `e.Is(ErrorFromComponent(component))`
is true iff `e.ErrorCode` contains a `.` and `component` is the text before its first
`.`. -/
theorem is_component_iff (e : EMFErrorType) (component : String)
    (hc : '.' ∉ component.data) :
    e.Is (some (ErrorFromComponent component)) = true
      ↔ '.' ∈ e.ErrorCode.data ∧ component = leadingSegment e.ErrorCode := by
  have hIs : e.Is (some (ErrorFromComponent component))
      = HasPrefix e.ErrorCode (component ++ ".") := by
    simp [EMFErrorType.Is, ErrorFromComponent]
  rw [hIs]
  constructor
  · intro h
    obtain ⟨r, hr⟩ := (hasPrefix_dot_iff _ _).mp h
    have hd : e.ErrorCode.data = component.data ++ '.' :: r.data := by
      rw [hr, data_append_dot]
    refine ⟨by simp [hd], ?_⟩
    apply String.ext
    simp [leadingSegment, hd, takeWhile_not_dot _ _ hc]
  · rintro ⟨hdot, hseg⟩
    unfold HasPrefix
    rw [List.isPrefixOf_iff_prefix]
    have := prefix_dot_of_takeWhile e.ErrorCode.data hdot
    have hseg' : component.data = e.ErrorCode.data.takeWhile (fun c => c != '.') := by
      rw [hseg]; rfl
    simpa [String.data_append, hseg'] using this

/-- Witness of `is_component_iff` at the code `"emf.400.TokenMissing"` and the component
`"emf"`. -/
theorem is_component_iff_witness :
    '.' ∉ "emf".data ∧
    ((EMFErrorType.Is { ErrorCode := "emf.400.TokenMissing" }
        (some (ErrorFromComponent "emf")) = true)
      ↔ ('.' ∈ "emf.400.TokenMissing".data ∧
          "emf" = leadingSegment "emf.400.TokenMissing")) :=
  ⟨by decide, is_component_iff { ErrorCode := "emf.400.TokenMissing" } "emf" (by decide)⟩

/-- C4: for components `a ≠ b` without `.` and every instance whose code is
`a + "." + rest`, the component probe of `a` matches and that of `b` does not, whatever
the status code of the instance. -/
theorem is_component_distinct (a b rest : String) (e : EMFErrorType)
    (ha : '.' ∉ a.data) (hb : '.' ∉ b.data) (hab : a ≠ b)
    (hcode : e.ErrorCode = a ++ "." ++ rest) :
    e.Is (some (ErrorFromComponent b)) = false ∧
    e.Is (some (ErrorFromComponent a)) = true := by
  have hIs : ∀ c : String, e.Is (some (ErrorFromComponent c))
      = HasPrefix e.ErrorCode (c ++ ".") := by
    intro c
    simp [EMFErrorType.Is, ErrorFromComponent]
  constructor
  · rw [hIs, Bool.eq_false_iff]
    intro h
    obtain ⟨r, hr⟩ := (hasPrefix_dot_iff _ _).mp h
    have h1 : a.data ++ '.' :: rest.data = b.data ++ '.' :: r.data := by
      rw [← data_append_dot, ← data_append_dot, ← hcode, hr]
    have h2 := congrArg (List.takeWhile (fun c => c != '.')) h1
    rw [takeWhile_not_dot _ _ ha, takeWhile_not_dot _ _ hb] at h2
    exact hab (String.ext h2)
  · rw [hIs]
    exact (hasPrefix_dot_iff _ _).mpr ⟨rest, hcode⟩

/-- Witness of `is_component_distinct`: the codes `"auth.401.X"` and `"billing.401.Y"`
of the specification's scenario. -/
theorem is_component_distinct_witness :
    EMFErrorType.Is { ErrorCode := "auth.401.X", StatusCode := 401 }
        (some (ErrorFromComponent "billing")) = false ∧
    EMFErrorType.Is { ErrorCode := "auth.401.X", StatusCode := 401 }
        (some (ErrorFromComponent "auth")) = true :=
  is_component_distinct "auth" "billing" "401.X"
    { ErrorCode := "auth.401.X", StatusCode := 401 }
    (by decide) (by decide) (by decide) (by decide)

/-- C5: `Is` returns the result of one capability chosen by the shape of the target: the
code comparison when the target has `ErrorType()`, otherwise the status comparison when
it has `Code()`, otherwise the component prefix test when it has `Component()`, and false
for a target with none of the three and for a nil target. -/
theorem is_dispatch (e : EMFErrorType) (msg : String) :
    (∀ (t : String) (code : Option Int) (comp : Option String),
      e.Is (some { msg := msg, errorType := some t, code := code, component := comp })
        = (e.ErrorCode == t)) ∧
    (∀ (c : Int) (comp : Option String),
      e.Is (some { msg := msg, errorType := none, code := some c, component := comp })
        = (e.StatusCode == c)) ∧
    (∀ comp : String,
      e.Is (some { msg := msg, errorType := none, code := none, component := some comp })
        = HasPrefix e.ErrorCode (comp ++ ".")) ∧
    e.Is (some { msg := msg, errorType := none, code := none, component := none }) = false ∧
    e.Is none = false := by
  refine ⟨?_, ?_, ?_, ?_, ?_⟩ <;> intros <;> rfl

/-! ## Decoding a failing response -/

/-- A key selects at most one of two field names that differ under folding. -/
theorem fieldMatches_excl (a b k : String)
    (hab : (a.data.map foldRune == b.data.map foldRune) = false)
    (h : fieldMatches a k = true) : fieldMatches b k = false := by
  unfold fieldMatches at *
  rw [beq_iff_eq] at h
  rw [Bool.eq_false_iff] at hab ⊢
  intro hb
  rw [beq_iff_eq] at hb
  exact hab (by rw [beq_iff_eq, ← h, ← hb])

/-- The `ErrorCode` after one member: decoded from it when its key selects the field,
unchanged otherwise. -/
theorem decodeEMFField_code (e : EMFErrorType) (k : String) (v : JSON) :
    (decodeEMFField e k v).1.ErrorCode
      = if fieldMatches "ErrorCode" k then (decodeString e.ErrorCode v).1 else e.ErrorCode := by
  have h1 := fieldMatches_excl "Timestamp" "ErrorCode" k (by decide)
  have h2 := fieldMatches_excl "StatusCode" "ErrorCode" k (by decide)
  unfold decodeEMFField
  split_ifs <;> simp_all

/-- The `StatusCode` after one member. -/
theorem decodeEMFField_status (e : EMFErrorType) (k : String) (v : JSON) :
    (decodeEMFField e k v).1.StatusCode
      = if fieldMatches "StatusCode" k then (decodeInt e.StatusCode v).1 else e.StatusCode := by
  have h1 := fieldMatches_excl "Timestamp" "StatusCode" k (by decide)
  unfold decodeEMFField
  split_ifs <;> simp_all

/-- The `Message` after one member. -/
theorem decodeEMFField_message (e : EMFErrorType) (k : String) (v : JSON) :
    (decodeEMFField e k v).1.Message
      = if fieldMatches "Message" k then (decodeStringMap e.Message v).1 else e.Message := by
  have h1 := fieldMatches_excl "Timestamp" "Message" k (by decide)
  have h2 := fieldMatches_excl "StatusCode" "Message" k (by decide)
  have h3 := fieldMatches_excl "ErrorCode" "Message" k (by decide)
  have h4 := fieldMatches_excl "Description" "Message" k (by decide)
  unfold decodeEMFField
  split_ifs <;> simp_all

/-- The `Data` after one member. -/
theorem decodeEMFField_data (e : EMFErrorType) (k : String) (v : JSON) :
    (decodeEMFField e k v).1.Data
      = if fieldMatches "Data" k then (decodeAnyMap e.Data v).1 else e.Data := by
  have h1 := fieldMatches_excl "Timestamp" "Data" k (by decide)
  have h2 := fieldMatches_excl "StatusCode" "Data" k (by decide)
  have h3 := fieldMatches_excl "ErrorCode" "Data" k (by decide)
  have h4 := fieldMatches_excl "Description" "Data" k (by decide)
  have h5 := fieldMatches_excl "Message" "Data" k (by decide)
  have h6 := fieldMatches_excl "Level" "Data" k (by decide)
  unfold decodeEMFField
  split_ifs <;> simp_all

/-- Decoding never sets the unexported `internalError`. -/
theorem decodeEMFField_cause (e : EMFErrorType) (k : String) (v : JSON) :
    (decodeEMFField e k v).1.internalError = e.internalError := by
  unfold decodeEMFField
  split_ifs <;> rfl

/-- The decoded `ErrorCode` is the result of decoding, in order, the members that select it.
-/
theorem decodeEMFMembers_code (kvs : List (String × JSON)) :
    ∀ e : EMFErrorType, (decodeEMFMembers kvs e).1.ErrorCode
      = (membersOf "ErrorCode" kvs).foldl (fun cur v => (decodeString cur v).1) e.ErrorCode := by
  induction kvs with
  | nil => intro e; rfl
  | cons kv rest ih =>
    intro e
    obtain ⟨k, v⟩ := kv
    simp only [decodeEMFMembers, membersOf, ih, decodeEMFField_code]
    split_ifs <;> rfl

/-- The decoded `StatusCode` is the result of decoding, in order, the members that select
it. -/
theorem decodeEMFMembers_status (kvs : List (String × JSON)) :
    ∀ e : EMFErrorType, (decodeEMFMembers kvs e).1.StatusCode
      = (membersOf "StatusCode" kvs).foldl (fun cur v => (decodeInt cur v).1) e.StatusCode := by
  induction kvs with
  | nil => intro e; rfl
  | cons kv rest ih =>
    intro e
    obtain ⟨k, v⟩ := kv
    simp only [decodeEMFMembers, membersOf, ih, decodeEMFField_status]
    split_ifs <;> rfl

/-- The decoded `Message` is the result of decoding, in order, the members that select it.
-/
theorem decodeEMFMembers_message (kvs : List (String × JSON)) :
    ∀ e : EMFErrorType, (decodeEMFMembers kvs e).1.Message
      = (membersOf "Message" kvs).foldl (fun cur v => (decodeStringMap cur v).1) e.Message := by
  induction kvs with
  | nil => intro e; rfl
  | cons kv rest ih =>
    intro e
    obtain ⟨k, v⟩ := kv
    simp only [decodeEMFMembers, membersOf, ih, decodeEMFField_message]
    split_ifs <;> rfl

/-- The decoded `Data` is the result of decoding, in order, the members that select it. -/
theorem decodeEMFMembers_data (kvs : List (String × JSON)) :
    ∀ e : EMFErrorType, (decodeEMFMembers kvs e).1.Data
      = (membersOf "Data" kvs).foldl (fun cur v => (decodeAnyMap cur v).1) e.Data := by
  induction kvs with
  | nil => intro e; rfl
  | cons kv rest ih =>
    intro e
    obtain ⟨k, v⟩ := kv
    simp only [decodeEMFMembers, membersOf, ih, decodeEMFField_data]
    split_ifs <;> rfl

/-- Values without a non-empty string leave an empty string field empty. -/
theorem foldl_decodeString_empty (vs : List JSON) (h : hasCode vs = false) :
    vs.foldl (fun cur v => (decodeString cur v).1) "" = "" := by
  induction vs with
  | nil => rfl
  | cons v rest ih =>
    cases v <;> simp_all [hasCode, decodeString]


/-- `hasCode` of a concatenation. -/
theorem hasCode_append (a b : List JSON) : hasCode (a ++ b) = (hasCode a || hasCode b) := by
  induction a with
  | nil => simp [hasCode]
  | cons v rest ih => cases v <;> simp [hasCode, ih, Bool.or_assoc]

/-- The nested `ErrorCode` of a `SimpleErrorType` after one member of the `error` object. -/
theorem decodeSimpleInnerField_code (s : SimpleErrorType) (k : String) (v : JSON) :
    (decodeSimpleInnerField s k v).1.ErrorCode
      = if fieldMatches "errorCode" k then (decodeString s.ErrorCode v).1 else s.ErrorCode := by
  have h1 := fieldMatches_excl "message" "errorCode" k (by decide)
  unfold decodeSimpleInnerField
  split_ifs <;> simp_all

/-- The nested `ErrorCode` is the result of decoding, in order, the members that select it.
-/
theorem decodeSimpleInnerMembers_code (kvs : List (String × JSON)) :
    ∀ s : SimpleErrorType, (decodeSimpleInnerMembers kvs s).1.ErrorCode
      = (membersOf "errorCode" kvs).foldl (fun cur v => (decodeString cur v).1) s.ErrorCode := by
  induction kvs with
  | nil => intro s; rfl
  | cons kv rest ih =>
    intro s
    obtain ⟨k, v⟩ := kv
    simp only [decodeSimpleInnerMembers, membersOf, ih, decodeSimpleInnerField_code]
    split_ifs <;> rfl

/-- One top-level member without a non-empty nested code leaves an empty `ErrorCode` empty.
-/
theorem decodeSimpleField_code_empty (s : SimpleErrorType) (k : String) (v : JSON)
    (hs : s.ErrorCode = "")
    (hv : fieldMatches "error" k = true → hasCode (innerCodes [v]) = false) :
    (decodeSimpleField s k v).1.ErrorCode = "" := by
  unfold decodeSimpleField
  split_ifs with h1 h2
  · cases v with
    | obj inner =>
      have := hv h1
      simp only [innerCodes, List.append_nil] at this
      simp only [decodeSimpleInnerMembers_code, hs]
      exact foldl_decodeString_empty _ this
    | _ => exact hs
  · exact hs
  · exact hs

/-- An object without a non-empty nested code decodes to an empty `ErrorCode`. -/
theorem decodeSimpleMembers_code_empty (kvs : List (String × JSON)) :
    ∀ s : SimpleErrorType, s.ErrorCode = "" →
      hasCode (innerCodes (membersOf "error" kvs)) = false →
      (decodeSimpleMembers kvs s).1.ErrorCode = "" := by
  induction kvs with
  | nil => intro s hs _; exact hs
  | cons kv rest ih =>
    intro s hs h
    obtain ⟨k, v⟩ := kv
    simp only [decodeSimpleMembers]
    apply ih
    · apply decodeSimpleField_code_empty _ _ _ hs
      intro hk
      simp only [membersOf, hk, if_true] at h
      cases v <;> simp_all [innerCodes, hasCode_append, hasCode]
    · by_cases hk : fieldMatches "error" k = true
      · simp only [membersOf, hk, if_true] at h
        cases v <;> simp_all [innerCodes, hasCode_append, hasCode]
      · simpa [membersOf, hk] using h

/-- A body without a non-empty nested code decodes to a `SimpleErrorType` with an empty
`ErrorCode`. -/
theorem decodeSimpleErrorType_code_empty (j : JSON) (h : hasCode (nestedCodes j) = false) :
    (decodeSimpleErrorType j).1.ErrorCode = "" := by
  cases j with
  | obj kvs => exact decodeSimpleMembers_code_empty kvs {} rfl h
  | _ => rfl

/-- When the second tier does not recognise the value, the result is that of the last tier.
-/
theorem decodeSimpleOrFailure_unrecognised (now : String) (newError : NewErrorMethod) (j : JSON)
    (h : (decodeSimpleErrorType j).2.isNone = false ∨ (decodeSimpleErrorType j).1.ErrorCode = "") :
    decodeSimpleOrFailure now newError j = decodeFailure newError (decodeAny j).1 (decodeAny j).2 := by
  unfold decodeSimpleOrFailure
  rcases h with h | h <;> simp [h]

/-- When the first tier does not recognise a value other than `null`, the result is that of
the later tiers. -/
theorem decodeEMFError_second_tier (now : String) (newError : NewErrorMethod) (j : JSON)
    (hnull : j.isNull = false)
    (h : (decodeEMFErrorType j).2.isNone = false ∨
      ∀ e, (decodeEMFErrorType j).1 = some e → e.ErrorCode = "") :
    DecodeEMFError now newError (.value j) = decodeSimpleOrFailure now newError j := by
  cases j with
  | null => simp [JSON.isNull] at hnull
  | obj kvs =>
    simp only [DecodeEMFError, decodeEMFErrorType]
    cases hr : (decodeEMFMembers kvs {}).2 with
    | some err => rfl
    | none =>
      rcases h with h | h
      · simp [decodeEMFErrorType, hr] at h
      · have := h _ rfl
        simp [this]
  | _ => rfl

/-- The builtin definition of `emf.500.RequesterErrorResponseFailure`. -/
theorem getBuiltin_responseFailure :
    getBuiltin responseFailureCode = some {
      ErrorCode := "emf.500.RequesterErrorResponseFailure"
      StatusCode := 500
      Description := "The internal HTTP Request could not be performed as the CBError response could not be JSON decoded"
      Message := some [("en", "Failed to decode failing response payload as CBError. Response: '"
        ++ dataAction "Response" ++ "'")]
      Data := some [("Response", .str "Response sent by the downstream component"),
        ("Error", .str "Error encountered while trying to decode 'Response'")] } := by
  rfl

/-- The last tier with a handler that has a logger: `NewError` succeeds, and the instance
carries the builtin code, status 500, the response, and the decoding error as cause. -/
theorem decodeFailure_method (R : Runtime) (eh : EMFErrorHandlerType) (hlog : eh.logger = true)
    (response : GoValue) (err : Option GoError) :
    ∃ e : EMFErrorType, decodeFailure (eh.method R) response err = .ok e ∧
      e.ErrorCode = responseFailureCode ∧ e.StatusCode = 500 ∧
      mapGet e.Data "Response" = some response ∧ e.Unwrap = err := by
  obtain ⟨logger, templates, debug, method, path, query, data⟩ := eh
  simp only at hlog
  subst hlog
  cases err <;> cases debug <;> exact ⟨_, rfl, rfl, rfl, rfl, rfl⟩

/-- For the data maps that `DecodeEMFError` builds, `NewError` of a handler with a logger
returns an instance. -/
theorem newError_responseFailure (R : Runtime) (eh : EMFErrorHandlerType)
    (hlog : eh.logger = true) (response errValue : GoValue) :
    ∃ e : EMFErrorType, eh.method R responseFailureCode
      (some [("Response", response), ("Error", errValue)]) [] = .ok (.inst e) := by
  obtain ⟨logger, templates, debug, method, path, query, data⟩ := eh
  simp only at hlog
  subst hlog
  cases errValue <;> cases debug <;> exact ⟨_, rfl⟩


/-- A call reports no error only when none was saved. -/
theorem firstError_eq_none (a b : Option GoError) (h : firstError a b = none) :
    a = none ∧ b = none := by
  cases a <;> simp_all [firstError]

/-- The error of a member whose key selects `StatusCode` is that of decoding the `int`. -/
theorem decodeEMFField_status_error (e : EMFErrorType) (k : String) (v : JSON)
    (hk : fieldMatches "StatusCode" k = true) :
    (decodeEMFField e k v).2 = (decodeInt e.StatusCode v).2 := by
  have h1 := fieldMatches_excl "StatusCode" "Timestamp" k (by decide) hk
  unfold decodeEMFField
  simp [h1, hk]

/-- An integer literal outside 64 bits is a type error for an `int`. -/
theorem decodeInt_error_of_not_fits (cur : Int) (s : Int) (h : fitsInt64 s = false) :
    (decodeInt cur (.num (.int s))).2 ≠ none := by
  simp [decodeInt, h]

/-- In an object decoded without error every integer `statusCode` member fits in 64 bits. -/
theorem decodeEMFMembers_status_fits (kvs : List (String × JSON)) (s : Int) :
    ∀ e : EMFErrorType, (decodeEMFMembers kvs e).2 = none →
      JSON.num (.int s) ∈ membersOf "StatusCode" kvs → fitsInt64 s = true := by
  induction kvs with
  | nil => intro e _ h; simp [membersOf] at h
  | cons kv rest ih =>
    intro e hdec hmem
    obtain ⟨k, v⟩ := kv
    simp only [decodeEMFMembers] at hdec
    obtain ⟨ha, hr⟩ := firstError_eq_none _ _ hdec
    by_cases hk : fieldMatches "StatusCode" k = true
    · simp only [membersOf, hk, if_true, List.mem_cons] at hmem
      rcases hmem with hv | hmem
      · subst hv
        rw [decodeEMFField_status_error _ _ _ hk] at ha
        by_contra hfit
        exact decodeInt_error_of_not_fits _ _ (by simpa using hfit) ha
      · exact ih _ hr hmem
    · simp only [membersOf, hk] at hmem
      exact ih _ hr (by simpa using hmem)

/-- The last tier returns an instance when `NewError` succeeds for the builtin code. -/
theorem decodeFailure_ok (newError : NewErrorMethod)
    (hNew : ∀ response errValue : GoValue, ∃ e : EMFErrorType,
      newError responseFailureCode (some [("Response", response), ("Error", errValue)]) []
        = .ok (.inst e))
    (response : GoValue) (err : Option GoError) :
    ∃ e, decodeFailure newError response err = .ok e := by
  unfold decodeFailure
  obtain ⟨e, he⟩ := hNew response (match err with | none => .nil | some e => .err e)
  exact ⟨e, by simp only [he, assertEMFErrorType]⟩

/-- The second and third tier return an instance when `NewError` succeeds for the builtin
code. -/
theorem decodeSimpleOrFailure_ok (now : String) (newError : NewErrorMethod)
    (hNew : ∀ response errValue : GoValue, ∃ e : EMFErrorType,
      newError responseFailureCode (some [("Response", response), ("Error", errValue)]) []
        = .ok (.inst e))
    (j : JSON) :
    ∃ e, decodeSimpleOrFailure now newError j = .ok e := by
  unfold decodeSimpleOrFailure
  simp only
  split_ifs
  · exact ⟨_, rfl⟩
  · exact decodeFailure_ok newError hNew _ _

/-- C6: the claim fails on the body `null`. Whatever the handler, also one whose
`NewError` succeeds for the builtin code, `DecodeEMFError` on the body `null` ends in a
nil dereference: the first `Decode` sets the pointer to nil without an error, and the
test reads `e.ErrorCode`. On every other body (unreadable, empty, malformed, or starting
with a JSON value other than `null`) it returns an instance when `NewError` succeeds for
the builtin code. -/
theorem decodeEMFError_null_panics (now : String) (newError : NewErrorMethod)
    (hNew : ∀ response errValue : GoValue, ∃ e : EMFErrorType,
      newError responseFailureCode (some [("Response", response), ("Error", errValue)]) []
        = .ok (.inst e)) :
    DecodeEMFError now newError (.value .null) = .error .nilDereference ∧
    (∀ read err, ∃ e, DecodeEMFError now newError (.readError read err) = .ok e) ∧
    (∀ err, ∃ e, DecodeEMFError now newError (.invalid err) = .ok e) ∧
    (∀ j : JSON, j.isNull = false → ∃ e, DecodeEMFError now newError (.value j) = .ok e) := by
  refine ⟨rfl, ?_, ?_, ?_⟩
  · intro read err
    exact decodeFailure_ok newError hNew (.bytes read) (some err)
  · intro err
    exact decodeFailure_ok newError hNew .nil (some err)
  · intro j hj
    cases j with
    | null => simp [JSON.isNull] at hj
    | obj kvs =>
      simp only [DecodeEMFError, decodeEMFErrorType]
      cases (decodeEMFMembers kvs {}).2 with
      | some err => exact decodeSimpleOrFailure_ok now newError hNew _
      | none =>
        simp only
        split_ifs
        · exact ⟨_, rfl⟩
        · exact decodeSimpleOrFailure_ok now newError hNew _
    | _ =>
      rw [decodeEMFError_second_tier now newError _ hj (Or.inl rfl)]
      exact decodeSimpleOrFailure_ok now newError hNew _

/-- Witness of `decodeEMFError_null_panics` at the example handler, whose `NewError`
succeeds for the builtin code. -/
theorem decodeEMFError_null_panics_witness :
    (∀ response errValue : GoValue, ∃ e : EMFErrorType,
      exampleHandler.method exampleRuntime responseFailureCode
        (some [("Response", response), ("Error", errValue)]) [] = .ok (.inst e)) ∧
    DecodeEMFError exampleRuntime.now (exampleHandler.method exampleRuntime) (.value .null)
      = .error .nilDereference :=
  ⟨newError_responseFailure exampleRuntime exampleHandler rfl,
    (decodeEMFError_null_panics exampleRuntime.now (exampleHandler.method exampleRuntime)
      (newError_responseFailure exampleRuntime exampleHandler rfl)).1⟩


/-- A string field ends as the last value when that is a string. -/
theorem foldl_decodeString_last (vs : List JSON) (c cur : String)
    (h : vs.getLast? = some (.str c)) :
    vs.foldl (fun cur v => (decodeString cur v).1) cur = c := by
  obtain ⟨ys, rfl⟩ := List.getLast?_eq_some_iff.mp h
  simp [List.foldl_append, decodeString]

/-- An `int` field ends as the last value when that is an integer literal that fits. -/
theorem foldl_decodeInt_last (vs : List JSON) (s cur : Int)
    (h : vs.getLast? = some (.num (.int s))) (hfit : fitsInt64 s = true) :
    vs.foldl (fun cur v => (decodeInt cur v).1) cur = s := by
  obtain ⟨ys, rfl⟩ := List.getLast?_eq_some_iff.mp h
  simp [List.foldl_append, decodeInt, hfit]

/-- C8: for a body `{"error":{"message":m,"errorCode":c},"statusCode":s}` with `c`
non-empty (and `s` a Go `int`), `DecodeEMFError` returns the promotion
`serr.ToEMFError()` of the decoded `SimpleErrorType`, whatever the handler: `ErrorCode`
is `c`, `StatusCode` is `s`, `Message` is `{"en": m}`, `Data` is nil, `Description` and
`Level` are empty, and `Unwrap()` is nil. -/
theorem decodeEMFError_simple (now : String) (newError : NewErrorMethod) (m c : String)
    (s : Int) (hne : c ≠ "") (hfit : fitsInt64 s = true) :
    ∃ e : EMFErrorType,
      DecodeEMFError now newError
        (.value (.obj [("error", .obj [("message", .str m), ("errorCode", .str c)]),
          ("statusCode", .num (.int s))])) = .ok e ∧
      e = SimpleErrorType.ToEMFError now { Message := m, ErrorCode := c, StatusCode := s } ∧
      e.ErrorCode = c ∧ e.StatusCode = s ∧ e.Message = some [("en", m)] ∧ e.Data = none ∧
      e.Description = "" ∧ e.Level = "" ∧ e.Unwrap = none := by
  refine ⟨_, ?_, rfl, rfl, rfl, rfl, rfl, rfl, rfl, rfl⟩
  have t1 : decodeEMFErrorType
      (.obj [("error", .obj [("message", .str m), ("errorCode", .str c)]),
        ("statusCode", .num (.int s))]) = (some { StatusCode := s }, none) := by
    have k1 : decodeEMFField {} "error"
        (.obj [("message", .str m), ("errorCode", .str c)]) = ({}, none) := rfl
    have k2 : decodeEMFField {} "statusCode" (.num (.int s))
        = ({ StatusCode := (decodeInt 0 (.num (.int s))).1 }, (decodeInt 0 (.num (.int s))).2) :=
      rfl
    simp only [decodeEMFErrorType, decodeEMFMembers, k1, k2, decodeInt, hfit, if_true,
      firstError]
  have t2 : decodeSimpleErrorType
      (.obj [("error", .obj [("message", .str m), ("errorCode", .str c)]),
        ("statusCode", .num (.int s))])
      = ({ Message := m, ErrorCode := c, StatusCode := s }, none) := by
    have k1 : decodeSimpleField {} "error"
        (.obj [("message", .str m), ("errorCode", .str c)])
        = ({ Message := m, ErrorCode := c }, none) := rfl
    have k2 : decodeSimpleField { Message := m, ErrorCode := c } "statusCode" (.num (.int s))
        = ({ Message := m, ErrorCode := c, StatusCode := (decodeInt 0 (.num (.int s))).1 },
            (decodeInt 0 (.num (.int s))).2) := rfl
    simp only [decodeSimpleErrorType, decodeSimpleMembers, k1, k2, decodeInt, hfit, if_true,
      firstError]
  simp only [DecodeEMFError, t1, decodeSimpleOrFailure, t2]
  simp [hne]

/-- Witness of `decodeEMFError_simple`: the production wire shape with status 503. -/
theorem decodeEMFError_simple_witness :
    ∃ e : EMFErrorType,
      DecodeEMFError "2020-01-01T00:00:00Z" (fun _ _ _ => .ok .nil)
        (.value (.obj [("error", .obj [("message", .str "down"),
          ("errorCode", .str "billing.503.Down")]), ("statusCode", .num (.int 503))])) = .ok e ∧
      e = SimpleErrorType.ToEMFError "2020-01-01T00:00:00Z"
        { Message := "down", ErrorCode := "billing.503.Down", StatusCode := 503 } ∧
      e.ErrorCode = "billing.503.Down" ∧ e.StatusCode = 503 ∧
      e.Message = some [("en", "down")] ∧ e.Data = none ∧
      e.Description = "" ∧ e.Level = "" ∧ e.Unwrap = none :=
  decodeEMFError_simple "2020-01-01T00:00:00Z" (fun _ _ _ => .ok .nil) "down"
    "billing.503.Down" 503 (by decide) (by decide)


/-- A body without a non-empty top-level code decodes to an instance with an empty
`ErrorCode`. -/
theorem decodeEMFErrorType_code_empty (j : JSON) (h : hasCode (topLevelCodes j) = false)
    (e : EMFErrorType) (he : (decodeEMFErrorType j).1 = some e) : e.ErrorCode = "" := by
  cases j with
  | null => simp [decodeEMFErrorType] at he
  | obj kvs =>
    simp only [decodeEMFErrorType, Option.some.injEq] at he
    rw [← he, decodeEMFMembers_code]
    exact foldl_decodeString_empty _ h
  | _ =>
    simp only [decodeEMFErrorType, Option.some.injEq] at he
    rw [← he]

/-- For a value other than `null` that neither of the first two tiers recognises, the result
is the last tier applied to its generic decoding. -/
theorem decodeEMFError_unrecognised_eq (now : String) (newError : NewErrorMethod) (j : JSON)
    (hnull : j.isNull = false)
    (h1 : (decodeEMFErrorType j).2.isNone = false ∨
      ∀ e, (decodeEMFErrorType j).1 = some e → e.ErrorCode = "")
    (h2 : (decodeSimpleErrorType j).2.isNone = false ∨ (decodeSimpleErrorType j).1.ErrorCode = "") :
    DecodeEMFError now newError (.value j)
      = decodeFailure newError (decodeAny j).1 (decodeAny j).2 := by
  rw [decodeEMFError_second_tier now newError j hnull h1,
    decodeSimpleOrFailure_unrecognised now newError j h2]

/-- C9: the claim fails on the body `null`, which is valid JSON and holds no code: there
`DecodeEMFError` ends in a nil dereference (the defect of C6). For every other JSON value
that has no non-empty top-level `errorCode` member and no non-empty `errorCode` member
under `error`, a handler with a logger returns the instance built from the builtin
`emf.500.RequesterErrorResponseFailure`: `ErrorCode` is that code, `StatusCode` is 500
and `Data["Response"]` is the generically decoded body. -/
theorem decodeEMFError_unrecognised (R : Runtime) (eh : EMFErrorHandlerType)
    (hlog : eh.logger = true) :
    (hasCode (topLevelCodes .null) = false ∧ hasCode (nestedCodes .null) = false ∧
      DecodeEMFError R.now (eh.method R) (.value .null) = .error .nilDereference) ∧
    (∀ j : JSON, j.isNull = false → hasCode (topLevelCodes j) = false →
      hasCode (nestedCodes j) = false →
      ∃ e : EMFErrorType, DecodeEMFError R.now (eh.method R) (.value j) = .ok e ∧
        e.ErrorCode = "emf.500.RequesterErrorResponseFailure" ∧ e.StatusCode = 500 ∧
        mapGet e.Data "Response" = some (decodeAny j).1) := by
  refine ⟨⟨rfl, rfl, rfl⟩, ?_⟩
  intro j hnull htop hnested
  rw [decodeEMFError_unrecognised_eq R.now (eh.method R) j hnull
    (Or.inr (decodeEMFErrorType_code_empty j htop))
    (Or.inr (decodeSimpleErrorType_code_empty j hnested))]
  obtain ⟨e, he, h1, h2, h3, _⟩ := decodeFailure_method R eh hlog (decodeAny j).1 (decodeAny j).2
  exact ⟨e, he, h1, h2, h3⟩

/-- Witness of `decodeEMFError_unrecognised`: the body `{"foo":"bar"}` at the example
handler. -/
theorem decodeEMFError_unrecognised_witness :
    exampleHandler.logger = true ∧
    ∃ e : EMFErrorType,
      DecodeEMFError exampleRuntime.now (exampleHandler.method exampleRuntime)
        (.value (.obj [("foo", .str "bar")])) = .ok e ∧
      e.ErrorCode = "emf.500.RequesterErrorResponseFailure" ∧ e.StatusCode = 500 ∧
      mapGet e.Data "Response" = some (decodeAny (.obj [("foo", .str "bar")])).1 :=
  ⟨rfl, (decodeEMFError_unrecognised exampleRuntime exampleHandler rfl).2
    (.obj [("foo", .str "bar")]) rfl rfl rfl⟩

/-- C10, as the claim states it, fails on the body `{"foo":"bar"}`: it is recognised by
neither of the first two tiers, its generic decoding succeeds, and the returned
decode-failure instance has no internal cause. -/
theorem decodeEMFError_generic_cause_counterexample :
    ∃ e : EMFErrorType,
      DecodeEMFError exampleRuntime.now (exampleHandler.method exampleRuntime)
        (.value (.obj [("foo", .str "bar")])) = .ok e ∧
      e.ErrorCode = "emf.500.RequesterErrorResponseFailure" ∧ e.Unwrap = none :=
  ⟨_, rfl, rfl, rfl⟩

/-- C10 (amended): whenever `DecodeEMFError` falls through to the generic tier, the
internal cause of the returned instance is the error of the generic decoding: the read
error or the decoder's error for a body that cannot be read or scanned, and for a scanned
value the error of its decoding into `interface{}`, which is nil when that decoding
succeeds. -/
theorem decodeEMFError_generic_cause (R : Runtime) (eh : EMFErrorHandlerType)
    (hlog : eh.logger = true) :
    (∀ read err, ∃ e : EMFErrorType,
      DecodeEMFError R.now (eh.method R) (.readError read err) = .ok e ∧
        e.Unwrap = some err) ∧
    (∀ err, ∃ e : EMFErrorType,
      DecodeEMFError R.now (eh.method R) (.invalid err) = .ok e ∧ e.Unwrap = some err) ∧
    (∀ j : JSON, j.isNull = false →
      ((decodeEMFErrorType j).2.isNone = false ∨
        ∀ e, (decodeEMFErrorType j).1 = some e → e.ErrorCode = "") →
      ((decodeSimpleErrorType j).2.isNone = false ∨ (decodeSimpleErrorType j).1.ErrorCode = "") →
      ∃ e : EMFErrorType, DecodeEMFError R.now (eh.method R) (.value j) = .ok e ∧
        e.Unwrap = (decodeAny j).2) := by
  refine ⟨?_, ?_, ?_⟩
  · intro read err
    obtain ⟨e, he, _, _, _, h4⟩ := decodeFailure_method R eh hlog (.bytes read) (some err)
    exact ⟨e, he, h4⟩
  · intro err
    obtain ⟨e, he, _, _, _, h4⟩ := decodeFailure_method R eh hlog .nil (some err)
    exact ⟨e, he, h4⟩
  · intro j hnull h1 h2
    rw [decodeEMFError_unrecognised_eq R.now (eh.method R) j hnull h1 h2]
    obtain ⟨e, he, _, _, _, h4⟩ := decodeFailure_method R eh hlog (decodeAny j).1 (decodeAny j).2
    exact ⟨e, he, h4⟩

/-- Witness of `decodeEMFError_generic_cause`: an empty body, whose three decodings all
report `EOF`, at the example handler. -/
theorem decodeEMFError_generic_cause_witness :
    exampleHandler.logger = true ∧
    ∃ e : EMFErrorType,
      DecodeEMFError exampleRuntime.now (exampleHandler.method exampleRuntime)
        (.invalid { msg := "EOF" }) = .ok e ∧
      e.Unwrap = some { msg := "EOF" } :=
  ⟨rfl, (decodeEMFError_generic_cause exampleRuntime exampleHandler rfl).2.1 { msg := "EOF" }⟩

/-! ## Projection and promotion -/

/-- C11: `e.ToSimpleError()` carries the code, the status and the English message of
`e` (the empty string when `Message` has no `"en"` entry), and depends on nothing else:
two instances that agree on these three values have equal projections, whatever their
other fields. -/
theorem toSimpleError_fields (e : EMFErrorType) :
    e.ToSimpleError.ErrorCode = e.ErrorCode ∧
    e.ToSimpleError.StatusCode = e.StatusCode ∧
    e.ToSimpleError.Message = (mapGet e.Message "en").getD "" ∧
    (mapGet e.Message "en" = none → e.ToSimpleError.Message = "") ∧
    (∀ e' : EMFErrorType, e'.ErrorCode = e.ErrorCode → e'.StatusCode = e.StatusCode →
      (mapGet e'.Message "en").getD "" = (mapGet e.Message "en").getD "" →
      e'.ToSimpleError = e.ToSimpleError) := by
  refine ⟨rfl, rfl, rfl, ?_, ?_⟩
  · intro h
    simp [EMFErrorType.ToSimpleError, EMFErrorType.Error, h]
  · intro e' hc hs hm
    simp [EMFErrorType.ToSimpleError, EMFErrorType.Error, hc, hs, hm]

/-- C12: `sendJSONorPanic` hands to `c.JSON` the status it was given, in every case;
for a message that is a `*EMFErrorType` the body is its `ToSimpleError()` projection
when `isDebug` is false and the instance itself when `isDebug` is true; a message of
another type is the body unchanged in both modes. -/
theorem sendJSONorPanic_body (code : Int) (isDebug : Bool) (msg : Payload) :
    (sendJSONorPanic code isDebug msg).code = code ∧
    (∀ e : EMFErrorType,
      (sendJSONorPanic code false (.inst e)).body = .simple e.ToSimpleError ∧
      (sendJSONorPanic code true (.inst e)).body = .inst e) ∧
    (msg.asInstance = none → (sendJSONorPanic code isDebug msg).body = msg) := by
  refine ⟨?_, fun e => ⟨rfl, rfl⟩, ?_⟩
  · unfold sendJSONorPanic
    cases msg.asInstance <;> cases isDebug <;> rfl
  · intro h
    simp [sendJSONorPanic, h]

/-- C13: promotion followed by projection is the identity on `SimpleErrorType`, and
projection followed by promotion keeps the `ErrorCode`, the `StatusCode` and the
`Error()` text of an instance. -/
theorem toEMFError_toSimpleError (now : String) :
    (∀ s : SimpleErrorType, (s.ToEMFError now).ToSimpleError = s) ∧
    (∀ e : EMFErrorType,
      (e.ToSimpleError.ToEMFError now).ErrorCode = e.ErrorCode ∧
      (e.ToSimpleError.ToEMFError now).StatusCode = e.StatusCode ∧
      (e.ToSimpleError.ToEMFError now).Error = e.Error) := by
  refine ⟨fun s => rfl, fun e => ⟨rfl, rfl, ?_⟩⟩
  simp [SimpleErrorType.ToEMFError, EMFErrorType.ToSimpleError, EMFErrorType.Error, mapGet,
    entriesGet]


/-! ## Construction of an instance -/

/-- Binding the cause changes no field other than `internalError`. -/
theorem bindCause_fields (e e2 : EMFErrorType) (data data2 : Option (List (String × GoValue)))
    (errors : List (Option GoError)) (h : bindCause e data errors = .ok (e2, data2)) :
    e2 = { e with internalError := e2.internalError } := by
  unfold bindCause at h
  cases errors with
  | nil =>
    simp only at h
    split at h <;> simp only [Except.ok.injEq, Prod.mk.injEq] at h <;> rw [← h.1]
  | cons first rest =>
    simp only at h
    split at h
    · cases data <;> simp only [Except.ok.injEq, Prod.mk.injEq, reduceCtorEq] at h
      rw [← h.1]
    · cases data <;> simp only [Except.ok.injEq, Prod.mk.injEq, reduceCtorEq] at h
      rw [← h.1]
    · simp only [Except.ok.injEq, Prod.mk.injEq] at h
      rw [← h.1]

/-- With a non-empty list of causes the bound cause is its first element. -/
theorem bindCause_cons_cause (e e2 : EMFErrorType) (data data2 : Option (List (String × GoValue)))
    (first : Option GoError) (rest : List (Option GoError))
    (h : bindCause e data (first :: rest) = .ok (e2, data2)) :
    e2.internalError = first := by
  unfold bindCause at h
  simp only at h
  split at h
  · cases data <;> simp only [Except.ok.injEq, Prod.mk.injEq, reduceCtorEq] at h
    rw [← h.1]
  · cases data <;> simp only [Except.ok.injEq, Prod.mk.injEq, reduceCtorEq] at h
    rw [← h.1]
  · simp only [Except.ok.injEq, Prod.mk.injEq] at h
    rw [← h.1]

/-- Binding the cause ends in a panic only for a nil data map with causes. -/
theorem bindCause_ok (e : EMFErrorType) (data : Option (List (String × GoValue)))
    (errors : List (Option GoError)) (h : data.isSome = true ∨ errors = []) :
    ∃ r, bindCause e data errors = .ok r := by
  unfold bindCause
  cases errors with
  | nil => simp only; split <;> exact ⟨_, rfl⟩
  | cons first rest =>
    cases data with
    | none => simp at h
    | some kvs => simp only; split <;> exact ⟨_, rfl⟩

/-- A store of the cause into a nil data map panics. -/
theorem bindCause_nil_data (e : EMFErrorType) (first : Option GoError)
    (rest : List (Option GoError)) :
    bindCause e none (first :: rest) = .error .nilMapAssignment := rfl

/-- Rendering changes no field other than `Message`. -/
theorem execute_fields (R : Runtime) (e e4 : EMFErrorType) (eh : EMFErrorHandlerType)
    (h : e.Execute R eh = .ok (.ok e4)) : e4 = { e with Message := e4.Message } := by
  unfold EMFErrorType.Execute at h
  split at h
  · simp only [Except.ok.injEq] at h
    rw [← h]
  · split at h <;> simp only [Except.ok.injEq, reduceCtorEq] at h
    rw [← h]

/-- The steps behind an instance that `NewError` returns. -/
theorem newError_inst_inv (R : Runtime) (eh eh' : EMFErrorHandlerType) (code : String)
    (data : Option (List (String × GoValue))) (errors : List (Option GoError))
    (e : EMFErrorType) (h : eh.NewError R code data errors = .ok (.inst e, eh')) :
    ∃ (e0 e2 e4 : EMFErrorType) (data2 : Option (List (String × GoValue))),
      resolveDefinition eh code = .ok (.ok e0) ∧
      bindCause { e0 with Timestamp := R.now, ErrorCode := code } data errors = .ok (e2, data2) ∧
      eh' = { eh with Data := if eh.DebugMode then some (mergeHandler eh data2) else data2 } ∧
      EMFErrorType.Execute R
        { e2 with Data := if eh.DebugMode then some (mergeHandler eh data2) else data2 } eh'
        = .ok (.ok e4) ∧
      eh.logger = true ∧ e = e4.ErrorWrap R := by
  unfold EMFErrorHandlerType.NewError at h
  split at h
  · simp at h
  · simp at h
  · rename_i e0 h0
    simp only at h
    split at h
    · simp at h
    · rename_i e2 data2 h2
      split at h
      · simp at h
      · simp at h
      · rename_i e4 h4
        split at h
        · rename_i hlog
          simp only [Except.ok.injEq, Prod.mk.injEq, ErrorValue.inst.injEq] at h
          refine ⟨e0, e2, e4, data2, h0, h2, h.2.symm, ?_, hlog, h.1.symm⟩
          rw [← h.2]
          exact h4
        · simp at h


/-- A code found in the builtin table is one of its fourteen keys. -/
theorem getBuiltin_mem (code : String) (d : EMFErrorType) (h : getBuiltin code = some d) :
    code = "emf.400.QueryParameterInvalid" ∨ code = "emf.400.TokenMissing" ∨
    code = "emf.400.InvalidParametersFailure" ∨ code = "emf.401.Unauthorized" ∨
    code = "emf.401.TokenExpired" ∨ code = "emf.401.TokenInactive" ∨
    code = "emf.401.TokenVerificationFailure" ∨ code = "emf.401.TokenInvalidProperty" ∨
    code = "emf.401.UnauthorizedCaller" ∨ code = "emf.500.RequesterEncodingFailure" ∨
    code = "emf.500.RequesterDecodingFailure" ∨ code = "emf.500.RequesterErrorResponseFailure" ∨
    code = "emf.500.RequesterCreateRequestFailure" ∨
    code = "emf.500.RequesterSendRequestFailure" := by
  by_contra hn
  simp only [not_or] at hn
  obtain ⟨h1, h2, h3, h4, h5, h6, h7, h8, h9, h10, h11, h12, h13, h14⟩ := hn
  unfold getBuiltin at h
  rw [if_neg h1, if_neg h2, if_neg h3, if_neg h4, if_neg h5, if_neg h6, if_neg h7, if_neg h8,
    if_neg h9, if_neg h10, if_neg h11, if_neg h12, if_neg h13, if_neg h14] at h
  exact Option.noConfusion h

/-- The builtin table is keyed by the `ErrorCode` of its definitions. -/
theorem getBuiltin_code (code : String) (d : EMFErrorType) (h : getBuiltin code = some d) :
    d.ErrorCode = code := by
  rcases getBuiltin_mem code d h with
    rfl | rfl | rfl | rfl | rfl | rfl | rfl | rfl | rfl | rfl | rfl | rfl | rfl | rfl <;>
  · change some _ = some d at h
    cases h
    rfl

/-- The messages of a builtin definition are templates of the modelled part: on every
handler they render without an error, and the rendered texts depend on the handler only
through its `Data`. -/
theorem getBuiltin_renders (R : Runtime) (code : String) (d : EMFErrorType)
    (h : getBuiltin code = some d) :
    ∃ entries, d.Message = some entries ∧
      ∀ eh : EMFErrorHandlerType, ∃ msgs, executeEntries R eh entries [] = .ok (.ok msgs) ∧
        ∀ eh2 : EMFErrorHandlerType, eh2.Data = eh.Data →
          executeEntries R eh2 entries [] = .ok (.ok msgs) := by
  rcases getBuiltin_mem code d h with
    rfl | rfl | rfl | rfl | rfl | rfl | rfl | rfl | rfl | rfl | rfl | rfl | rfl | rfl <;>
  · change some _ = some d at h
    cases h
    refine ⟨_, rfl, fun eh => ⟨_, rfl, ?_⟩⟩
    intro eh2 hD
    obtain ⟨l2, t2, d2, m2, p2, q2, data2⟩ := eh2
    obtain ⟨l1, t1, d1, m1, p1, q1, data1⟩ := eh
    simp only at hD
    subst hD
    rfl


/-- A builtin code resolves to its builtin definition, whatever the template source. -/
theorem resolveDefinition_builtin (eh : EMFErrorHandlerType) (code : String) (d : EMFErrorType)
    (h : getBuiltin code = some d) : resolveDefinition eh code = .ok (.ok d) := by
  simp only [resolveDefinition, h]

/-- For a builtin code, `NewError` is the binding of the cause followed by the rendering
of the builtin messages, which does not fail. -/
theorem newError_builtin (R : Runtime) (eh : EMFErrorHandlerType) (code : String)
    (d : EMFErrorType) (data : Option (List (String × GoValue)))
    (errors : List (Option GoError)) (h : getBuiltin code = some d) :
    (∀ p, bindCause { d with Timestamp := R.now, ErrorCode := code } data errors = .error p →
      eh.NewError R code data errors = .error p) ∧
    (∀ e2 data2,
      bindCause { d with Timestamp := R.now, ErrorCode := code } data errors = .ok (e2, data2) →
      ∃ entries msgs, d.Message = some entries ∧
        executeEntries R
          { eh with Data := if eh.DebugMode then some (mergeHandler eh data2) else data2 }
          entries [] = .ok (.ok msgs) ∧
        eh.NewError R code data errors =
          if eh.logger then
            .ok (.inst (EMFErrorType.ErrorWrap R
                { e2 with
                  Data := if eh.DebugMode then some (mergeHandler eh data2) else data2
                  Message := some msgs }),
              { eh with Data := if eh.DebugMode then some (mergeHandler eh data2) else data2 })
          else .error .nilDereference) := by
  constructor
  · intro p hp
    simp only [EMFErrorHandlerType.NewError, resolveDefinition_builtin eh code d h, hp]
  · intro e2 data2 hb
    obtain ⟨entries, hentries, hrender⟩ := getBuiltin_renders R code d h
    obtain ⟨msgs, hmsgs, _⟩ :=
      hrender { eh with Data := if eh.DebugMode then some (mergeHandler eh data2) else data2 }
    refine ⟨entries, msgs, hentries, hmsgs, ?_⟩
    have hm : e2.Message = some entries := by
      rw [bindCause_fields _ _ _ _ _ hb]
      exact hentries
    simp only [EMFErrorHandlerType.NewError, resolveDefinition_builtin eh code d h, hb,
      EMFErrorType.Execute, hm, hmsgs]

/-- For a builtin code, a handler with a logger returns an instance unless the cause has
to be stored into a nil data map. -/
theorem newError_builtin_ok (R : Runtime) (eh : EMFErrorHandlerType) (code : String)
    (d : EMFErrorType) (data : Option (List (String × GoValue)))
    (errors : List (Option GoError)) (h : getBuiltin code = some d)
    (hlog : eh.logger = true) (hbind : data.isSome = true ∨ errors = []) :
    ∃ e eh', eh.NewError R code data errors = .ok (.inst e, eh') := by
  obtain ⟨⟨e2, data2⟩, hb⟩ :=
    bindCause_ok { d with Timestamp := R.now, ErrorCode := code } data errors hbind
  obtain ⟨entries, msgs, _, _, hnew⟩ := (newError_builtin R eh code d data errors h).2 e2 data2 hb
  rw [hnew, if_pos hlog]
  exact ⟨_, _, rfl⟩


/-- C14: a code of the builtin table resolves to the builtin definition whatever the
template source is, also a nil one, and the template source has no influence on what
`NewError` returns for it; an instance that `NewError` returns has the `StatusCode` and
the `Description` of the builtin definition and, as messages, the rendered builtin
templates; and a handler with a logger does return an instance unless the cause has to
be stored into a nil data map. -/
theorem newError_builtin_precedence (R : Runtime) (eh : EMFErrorHandlerType) (code : String)
    (d : EMFErrorType) (data : Option (List (String × GoValue)))
    (errors : List (Option GoError)) (h : getBuiltin code = some d) :
    (∀ t', resolveDefinition { eh with templates := t' } code = .ok (.ok d)) ∧
    (∀ t', (EMFErrorHandlerType.NewError R { eh with templates := t' } code data errors).map
        Prod.fst = (eh.NewError R code data errors).map Prod.fst) ∧
    (∀ e eh', eh.NewError R code data errors = .ok (.inst e, eh') →
      e.StatusCode = d.StatusCode ∧ e.Description = d.Description ∧
      ∃ entries msgs, d.Message = some entries ∧ e.Message = some msgs ∧
        executeEntries R eh' entries [] = .ok (.ok msgs)) ∧
    (eh.logger = true → (data.isSome = true ∨ errors = []) →
      ∃ e eh', eh.NewError R code data errors = .ok (.inst e, eh')) := by
  refine ⟨fun t' => resolveDefinition_builtin _ code d h, ?_, ?_, ?_⟩
  · intro t'
    cases hb : bindCause { d with Timestamp := R.now, ErrorCode := code } data errors with
    | error p =>
      rw [(newError_builtin R eh code d data errors h).1 p hb,
        (newError_builtin R { eh with templates := t' } code d data errors h).1 p hb]
    | ok r =>
      obtain ⟨e2, data2⟩ := r
      obtain ⟨entries, msgs, hentries, hmsgs, hnew⟩ :=
        (newError_builtin R eh code d data errors h).2 e2 data2 hb
      obtain ⟨entries', msgs', hentries', hmsgs', hnew'⟩ :=
        (newError_builtin R { eh with templates := t' } code d data errors h).2 e2 data2 hb
      obtain ⟨entries0, hentries0, hrender⟩ := getBuiltin_renders R code d h
      have he : entries = entries0 := Option.some.inj (hentries.symm.trans hentries0)
      have he' : entries' = entries0 := Option.some.inj (hentries'.symm.trans hentries0)
      subst he
      subst he'
      obtain ⟨msgs0, h0, hsame⟩ :=
        hrender { eh with Data := if eh.DebugMode then some (mergeHandler eh data2) else data2 }
      have hm : msgs = msgs0 := by
        have := hmsgs.symm.trans h0
        simpa using this
      have hm' : msgs' = msgs0 := by
        have := hmsgs'.symm.trans (hsame _ rfl)
        simpa using this
      subst hm
      subst hm'
      rw [hnew, hnew']
      cases eh.logger <;> rfl
  · intro e eh' hres
    cases hb : bindCause { d with Timestamp := R.now, ErrorCode := code } data errors with
    | error p =>
      rw [(newError_builtin R eh code d data errors h).1 p hb] at hres
      exact Except.noConfusion hres
    | ok r =>
      obtain ⟨e2, data2⟩ := r
      obtain ⟨entries, msgs, hentries, hmsgs, hnew⟩ :=
        (newError_builtin R eh code d data errors h).2 e2 data2 hb
      rw [hnew] at hres
      by_cases hlog : eh.logger = true
      · rw [if_pos hlog] at hres
        simp only [Except.ok.injEq, Prod.mk.injEq, ErrorValue.inst.injEq] at hres
        obtain ⟨he, heh⟩ := hres
        have h2 := bindCause_fields _ _ _ _ _ hb
        refine ⟨?_, ?_, entries, msgs, hentries, ?_, ?_⟩
        · rw [← he, h2]; rfl
        · rw [← he, h2]; rfl
        · rw [← he]; rfl
        · rw [← heh]; exact hmsgs
      · rw [if_neg hlog] at hres
        exact Except.noConfusion hres
  · intro hlog hbind
    exact newError_builtin_ok R eh code d data errors h hlog hbind

/-- Witness of `newError_builtin_precedence`: a template source that defines the builtin
code `emf.400.TokenMissing` with status 418 has no influence on the instance. -/
theorem newError_builtin_precedence_witness :
    ∃ e eh',
      EMFErrorHandlerType.NewError exampleRuntime
        { templates := some (viperUnmarshalKey
            [("emf.400.TokenMissing", .ok { StatusCode := 418 })]) }
        "emf.400.TokenMissing" (some []) [] = .ok (.inst e, eh') ∧ e.StatusCode = 400 :=
  ⟨_, _, rfl,
    ((newError_builtin_precedence exampleRuntime
      { templates := some (viperUnmarshalKey
          [("emf.400.TokenMissing", .ok { StatusCode := 418 })]) }
      "emf.400.TokenMissing" _ (some []) [] rfl).2.2.1 _ _ rfl).1⟩

/-- C15: the claim fails for a code that neither the builtin table nor the configured
template source holds: `UnmarshalKey` reports no error for an absent key, and `NewError`
goes on with the zero definition and returns an instance with the requested code, status
0 and no messages. A failure is returned, and no instance, only when `UnmarshalKey`
itself reports an error. -/
theorem newError_unknown_code (R : Runtime) (eh : EMFErrorHandlerType) (code : String)
    (data : Option (List (String × GoValue))) (errors : List (Option GoError))
    (hb : getBuiltin code = none) :
    (∀ unmarshalKey err, eh.templates = some unmarshalKey → unmarshalKey code = .error err →
      eh.NewError R code data errors = .ok (.other err, eh)) ∧
    (∀ table, eh.templates = some (viperUnmarshalKey table) → entriesGet code table = none →
      eh.logger = true → (data.isSome = true ∨ errors = []) →
      ∃ e eh', eh.NewError R code data errors = .ok (.inst e, eh') ∧
        e.ErrorCode = code ∧ e.StatusCode = 0 ∧ e.Message = none ∧ e.Description = "") := by
  constructor
  · intro unmarshalKey err ht herr
    simp only [EMFErrorHandlerType.NewError, resolveDefinition, hb, ht, herr]
  · intro table ht habsent hlog hbind
    obtain ⟨⟨e2, data2⟩, hbc⟩ :=
      bindCause_ok { ({} : EMFErrorType) with Timestamp := R.now, ErrorCode := code }
        data errors hbind
    have h2 := bindCause_fields _ _ _ _ _ hbc
    have hm : e2.Message = none := by rw [h2]
    refine ⟨EMFErrorType.ErrorWrap R
        { e2 with Data := if eh.DebugMode then some (mergeHandler eh data2) else data2 },
      { eh with Data := if eh.DebugMode then some (mergeHandler eh data2) else data2 }, ?_, ?_⟩
    · simp only [EMFErrorHandlerType.NewError, resolveDefinition, hb, ht, viperUnmarshalKey,
        habsent, hbc, EMFErrorType.Execute, hm, hlog, if_true]
    · refine ⟨?_, ?_, ?_, ?_⟩
      · show e2.ErrorCode = code
        rw [h2]
      · show e2.StatusCode = 0
        rw [h2]
      · exact hm
      · show e2.Description = ""
        rw [h2]

/-- Witness of `newError_unknown_code`: the code `emf.404.Unknown` with a loaded
configuration that holds no definition. -/
theorem newError_unknown_code_witness :
    getBuiltin "emf.404.Unknown" = none ∧
    ∃ e eh',
      EMFErrorHandlerType.NewError exampleRuntime { templates := some (viperUnmarshalKey []) }
        "emf.404.Unknown" (some []) [] = .ok (.inst e, eh') ∧
      e.ErrorCode = "emf.404.Unknown" ∧ e.StatusCode = 0 ∧ e.Message = none ∧
      e.Description = "" :=
  ⟨rfl, (newError_unknown_code exampleRuntime { templates := some (viperUnmarshalKey []) }
    "emf.404.Unknown" (some []) [] rfl).2 [] rfl rfl rfl (Or.inl rfl)⟩

/-- C16: a definition found in the builtin table has the looked-up code as its
`ErrorCode`, and every instance that `NewError` returns has the requested code as its
`ErrorCode`. -/
theorem newError_code_consistent :
    (∀ code d, getBuiltin code = some d → d.ErrorCode = code) ∧
    (∀ (R : Runtime) (eh eh' : EMFErrorHandlerType) (code : String)
        (data : Option (List (String × GoValue))) (errors : List (Option GoError))
        (e : EMFErrorType),
      eh.NewError R code data errors = .ok (.inst e, eh') → e.ErrorCode = code) := by
  refine ⟨getBuiltin_code, ?_⟩
  intro R eh eh' code data errors e h
  obtain ⟨e0, e2, e4, data2, _, hb, _, hx, _, he⟩ := newError_inst_inv R eh eh' code data errors e h
  have h2 := bindCause_fields _ _ _ _ _ hb
  have h4 := execute_fields R _ e4 eh' hx
  rw [he]
  show e4.ErrorCode = code
  rw [h4]
  show e2.ErrorCode = code
  rw [h2]


/-- Reading a key after a store under another key. -/
theorem entriesGet_set_ne {V : Type} (k k' : String) (v : V) (h : k' ≠ k) :
    ∀ kvs : List (String × V), entriesGet k (entriesSet k' v kvs) = entriesGet k kvs
  | [] => by simp [entriesSet, entriesGet, h]
  | (a, b) :: rest => by
    by_cases ha : a = k'
    · subst ha
      simp [entriesSet, entriesGet, h]
    · by_cases hk : a = k
      · subst hk
        simp [entriesSet, entriesGet, ha]
      · simp [entriesSet, entriesGet, ha, hk, entriesGet_set_ne k k' v h rest]

/-- Reading a key after a store under it. -/
theorem entriesGet_set_eq {V : Type} (k : String) (v : V) :
    ∀ kvs : List (String × V), entriesGet k (entriesSet k v kvs) = some v
  | [] => by simp [entriesSet, entriesGet]
  | (a, b) :: rest => by
    by_cases ha : a = k
    · simp [entriesSet, entriesGet, ha]
    · simp [entriesSet, entriesGet, ha, entriesGet_set_eq k v rest]

/-- The merge of the handler into the data map leaves the entry of `"Error"`. -/
theorem mergeHandler_get_error (eh : EMFErrorHandlerType) (kvs : List (String × GoValue)) :
    entriesGet "Error" (mergeHandler eh (some kvs)) = entriesGet "Error" kvs := by
  unfold mergeHandler
  rw [entriesGet_set_ne _ _ _ (by decide), entriesGet_set_ne _ _ _ (by decide),
    entriesGet_set_ne _ _ _ (by decide), entriesGet_set_ne _ _ _ (by decide),
    entriesGet_set_ne _ _ _ (by decide)]
  rfl

/-- The `"Error"` entry of the data of a returned instance is that of the data after the
binding of the cause, and it is the data the handler keeps. -/
theorem newError_inst_error_entry (R : Runtime) (eh eh' : EMFErrorHandlerType) (code : String)
    (data : Option (List (String × GoValue))) (errors : List (Option GoError))
    (e : EMFErrorType) (h : eh.NewError R code data errors = .ok (.inst e, eh')) :
    ∃ (e1 e2 : EMFErrorType) (data2 : Option (List (String × GoValue))),
      bindCause e1 data errors = .ok (e2, data2) ∧
      (data.isSome = true → mapGet e.Data "Error" = mapGet data2 "Error") ∧
      eh'.Data = e.Data ∧ e.internalError = e2.internalError := by
  obtain ⟨e0, e2, e4, data2, _, hb, heh, hx, _, he⟩ :=
    newError_inst_inv R eh eh' code data errors e h
  have h4 := execute_fields R _ e4 eh' hx
  have hD : e.Data = if eh.DebugMode then some (mergeHandler eh data2) else data2 := by
    rw [he]
    show e4.Data = _
    rw [h4]
  refine ⟨_, e2, data2, hb, ?_, ?_, ?_⟩
  · intro hsome
    rw [hD]
    have hsome2 : data2.isSome = true := by
      unfold bindCause at hb
      cases data with
      | none => simp at hsome
      | some kvs =>
        cases errors with
        | nil =>
          simp only at hb
          split at hb <;> simp only [Except.ok.injEq, Prod.mk.injEq] at hb <;> rw [← hb.2] <;> rfl
        | cons first rest =>
          simp only at hb
          split at hb <;> simp only [Except.ok.injEq, Prod.mk.injEq] at hb <;> rw [← hb.2] <;> rfl
    cases data2 with
    | none => simp at hsome2
    | some kvs2 =>
      cases eh.DebugMode
      · rfl
      · simp only [if_true, mapGet]
        exact mergeHandler_get_error eh kvs2
  · rw [heh, hD]
  · rw [he]
    show e4.internalError = _
    rw [h4]


/-- With a cause and no `"Error"` entry in a non-nil data map, the cause is stored. -/
theorem bindCause_store (e : EMFErrorType) (kvs : List (String × GoValue)) (c : GoError)
    (rest : List (Option GoError)) (h : entriesGet "Error" kvs = none) :
    bindCause e (some kvs) (some c :: rest)
      = .ok ({ e with internalError := some c }, some (entriesSet "Error" (.err c) kvs)) := by
  simp only [bindCause, mapGet, h]

/-- A non-nil `"Error"` entry of the data map is kept, whatever the causes. -/
theorem bindCause_keep (e : EMFErrorType) (kvs : List (String × GoValue)) (v : GoValue)
    (errors : List (Option GoError)) (h : entriesGet "Error" kvs = some v) (hv : v ≠ .nil) :
    ∃ e2, bindCause e (some kvs) errors = .ok (e2, some kvs) := by
  cases errors with
  | nil =>
    simp only [bindCause, mapGet, h]
    split <;> exact ⟨_, rfl⟩
  | cons first rest =>
    cases v with
    | nil => exact absurd rfl hv
    | _ => exact ⟨{ e with internalError := first }, by simp only [bindCause, mapGet, h]⟩

/-- C17, as the claim states it, fails for the causes `[nil, c]`: the bound cause is the
first element, which is nil, and `Unwrap()` returns nil although `c` is not nil. -/
theorem newError_first_non_nil_cause_counterexample :
    ∃ e eh',
      EMFErrorHandlerType.NewError exampleRuntime exampleHandler "emf.400.TokenMissing"
        (some []) [none, some { msg := "boom" }] = .ok (.inst e, eh') ∧
      e.Unwrap = none :=
  ⟨_, _, rfl, rfl⟩

/-- C17 (amended): for every non-empty list of causes, the internal cause of the instance
that `NewError` returns is the first element of the list, nil or not, and the later
causes are discarded; for a builtin code, a handler with a logger and a non-nil data map,
`NewError` does return such an instance. -/
theorem newError_cause_first (R : Runtime) (eh : EMFErrorHandlerType) (code : String)
    (data : Option (List (String × GoValue))) (first : Option GoError)
    (rest : List (Option GoError)) :
    (∀ e eh', eh.NewError R code data (first :: rest) = .ok (.inst e, eh') →
      e.Unwrap = first) ∧
    (∀ d, getBuiltin code = some d → eh.logger = true → data.isSome = true →
      ∃ e eh', eh.NewError R code data (first :: rest) = .ok (.inst e, eh') ∧
        e.Unwrap = first) := by
  have key : ∀ e eh', eh.NewError R code data (first :: rest) = .ok (.inst e, eh') →
      e.Unwrap = first := by
    intro e eh' h
    obtain ⟨e1, e2, data2, hb, _, _, hc⟩ :=
      newError_inst_error_entry R eh eh' code data (first :: rest) e h
    show e.internalError = first
    rw [hc]
    exact bindCause_cons_cause _ _ _ _ _ _ hb
  refine ⟨key, ?_⟩
  intro d hd hlog hsome
  obtain ⟨e, eh', h⟩ := newError_builtin_ok R eh code d data (first :: rest) hd hlog (Or.inl hsome)
  exact ⟨e, eh', h, key e eh' h⟩

/-- C18: the claim fails for a nil data map, which has no `"Error"` entry: with a cause
`NewError` stores into it and panics (the defect of the nil data map). For a non-nil
data map without an `"Error"` entry the returned instance has the cause under `"Error"`
and `{{.Data.Error}}` renders the message of the cause; a non-nil `"Error"` entry of the
data map is the `"Error"` entry of the returned instance. A handler with a logger
returns these instances for a builtin code. -/
theorem newError_error_entry (R : Runtime) (eh : EMFErrorHandlerType) (code : String)
    (d : EMFErrorType) (c : GoError) (rest : List (Option GoError))
    (h : getBuiltin code = some d) (hlog : eh.logger = true) :
    eh.NewError R code none (some c :: rest) = .error .nilMapAssignment ∧
    (∀ kvs, entriesGet "Error" kvs = none →
      ∃ e eh', eh.NewError R code (some kvs) (some c :: rest) = .ok (.inst e, eh') ∧
        mapGet e.Data "Error" = some (.err c) ∧ renderDataField R eh' "Error" = c.msg) ∧
    (∀ kvs v errors, entriesGet "Error" kvs = some v → v ≠ .nil →
      ∃ e eh', eh.NewError R code (some kvs) errors = .ok (.inst e, eh') ∧
        mapGet e.Data "Error" = some v) := by
  refine ⟨?_, ?_, ?_⟩
  · exact (newError_builtin R eh code d none (some c :: rest) h).1 _ (bindCause_nil_data _ _ _)
  · intro kvs hnone
    obtain ⟨e, eh', hres⟩ :=
      newError_builtin_ok R eh code d (some kvs) (some c :: rest) h hlog (Or.inl rfl)
    obtain ⟨e1, e2, data2, hb, hD, hehD, _⟩ :=
      newError_inst_error_entry R eh eh' code (some kvs) (some c :: rest) e hres
    rw [bindCause_store e1 kvs c rest hnone] at hb
    simp only [Except.ok.injEq, Prod.mk.injEq] at hb
    have hentry : mapGet e.Data "Error" = some (.err c) := by
      rw [hD rfl, ← hb.2]
      exact entriesGet_set_eq "Error" (.err c) kvs
    refine ⟨e, eh', hres, hentry, ?_⟩
    simp only [renderDataField, hehD, hentry, sprint]
  · intro kvs v errors hsome hv
    obtain ⟨e, eh', hres⟩ :=
      newError_builtin_ok R eh code d (some kvs) errors h hlog (Or.inl rfl)
    obtain ⟨e1, e2, data2, hb, hD, _, _⟩ :=
      newError_inst_error_entry R eh eh' code (some kvs) errors e hres
    obtain ⟨e2', hkeep⟩ := bindCause_keep e1 kvs v errors hsome hv
    rw [hkeep] at hb
    simp only [Except.ok.injEq, Prod.mk.injEq] at hb
    refine ⟨e, eh', hres, ?_⟩
    rw [hD rfl, ← hb.2]
    exact hsome

/-- Witness of `newError_error_entry`: `emf.500.RequesterSendRequestFailure` with the
cause `connection refused`, once with a nil data map and once with an empty one. -/
theorem newError_error_entry_witness :
    EMFErrorHandlerType.NewError exampleRuntime exampleHandler
        "emf.500.RequesterSendRequestFailure" none [some { msg := "connection refused" }]
      = .error .nilMapAssignment ∧
    ∃ e eh',
      EMFErrorHandlerType.NewError exampleRuntime exampleHandler
        "emf.500.RequesterSendRequestFailure" (some []) [some { msg := "connection refused" }]
        = .ok (.inst e, eh') ∧
      mapGet e.Data "Error" = some (.err { msg := "connection refused" }) ∧
      renderDataField exampleRuntime eh' "Error" = "connection refused" :=
  ⟨(newError_error_entry exampleRuntime exampleHandler "emf.500.RequesterSendRequestFailure"
      _ { msg := "connection refused" } [] rfl rfl).1,
    (newError_error_entry exampleRuntime exampleHandler "emf.500.RequesterSendRequestFailure"
      _ { msg := "connection refused" } [] rfl rfl).2.1 [] rfl⟩

/-- C19: the messages of a builtin definition render without an error on every handler,
whatever keys its data holds, so `Execute` returns no error; and `NewError` of a handler
with a logger returns an instance for every builtin code and every data map, also one
that lacks the keys the template names (with causes the data map must not be nil, for the
store of the cause). -/
theorem newError_builtin_missing_keys (R : Runtime) (eh : EMFErrorHandlerType) (code : String)
    (d : EMFErrorType) (data : Option (List (String × GoValue)))
    (errors : List (Option GoError)) (h : getBuiltin code = some d)
    (hlog : eh.logger = true) (hbind : data.isSome = true ∨ errors = []) :
    (∀ (e3 : EMFErrorType) (eh1 : EMFErrorHandlerType), e3.Message = d.Message →
      ∃ e4, e3.Execute R eh1 = .ok (.ok e4)) ∧
    ∃ e eh', eh.NewError R code data errors = .ok (.inst e, eh') := by
  refine ⟨?_, newError_builtin_ok R eh code d data errors h hlog hbind⟩
  intro e3 eh1 hm
  obtain ⟨entries, hentries, hrender⟩ := getBuiltin_renders R code d h
  obtain ⟨msgs, hmsgs, _⟩ := hrender eh1
  exact ⟨{ e3 with Message := some msgs },
    by simp only [EMFErrorType.Execute, hm, hentries, hmsgs]⟩

/-- Witness of `newError_builtin_missing_keys`: `emf.400.QueryParameterInvalid` with the
data `{"Error": err}` and no `"Param"`. -/
theorem newError_builtin_missing_keys_witness :
    mapGet (some [("Error", GoValue.err { msg := "blah" })]) "Param" = none ∧
    ∃ e eh',
      EMFErrorHandlerType.NewError exampleRuntime exampleHandler "emf.400.QueryParameterInvalid"
        (some [("Error", .err { msg := "blah" })]) [] = .ok (.inst e, eh') :=
  ⟨rfl, (newError_builtin_missing_keys exampleRuntime exampleHandler
    "emf.400.QueryParameterInvalid" _ (some [("Error", .err { msg := "blah" })]) []
    rfl rfl (Or.inl rfl)).2⟩

/-- C20: the claim fails: a placeholder `{{.Data.K}}` whose key is absent from the bound
data (or bound to nil) renders as the marker text `<no value>`, not as the empty string;
`emf.400.QueryParameterInvalid` without `"Param"` renders
`... invalid query parameter '<no value>'. Error: ...`. -/
theorem newError_missing_key_marker :
    (∀ (R : Runtime) (eh : EMFErrorHandlerType) (key : String),
      mapGet eh.Data key = none → renderDataField R eh key = "<no value>") ∧
    ∃ e eh',
      EMFErrorHandlerType.NewError exampleRuntime exampleHandler "emf.400.QueryParameterInvalid"
        (some [("Error", .err { msg := "blah" })]) [] = .ok (.inst e, eh') ∧
      e.Error = "The incoming request payload has an invalid query parameter '<no value>'. Error: 'blah'" := by
  refine ⟨?_, _, _, rfl, by decide⟩
  intro R eh key h
  simp only [renderDataField, h]

/-! ## Rendering, the stack trace and status groups -/

/-- C21: for `emf.400.QueryParameterInvalid`, every string `p` and every error `err`, a
handler with a logger outside debug mode returns, for the data
`{"Param": p, "Error": err}`, an instance with `StatusCode` 400 whose English message is
`"The incoming request payload has an invalid query parameter '" + p + "'. Error: '" +
err.Error() + "'"`. -/
theorem newError_queryParameterInvalid (R : Runtime) (eh : EMFErrorHandlerType) (p : String)
    (err : GoError) (hlog : eh.logger = true) (hdebug : eh.DebugMode = false) :
    ∃ e eh',
      eh.NewError R "emf.400.QueryParameterInvalid"
        (some [("Param", .str p), ("Error", .err err)]) [] = .ok (.inst e, eh') ∧
      e.StatusCode = 400 ∧
      e.Error = "The incoming request payload has an invalid query parameter '" ++ p
        ++ "'. Error: '" ++ err.msg ++ "'" := by
  obtain ⟨logger, templates, debug, method, path, query, data⟩ := eh
  simp only at hlog hdebug
  subst hlog
  subst hdebug
  refine ⟨_, _, rfl, rfl, ?_⟩
  show "The incoming request payload has an invalid query parameter '"
      ++ (p ++ ("'. Error: '" ++ (err.msg ++ ("'" ++ ""))))
    = "The incoming request payload has an invalid query parameter '" ++ p
        ++ "'. Error: '" ++ err.msg ++ "'"
  simp [String.append_assoc]

/-- Witness of `newError_queryParameterInvalid`: `p = "limit"` and the error text
`bad int`. -/
theorem newError_queryParameterInvalid_witness :
    ∃ e eh',
      EMFErrorHandlerType.NewError exampleRuntime exampleHandler "emf.400.QueryParameterInvalid"
        (some [("Param", .str "limit"), ("Error", .err { msg := "bad int" })]) []
        = .ok (.inst e, eh') ∧
      e.StatusCode = 400 ∧
      e.Error = "The incoming request payload has an invalid query parameter '" ++ "limit"
        ++ "'. Error: '" ++ "bad int" ++ "'" :=
  newError_queryParameterInvalid exampleRuntime exampleHandler "limit" { msg := "bad int" }
    rfl rfl

/-- C24: for a frame list of length `n`, `ErrorWrap` keeps `frames[3 .. n-6)` when
`n > 9`: these are `n - 9 ≥ 1` frames, the `i`-th kept frame is frame `i + 3`, and the
bounds satisfy `3 ≤ n - 6 ≤ n`; when `n ≤ 9` it keeps all frames. So 9 frames are all
kept and of 10 frames one is kept. The stored trace is the formatted kept frames. -/
theorem trimFrames_kept (frames : List String) :
    (frames.length > 9 →
      trimFrames frames = (frames.drop 3).take (frames.length - 6 - 3) ∧
      (trimFrames frames).length = frames.length - 9 ∧ 1 ≤ frames.length - 9 ∧
      3 ≤ frames.length - 6 ∧ frames.length - 6 ≤ frames.length ∧
      ∀ i, i < frames.length - 9 → (trimFrames frames)[i]? = frames[3 + i]?) ∧
    (frames.length ≤ 9 → trimFrames frames = frames) ∧
    (frames.length = 9 → (trimFrames frames).length = 9) ∧
    (frames.length = 10 → (trimFrames frames).length = 1) ∧
    (∀ (R : Runtime) (e : EMFErrorType),
      (e.ErrorWrap R).stackTrace = R.formatFrames (trimFrames R.frames)) := by
  refine ⟨?_, ?_, ?_, ?_, ?_⟩
  · intro h
    have ht : trimFrames frames = (frames.drop 3).take (frames.length - 6 - 3) := by
      simp only [trimFrames, if_pos h]
    refine ⟨ht, ?_, by omega, by omega, by omega, ?_⟩
    · rw [ht, List.length_take, List.length_drop]
      omega
    · intro i hi
      rw [ht, List.getElem?_take_of_lt (by omega), List.getElem?_drop]
  · intro h
    simp only [trimFrames, if_neg (by omega : ¬ frames.length > 9)]
  · intro h
    rw [trimFrames, if_neg (by omega : ¬ frames.length > 9), h]
  · intro h
    simp only [trimFrames, if_pos (by omega : frames.length > 9), List.length_take,
      List.length_drop]
    omega
  · intro R e
    rfl

/-- C25: the claim fails: `GetStackTrace` has a value receiver, so the trace it captures
is stored in a copy. For an instance whose stored trace is empty the call returns the
trace captured at the call, the instance still has an empty stored trace afterwards, and
a second call captures again and returns the trace of the second call. An instance whose
trace is set gets it back unchanged. -/
theorem getStackTrace_not_stored (R R2 : Runtime) (e : EMFErrorType)
    (h : e.stackTrace = "") :
    (e.GetStackTrace R).1 = R.formatFrames (trimFrames R.frames) ∧
    (e.GetStackTrace R).2.stackTrace = "" ∧
    ((e.GetStackTrace R).2.GetStackTrace R2).1 = R2.formatFrames (trimFrames R2.frames) ∧
    (∀ e' : EMFErrorType, e'.stackTrace ≠ "" →
      (e'.GetStackTrace R).1 = e'.stackTrace ∧ (e'.GetStackTrace R).2 = e') := by
  refine ⟨?_, ?_, ?_, ?_⟩
  · simp only [EMFErrorType.GetStackTrace, h, if_true, EMFErrorType.ErrorWrap]
  · exact h
  · simp only [EMFErrorType.GetStackTrace, h, if_true, EMFErrorType.ErrorWrap]
  · intro e' he'
    simp only [EMFErrorType.GetStackTrace, he', if_false, and_self]

/-- Witness of `getStackTrace_not_stored`: an instance made by `ToEMFError`, asked for
its trace at a stack `main.first` and then at a stack `main.second`. -/
theorem getStackTrace_not_stored_witness :
    (EMFErrorType.GetStackTrace { exampleRuntime with frames := ["main.first"] }
      (SimpleErrorType.ToEMFError "2020-01-01T00:00:00Z" { ErrorCode := "a.400.X" })).1
      = "main.first" ∧
    (EMFErrorType.GetStackTrace { exampleRuntime with frames := ["main.first"] }
      (SimpleErrorType.ToEMFError "2020-01-01T00:00:00Z" { ErrorCode := "a.400.X" })).2.stackTrace
      = "" ∧
    (EMFErrorType.GetStackTrace { exampleRuntime with frames := ["main.second"] }
      (EMFErrorType.GetStackTrace { exampleRuntime with frames := ["main.first"] }
        (SimpleErrorType.ToEMFError "2020-01-01T00:00:00Z" { ErrorCode := "a.400.X" })).2).1
      = "main.second" := by
  have w := getStackTrace_not_stored { exampleRuntime with frames := ["main.first"] }
    { exampleRuntime with frames := ["main.second"] }
    (SimpleErrorType.ToEMFError "2020-01-01T00:00:00Z" { ErrorCode := "a.400.X" }) rfl
  exact ⟨by decide, w.2.1, by decide⟩

/-- C26: for a status `StatusCode ≥ 0` and every integer `code`, `IsStatusGroup(code)` is
true iff `code` is a multiple of 100 and `code ≤ StatusCode ≤ code + 99`. -/
theorem isStatusGroup_iff (e : EMFErrorType) (code : Int) (h : 0 ≤ e.StatusCode) :
    e.IsStatusGroup code = true ↔
      (100 ∣ code ∧ code ≤ e.StatusCode ∧ e.StatusCode ≤ code + 99) := by
  unfold EMFErrorType.IsStatusGroup
  rw [Int.tdiv_eq_ediv h (by decide), beq_iff_eq]
  omega

/-- Witness of `isStatusGroup_iff`: the status 404 is in the group 400 and neither in
404 nor in 500. -/
theorem isStatusGroup_iff_witness :
    EMFErrorType.IsStatusGroup { StatusCode := 404 } 400 = true ∧
    EMFErrorType.IsStatusGroup { StatusCode := 404 } 404 = false ∧
    EMFErrorType.IsStatusGroup { StatusCode := 404 } 500 = false ∧
    (EMFErrorType.IsStatusGroup { StatusCode := 404 } 400 = true ↔
      ((100 : Int) ∣ 400 ∧ (400 : Int) ≤ 404 ∧ (404 : Int) ≤ 400 + 99)) :=
  ⟨by decide, by decide, by decide, isStatusGroup_iff { StatusCode := 404 } 400 (by decide)⟩


/-! ## Panics, debug data and the cause taken from the data -/

/-- A builtin definition has no internal cause. -/
theorem getBuiltin_cause (code : String) (d : EMFErrorType) (h : getBuiltin code = some d) :
    d.internalError = none := by
  rcases getBuiltin_mem code d h with
    rfl | rfl | rfl | rfl | rfl | rfl | rfl | rfl | rfl | rfl | rfl | rfl | rfl | rfl <;>
  · change some _ = some d at h
    cases h
    rfl

/-- The loop over the messages ends without a panic when every template parses. -/
theorem executeEntries_no_panic (R : Runtime) (eh : EMFErrorHandlerType) :
    ∀ (entries done : List (String × String)),
      (∀ entry ∈ entries, executeTemplate R eh entry.1 entry.2 ≠ .parseError) →
      ∃ r, executeEntries R eh entries done = .ok r
  | [], done, _ => ⟨_, rfl⟩
  | (language, message) :: rest, done, h => by
    have hfirst := h (language, message) (List.mem_cons_self _ _)
    have hrest : ∀ entry ∈ rest, executeTemplate R eh entry.1 entry.2 ≠ .parseError :=
      fun entry hmem => h entry (List.mem_cons_of_mem _ hmem)
    unfold executeEntries
    cases ht : executeTemplate R eh language message with
    | parseError => exact absurd ht hfirst
    | execError err => exact ⟨_, rfl⟩
    | rendered text => exact executeEntries_no_panic R eh rest _ hrest

/-- The definition is resolved without a panic when the code is builtin or the handler
has a template source. -/
theorem resolveDefinition_no_panic (eh : EMFErrorHandlerType) (code : String)
    (hsrc : (getBuiltin code).isSome = true ∨ eh.templates.isSome = true) :
    ∃ r, resolveDefinition eh code = .ok r := by
  unfold resolveDefinition
  cases hb : getBuiltin code with
  | some d => exact ⟨_, rfl⟩
  | none =>
    cases ht : eh.templates with
    | some src => exact ⟨_, rfl⟩
    | none => simp [hb, ht] at hsrc

/-- The messages of a builtin definition parse. -/
theorem getBuiltin_parses (R : Runtime) (code : String) (d : EMFErrorType)
    (h : getBuiltin code = some d) :
    ∀ entry ∈ d.Message.getD [], ∀ eh1 : EMFErrorHandlerType,
      executeTemplate R eh1 entry.1 entry.2 ≠ .parseError := by
  rcases getBuiltin_mem code d h with
    rfl | rfl | rfl | rfl | rfl | rfl | rfl | rfl | rfl | rfl | rfl | rfl | rfl | rfl <;>
  · change some _ = some d at h
    cases h
    intro entry hmem eh1
    simp only [Option.getD, List.mem_singleton] at hmem
    subst hmem
    intro hbad
    exact TemplateResult.noConfusion hbad

/-! ## Debug data and the cause taken from the data -/

/-- The merge of the handler into the data map leaves every key other than the five
exported fields of the handler. -/
theorem mergeHandler_get_other (eh : EMFErrorHandlerType)
    (data : Option (List (String × GoValue))) (k : String)
    (h1 : k ≠ "DebugMode") (h2 : k ≠ "Method") (h3 : k ≠ "Path") (h4 : k ≠ "QueryString")
    (h5 : k ≠ "Data") :
    entriesGet k (mergeHandler eh data) = mapGet data k := by
  unfold mergeHandler
  rw [entriesGet_set_ne _ _ _ (Ne.symm h5), entriesGet_set_ne _ _ _ (Ne.symm h4),
    entriesGet_set_ne _ _ _ (Ne.symm h3), entriesGet_set_ne _ _ _ (Ne.symm h2),
    entriesGet_set_ne _ _ _ (Ne.symm h1)]
  cases data <;> rfl

/-- The merge of the handler stores its `Method`, `Path` and `QueryString`. -/
theorem mergeHandler_get_fields (eh : EMFErrorHandlerType)
    (data : Option (List (String × GoValue))) :
    entriesGet "Method" (mergeHandler eh data) = some (.str eh.Method) ∧
    entriesGet "Path" (mergeHandler eh data) = some (.str eh.Path) ∧
    entriesGet "QueryString" (mergeHandler eh data) = some (.str eh.QueryString) := by
  unfold mergeHandler
  refine ⟨?_, ?_, ?_⟩
  · rw [entriesGet_set_ne _ _ _ (by decide), entriesGet_set_ne _ _ _ (by decide),
      entriesGet_set_ne _ _ _ (by decide)]
    exact entriesGet_set_eq _ _ _
  · rw [entriesGet_set_ne _ _ _ (by decide), entriesGet_set_ne _ _ _ (by decide)]
    exact entriesGet_set_eq _ _ _
  · rw [entriesGet_set_ne _ _ _ (by decide)]
    exact entriesGet_set_eq _ _ _

/-- The data after the binding of the cause: every key other than `"Error"` is as the
caller gave it; the map is the caller's when there are no causes or the `"Error"` entry is
not nil; otherwise the first cause is stored under `"Error"`. -/
theorem bindCause_data (e e2 : EMFErrorType) (data data2 : Option (List (String × GoValue)))
    (errors : List (Option GoError)) (h : bindCause e data errors = .ok (e2, data2)) :
    (∀ k, k ≠ "Error" → mapGet data2 k = mapGet data k) ∧
    ((errors = [] ∨ ∃ v, mapGet data "Error" = some v ∧ v ≠ .nil) → data2 = data) ∧
    (∀ first rest, errors = first :: rest →
      mapGet data "Error" = none ∨ mapGet data "Error" = some .nil →
      mapGet data2 "Error" = some (match first with | none => .nil | some err => .err err)) := by
  unfold bindCause at h
  cases errors with
  | nil =>
    simp only at h
    have hd : data2 = data := by
      split at h <;> simp only [Except.ok.injEq, Prod.mk.injEq] at h <;> exact h.2.symm
    subst hd
    refine ⟨fun _ _ => rfl, fun _ => rfl, ?_⟩
    intro first rest hne
    cases hne
  | cons first rest =>
    simp only at h
    cases data with
    | none =>
      simp only [mapGet] at h
      cases h
    | some kvs =>
      cases hE : entriesGet "Error" kvs with
      | none =>
        simp only [mapGet, hE, Except.ok.injEq, Prod.mk.injEq] at h
        obtain ⟨_, hd⟩ := h
        subst hd
        refine ⟨?_, ?_, ?_⟩
        · intro k hk
          exact entriesGet_set_ne k "Error" _ (Ne.symm hk) kvs
        · rintro (hnil | ⟨v, hv, _⟩)
          · cases hnil
          · simp only [mapGet, hE] at hv
            cases hv
        · intro first' rest' heq _
          cases heq
          exact entriesGet_set_eq "Error" _ kvs
      | some v =>
        cases v with
        | nil =>
          simp only [mapGet, hE, Except.ok.injEq, Prod.mk.injEq] at h
          obtain ⟨_, hd⟩ := h
          subst hd
          refine ⟨?_, ?_, ?_⟩
          · intro k hk
            exact entriesGet_set_ne k "Error" _ (Ne.symm hk) kvs
          · rintro (hnil | ⟨v, hv, hvn⟩)
            · cases hnil
            · simp only [mapGet, hE, Option.some.injEq] at hv
              exact absurd hv.symm hvn
          · intro first' rest' heq _
            cases heq
            exact entriesGet_set_eq "Error" _ kvs
        | _ =>
          simp only [mapGet, hE, Except.ok.injEq, Prod.mk.injEq] at h
          obtain ⟨_, hd⟩ := h
          subst hd
          refine ⟨fun _ _ => rfl, fun _ => rfl, ?_⟩
          intro first' rest' _ hor
          simp only [mapGet, hE, reduceCtorEq, Option.some.injEq, or_self] at hor

/-- The data of an instance that `NewError` returns: the data after the binding of the
cause, with the handler merged into it in debug mode. -/
theorem newError_inst_data (R : Runtime) (eh eh' : EMFErrorHandlerType) (code : String)
    (data : Option (List (String × GoValue))) (errors : List (Option GoError))
    (e : EMFErrorType) (h : eh.NewError R code data errors = .ok (.inst e, eh')) :
    ∃ (e1 e2 : EMFErrorType) (data2 : Option (List (String × GoValue))),
      bindCause e1 data errors = .ok (e2, data2) ∧
      e.Data = (if eh.DebugMode then some (mergeHandler eh data2) else data2) := by
  obtain ⟨e0, e2, e4, data2, _, hb, _, hx, _, he⟩ :=
    newError_inst_inv R eh eh' code data errors e h
  have h4 := execute_fields R _ e4 eh' hx
  refine ⟨_, e2, data2, hb, ?_⟩
  rw [he]
  show e4.Data = _
  rw [h4]

/-- C23, as the claim states it, fails in debug mode for a caller's `"Error"` entry that
holds nil when a cause is given: the entry does not keep its value, the cause replaces
it. -/
theorem newError_debug_data_counterexample :
    mapGet (some [("Error", GoValue.nil)]) "Error" = some GoValue.nil ∧
    ∃ e eh',
      EMFErrorHandlerType.NewError exampleRuntime { exampleHandler with DebugMode := true }
        "emf.400.TokenMissing" (some [("Error", GoValue.nil)]) [some { msg := "boom" }]
        = .ok (.inst e, eh') ∧
      mapGet e.Data "Error" = some (.err { msg := "boom" }) :=
  ⟨rfl, _, _, rfl, rfl⟩

/-- C23 (amended): for an instance that `NewError` returns, in debug mode its `Data` has
`"Method"`, `"Path"` and `"QueryString"` equal to the fields of the handler, and every
key other than `DebugMode`, `Method`, `Path`, `QueryString`, `Data` and `Error` is as the
caller gave it; without debug mode every key other than `Error` is as the caller gave
it, so there is no request metadata, and `Data` is the caller's map when there are no
causes or the caller's `"Error"` entry is not nil. In both modes a caller's `"Error"`
entry is kept when it is not nil or there are no causes, and with causes an absent or nil
`"Error"` entry holds the first cause. -/
theorem newError_debug_data (R : Runtime) (eh eh' : EMFErrorHandlerType) (code : String)
    (data : Option (List (String × GoValue))) (errors : List (Option GoError))
    (e : EMFErrorType) (h : eh.NewError R code data errors = .ok (.inst e, eh')) :
    (eh.DebugMode = true →
      mapGet e.Data "Method" = some (.str eh.Method) ∧
      mapGet e.Data "Path" = some (.str eh.Path) ∧
      mapGet e.Data "QueryString" = some (.str eh.QueryString) ∧
      (∀ k, k ≠ "DebugMode" → k ≠ "Method" → k ≠ "Path" → k ≠ "QueryString" → k ≠ "Data" →
        k ≠ "Error" → mapGet e.Data k = mapGet data k)) ∧
    (eh.DebugMode = false →
      (∀ k, k ≠ "Error" → mapGet e.Data k = mapGet data k) ∧
      ((errors = [] ∨ ∃ v, mapGet data "Error" = some v ∧ v ≠ .nil) → e.Data = data)) ∧
    (∀ v, mapGet data "Error" = some v → v ≠ .nil ∨ errors = [] →
      mapGet e.Data "Error" = some v) ∧
    (∀ first rest, errors = first :: rest →
      mapGet data "Error" = none ∨ mapGet data "Error" = some .nil →
      mapGet e.Data "Error" = some (match first with | none => .nil | some err => .err err)) := by
  obtain ⟨e1, e2, data2, hb, hD⟩ := newError_inst_data R eh eh' code data errors e h
  obtain ⟨hother, hsame, hauto⟩ := bindCause_data e1 e2 data data2 errors hb
  have hErr : mapGet e.Data "Error" = mapGet data2 "Error" := by
    rw [hD]
    cases eh.DebugMode
    · rfl
    · simp only [if_true, mapGet]
      exact mergeHandler_get_other eh data2 "Error" (by decide) (by decide) (by decide)
        (by decide) (by decide)
  refine ⟨?_, ?_, ?_, ?_⟩
  · intro hdebug
    rw [hD, hdebug]
    simp only [if_true, mapGet]
    obtain ⟨hm, hp, hq⟩ := mergeHandler_get_fields eh data2
    refine ⟨hm, hp, hq, ?_⟩
    intro k h1 h2 h3 h4 h5 h6
    rw [mergeHandler_get_other eh data2 k h1 h2 h3 h4 h5]
    exact hother k h6
  · intro hdebug
    rw [hD, hdebug]
    simp only [Bool.false_eq_true, if_false]
    exact ⟨hother, hsame⟩
  · intro v hv hor
    rw [hErr]
    have : data2 = data := by
      apply hsame
      rcases hor with hn | he
      · exact Or.inr ⟨v, hv, hn⟩
      · exact Or.inl he
    rw [this]
    exact hv
  · intro first rest he hor
    rw [hErr]
    exact hauto first rest he hor

/-- Witness of `newError_debug_data`: a debug-mode handler of `GET /things?limit=0` and
the data `Param = "limit"` with a cause. -/
theorem newError_debug_data_witness :
    ∃ e eh',
      EMFErrorHandlerType.NewError exampleRuntime
        { exampleHandler with DebugMode := true, Method := "GET", Path := "/things",
                              QueryString := "limit=0" }
        "emf.400.QueryParameterInvalid" (some [("Param", .str "limit")])
        [some { msg := "limit is not valid" }] = .ok (.inst e, eh') ∧
      mapGet e.Data "Method" = some (.str "GET") ∧
      mapGet e.Data "Path" = some (.str "/things") ∧
      mapGet e.Data "QueryString" = some (.str "limit=0") ∧
      mapGet e.Data "Param" = some (.str "limit") ∧
      mapGet e.Data "Error" = some (.err { msg := "limit is not valid" }) :=
  have hw := newError_debug_data exampleRuntime
    { exampleHandler with DebugMode := true, Method := "GET", Path := "/things",
                          QueryString := "limit=0" } _
    "emf.400.QueryParameterInvalid" (some [("Param", .str "limit")])
    [some { msg := "limit is not valid" }] _ rfl
  ⟨_, _, rfl, (hw.1 rfl).1, (hw.1 rfl).2.1, (hw.1 rfl).2.2.1,
    (hw.1 rfl).2.2.2 "Param" (by decide) (by decide) (by decide) (by decide) (by decide)
      (by decide),
    hw.2.2.2 _ _ rfl (Or.inl rfl)⟩

/-- C29: when `NewError` is called with no causes, an instance it returns has the error
value under the caller's `data["Error"]` as its internal cause; when that entry is absent
or not an error value, the internal cause is the one of the definition, which is nil for
every builtin definition (the template source cannot set the unexported field); and for a
builtin code a handler with a logger does return such an instance. -/
theorem newError_cause_from_data (R : Runtime) (eh : EMFErrorHandlerType) (code : String)
    (data : Option (List (String × GoValue))) :
    (∀ v e eh', mapGet data "Error" = some (.err v) →
      eh.NewError R code data [] = .ok (.inst e, eh') → e.Unwrap = some v) ∧
    (∀ e eh' e0, (∀ v, mapGet data "Error" ≠ some (.err v)) →
      resolveDefinition eh code = .ok (.ok e0) → e0.internalError = none →
      eh.NewError R code data [] = .ok (.inst e, eh') → e.Unwrap = none) ∧
    (∀ d, getBuiltin code = some d → eh.logger = true →
      ∃ e eh', eh.NewError R code data [] = .ok (.inst e, eh') ∧
        e.Unwrap = (match mapGet data "Error" with
          | some (.err v) => some v
          | _ => none)) := by
  have cause : ∀ e eh', eh.NewError R code data [] = .ok (.inst e, eh') →
      ∃ e0, resolveDefinition eh code = .ok (.ok e0) ∧
        e.Unwrap = (match mapGet data "Error" with
          | some (.err v) => some v
          | _ => e0.internalError) := by
    intro e eh' h
    obtain ⟨e0, e2, e4, data2, h0, hb, _, hx, _, he⟩ :=
      newError_inst_inv R eh eh' code data [] e h
    have h4 := execute_fields R _ e4 eh' hx
    refine ⟨e0, h0, ?_⟩
    have hc : e.Unwrap = e2.internalError := by
      rw [he]
      show e4.internalError = _
      rw [h4]
    rw [hc]
    rcases hE : mapGet data "Error" with _ | v
    · simp only [bindCause, hE, Except.ok.injEq, Prod.mk.injEq] at hb
      rw [← hb.1]
    · cases v <;> simp only [bindCause, hE, Except.ok.injEq, Prod.mk.injEq] at hb <;>
        rw [← hb.1]
  refine ⟨?_, ?_, ?_⟩
  · intro v e eh' hv h
    obtain ⟨e0, _, hc⟩ := cause e eh' h
    rw [hc, hv]
  · intro e eh' e0 hno h0 hnil h
    obtain ⟨e0', h0', hc⟩ := cause e eh' h
    rw [h0] at h0'
    simp only [Except.ok.injEq] at h0'
    subst h0'
    rw [hc]
    rcases hE : mapGet data "Error" with _ | v
    · exact hnil
    · cases v
      case err x => exact absurd hE (hno x)
      all_goals exact hnil
  · intro d hd hlog
    obtain ⟨e, eh', h⟩ := newError_builtin_ok R eh code d data [] hd hlog (Or.inr rfl)
    obtain ⟨e0, h0, hc⟩ := cause e eh' h
    rw [resolveDefinition_builtin eh code d hd] at h0
    simp only [Except.ok.injEq] at h0
    subst h0
    refine ⟨e, eh', h, ?_⟩
    rw [hc, getBuiltin_cause code d hd]


/-! ## Limit and offset -/

/-- `Atoi` reports a syntax error for the empty string. -/
theorem atoi_ne_empty (s : String) (n : Int) (h : Atoi s = .ok n) : s ≠ "" := by
  intro hs
  subst hs
  cases h

/-- When the limit part of `GetLimitAndOffset` passes: the parameter is absent or empty,
or it holds an integer between 0 and the maximum. -/
theorem checkLimit_ok_iff (maxLimit : Int) (limStr : String) (limit0 : Int) :
    checkLimit maxLimit limStr = .ok limit0 ↔
      (limStr = "" ∧ limit0 = 0) ∨
      (limStr ≠ "" ∧ Atoi limStr = .ok limit0 ∧ 0 ≤ limit0 ∧ limit0 ≤ maxLimit) := by
  unfold checkLimit
  by_cases hs : limStr = ""
  · subst hs
    simp only [ne_eq, not_true_eq_false, if_false, Except.ok.injEq, true_and, false_and,
      or_false]
    exact eq_comm
  · simp only [ne_eq, hs, not_false_eq_true, if_true, false_and, true_and, false_or]
    cases hA : Atoi limStr with
    | ok L =>
      simp only [AtoiResult.ok.injEq]
      by_cases hr : L < 0 ∨ L > maxLimit
      · simp only [hr, if_true, reduceCtorEq, false_iff, not_and, not_le]
        intro hL
        subst hL
        intro h0
        rcases hr with h | h
        · omega
        · exact h
      · simp only [hr, if_false, Except.ok.injEq]
        constructor
        · intro h
          subst h
          exact ⟨rfl, by omega, by omega⟩
        · intro h
          exact h.1
    | syntaxError => simp only [reduceCtorEq, false_and]
    | rangeError n => simp only [reduceCtorEq, false_and]

/-- A rejection by the limit part is an `emf.400.QueryParameterInvalid` for `limit`. -/
theorem checkLimit_error (maxLimit : Int) (limStr : String) (call : NewErrorCall)
    (h : checkLimit maxLimit limStr = .error call) :
    call.code = "emf.400.QueryParameterInvalid" ∧ call.param = some (.str "limit") := by
  unfold checkLimit at h
  split at h
  · split at h
    · split at h
      · simp only [Except.error.injEq] at h
        subst h
        exact ⟨rfl, rfl⟩
      · cases h
    · simp only [Except.error.injEq] at h
      subst h
      exact ⟨rfl, rfl⟩
  · cases h

/-- When the offset part of `GetLimitAndOffset` passes: the parameter is absent or empty,
or it holds an integer that is not negative. -/
theorem checkOffset_ok_iff (offStr : String) (offset : Int) :
    checkOffset offStr = .ok offset ↔
      (offStr = "" ∧ offset = 0) ∨ (offStr ≠ "" ∧ Atoi offStr = .ok offset ∧ 0 ≤ offset) := by
  unfold checkOffset
  by_cases hs : offStr = ""
  · subst hs
    simp only [ne_eq, not_true_eq_false, if_false, Except.ok.injEq, true_and, false_and,
      or_false]
    exact eq_comm
  · simp only [ne_eq, hs, not_false_eq_true, if_true, false_and, true_and, false_or]
    cases hA : Atoi offStr with
    | ok L =>
      simp only [AtoiResult.ok.injEq]
      by_cases hr : L < 0
      · simp only [hr, if_true, reduceCtorEq, false_iff, not_and, not_le]
        intro hL
        subst hL
        exact hr
      · simp only [hr, if_false, Except.ok.injEq]
        constructor
        · intro h
          subst h
          exact ⟨rfl, by omega⟩
        · intro h
          exact h.1
    | syntaxError => simp only [reduceCtorEq, false_and]
    | rangeError n => simp only [reduceCtorEq, false_and]

/-- A rejection by the offset part is an `emf.400.QueryParameterInvalid` for `offset`. -/
theorem checkOffset_error (offStr : String) (call : NewErrorCall)
    (h : checkOffset offStr = .error call) :
    call.code = "emf.400.QueryParameterInvalid" ∧ call.param = some (.str "offset") := by
  unfold checkOffset at h
  split at h
  · split at h
    · split at h
      · simp only [Except.error.injEq] at h
        subst h
        exact ⟨rfl, rfl⟩
      · cases h
    · simp only [Except.error.injEq] at h
      subst h
      exact ⟨rfl, rfl⟩
  · cases h

/-- The offset part gives a value or a rejection. -/
theorem checkOffset_cases (offStr : String) :
    (∃ offset, checkOffset offStr = .ok offset) ∨ (∃ call, checkOffset offStr = .error call) := by
  cases h : checkOffset offStr with
  | ok offset => exact Or.inl ⟨offset, rfl⟩
  | error call => exact Or.inr ⟨call, rfl⟩

/-- `GetLimitAndOffset` returns a pair exactly when both parts pass, with the default in
the place of a limit of 0. -/
theorem getLimitAndOffset_ok_iff (maxLimit defaultLimit : Int) (limStr offStr : String)
    (limit offset : Int) :
    GetLimitAndOffset maxLimit defaultLimit limStr offStr = .ok (limit, offset) ↔
      ∃ limit0, checkLimit maxLimit limStr = .ok limit0 ∧
        limit = (if limit0 = 0 then defaultLimit else limit0) ∧
        checkOffset offStr = .ok offset := by
  unfold GetLimitAndOffset
  cases hl : checkLimit maxLimit limStr with
  | error call =>
    simp only [reduceCtorEq, false_iff, not_exists, false_and, not_false_eq_true, implies_true]
  | ok limit0 =>
    cases ho : checkOffset offStr with
    | error call =>
      simp only [reduceCtorEq, false_iff, not_exists, and_false, not_false_eq_true,
        implies_true]
    | ok offset0 =>
      simp only [Except.ok.injEq, Prod.mk.injEq]
      constructor
      · rintro ⟨h1, h2⟩
        exact ⟨limit0, rfl, h1.symm, h2⟩
      · rintro ⟨l, hl0, h1, h2⟩
        subst hl0
        exact ⟨h1.symm, h2⟩

/-- A rejection by `GetLimitAndOffset` is one of the limit part, or one of the offset
part after the limit part passed. -/
theorem getLimitAndOffset_error (maxLimit defaultLimit : Int) (limStr offStr : String)
    (call : NewErrorCall)
    (h : GetLimitAndOffset maxLimit defaultLimit limStr offStr = .error call) :
    checkLimit maxLimit limStr = .error call ∨
      ((∃ limit0, checkLimit maxLimit limStr = .ok limit0) ∧
        checkOffset offStr = .error call) := by
  unfold GetLimitAndOffset at h
  cases hl : checkLimit maxLimit limStr with
  | error c =>
    rw [hl] at h
    simp only [Except.error.injEq] at h
    subst h
    exact Or.inl rfl
  | ok limit0 =>
    rw [hl] at h
    cases ho : checkOffset offStr with
    | error c =>
      rw [ho] at h
      simp only [Except.error.injEq] at h
      subst h
      exact Or.inr ⟨⟨limit0, rfl⟩, rfl⟩
    | ok offset0 =>
      rw [ho] at h
      cases h

/-- C27: the claim fails for the limit 0, which `GetLimitAndOffset` accepts and replaces
by the default limit, although its own error text asks for a limit between 1 and the
maximum. For a limit parameter holding the integer `L`, the call is rejected for `limit`
exactly when `L < 0` or `L` is above the maximum, such a rejection is an
`emf.400.QueryParameterInvalid`, a limit from 1 to the maximum is returned as it is, and
the limit 0 is returned as the default limit. -/
theorem getLimitAndOffset_limit (maxLimit defaultLimit : Int) (limStr offStr : String)
    (L : Int) (hL : Atoi limStr = .ok L) :
    ((∃ call, GetLimitAndOffset maxLimit defaultLimit limStr offStr = .error call ∧
        call.param = some (.str "limit")) ↔ (L < 0 ∨ maxLimit < L)) ∧
    (∀ call, GetLimitAndOffset maxLimit defaultLimit limStr offStr = .error call →
      call.code = "emf.400.QueryParameterInvalid") ∧
    (1 ≤ L → L ≤ maxLimit →
      GetLimitAndOffset maxLimit defaultLimit limStr "" = .ok (L, 0)) ∧
    (L = 0 → 0 ≤ maxLimit →
      GetLimitAndOffset maxLimit defaultLimit limStr "" = .ok (defaultLimit, 0)) := by
  have hne := atoi_ne_empty limStr L hL
  have hpass : ∀ limit0, checkLimit maxLimit limStr = .ok limit0 ↔
      (limit0 = L ∧ 0 ≤ L ∧ L ≤ maxLimit) := by
    intro limit0
    rw [checkLimit_ok_iff, hL]
    simp only [hne, false_and, false_or, ne_eq, not_false_eq_true, true_and,
      AtoiResult.ok.injEq]
    constructor
    · rintro ⟨h1, h2, h3⟩
      subst h1
      exact ⟨rfl, h2, h3⟩
    · rintro ⟨h1, h2, h3⟩
      subst h1
      exact ⟨rfl, h2, h3⟩
  refine ⟨⟨?_, ?_⟩, ?_, ?_, ?_⟩
  · rintro ⟨call, hcall, hparam⟩
    rcases getLimitAndOffset_error _ _ _ _ _ hcall with hl | ⟨_, ho⟩
    · by_contra hnot
      have hok := (hpass L).2 ⟨rfl, by omega, by omega⟩
      rw [hok] at hl
      cases hl
    · have hp := (checkOffset_error offStr call ho).2
      rw [hp] at hparam
      simp only [Option.some.injEq, GoValue.str.injEq] at hparam
      exact absurd hparam (by decide)
  · intro hbad
    cases hl : checkLimit maxLimit limStr with
    | ok limit0 =>
      have := (hpass limit0).1 hl
      omega
    | error call =>
      refine ⟨call, ?_, (checkLimit_error _ _ _ hl).2⟩
      unfold GetLimitAndOffset
      rw [hl]
  · intro call hcall
    rcases getLimitAndOffset_error _ _ _ _ _ hcall with hl | ⟨_, ho⟩
    · exact (checkLimit_error _ _ _ hl).1
    · exact (checkOffset_error _ _ ho).1
  · intro h1 h2
    rw [getLimitAndOffset_ok_iff]
    refine ⟨L, (hpass L).2 ⟨rfl, by omega, h2⟩, ?_, rfl⟩
    rw [if_neg (by omega)]
  · intro h0 hmax
    rw [getLimitAndOffset_ok_iff]
    refine ⟨L, (hpass L).2 ⟨rfl, by omega, by omega⟩, ?_, rfl⟩
    rw [if_pos h0]

/-- Witness of `getLimitAndOffset_limit`: the request `?limit=0` under an unset limit
configuration is answered with the default limit 20. -/
theorem getLimitAndOffset_limit_witness :
    Atoi "0" = .ok 0 ∧
    GetLimitAndOffset (GetMaxLimit 0) (GetDefaultLimit 0) "0" "" = .ok (GetDefaultLimit 0, 0) :=
  ⟨by decide,
    (getLimitAndOffset_limit (GetMaxLimit 0) (GetDefaultLimit 0) "0" "" 0
      (by decide)).2.2.2 rfl (by decide)⟩

/-! ## The HTTP error handler -/

/-- The status that `sendJSONorPanic` hands to `c.JSON` is the one it is given. -/
theorem sendJSONorPanic_code (code : Int) (isDebug : Bool) (msg : Payload) :
    (sendJSONorPanic code isDebug msg).code = code := by
  unfold sendJSONorPanic
  split
  · split <;> rfl
  · rfl

/-- For a builtin code, a handler with a logger sends the new error with the given
status. -/
theorem sendNewError_code (R : Runtime) (eh : EMFErrorHandlerType) (status : Int)
    (code text : String) (d : EMFErrorType) (h : getBuiltin code = some d)
    (hlog : eh.logger = true) :
    ∃ sent, sendNewError R eh status code text = .ok sent ∧ sent.code = status := by
  obtain ⟨e, eh', hnew⟩ :=
    newError_builtin_ok R eh code d (some [("Error", .err { msg := text })]) [] h hlog
      (Or.inl rfl)
  unfold sendNewError
  rw [hnew]
  exact ⟨_, rfl, sendJSONorPanic_code _ _ _⟩

/-- The comparison with `"invalid or expired jwt"` holds for that string only. -/
theorem isExpiredMessage_iff (message : GoValue) :
    isExpiredMessage message = true ↔ message = .str "invalid or expired jwt" := by
  cases message <;> simp [isExpiredMessage]

/-- C30: `CustomHTTPErrorHandler` ends without a panic and sends, for an
`*EMFErrorType`, the `StatusCode` of the instance when it is not zero and 500 when it is
zero; for an echo `HTTPError`, 400 when it is `ErrJWTMissing`, otherwise 401 when its
message is `"invalid or expired jwt"`, otherwise its `Code` when it is not zero and 500
when it is zero; for a `jwt.ValidationError`, 400; and for every other error, 500. -/
theorem customHTTPErrorHandler_status (R : Runtime) (c : RequestInfo) :
    (∀ e, ∃ sent, CustomHTTPErrorHandler R c (.emf e) = .ok sent ∧
      sent.code = (if e.StatusCode ≠ 0 then e.StatusCode else 500)) ∧
    (∀ message code text, ∃ sent,
      CustomHTTPErrorHandler R c (.http true message code text) = .ok sent ∧
      sent.code = 400) ∧
    (∀ code text, ∃ sent,
      CustomHTTPErrorHandler R c (.http false (.str "invalid or expired jwt") code text)
        = .ok sent ∧
      sent.code = 401) ∧
    (∀ message code text, message ≠ .str "invalid or expired jwt" → ∃ sent,
      CustomHTTPErrorHandler R c (.http false message code text) = .ok sent ∧
      sent.code = (if code ≠ 0 then code else 500)) ∧
    (∀ text, ∃ sent, CustomHTTPErrorHandler R c (.jwtValidation text) = .ok sent ∧
      sent.code = 400) ∧
    (∀ err, ∃ sent, CustomHTTPErrorHandler R c (.other err) = .ok sent ∧
      sent.code = 500) := by
  refine ⟨?_, ?_, ?_, ?_, ?_, ?_⟩
  · intro e
    exact ⟨_, rfl, sendJSONorPanic_code _ _ _⟩
  · intro message code text
    exact sendNewError_code R
      { logger := true, templates := none, DebugMode := c.debugMode == "true",
        Method := c.Method, Path := c.Path, QueryString := c.QueryString }
      400 "emf.400.TokenMissing" text _ rfl rfl
  · intro code text
    exact sendNewError_code R
      { logger := true, templates := none, DebugMode := c.debugMode == "true",
        Method := c.Method, Path := c.Path, QueryString := c.QueryString }
      401 "emf.401.TokenExpired" text _ rfl rfl
  · intro message code text hne
    have hm : isExpiredMessage message = false := by
      cases h : isExpiredMessage message
      · rfl
      · exact absurd ((isExpiredMessage_iff message).1 h) hne
    refine ⟨_, ?_, sendJSONorPanic_code (if code ≠ 0 then code else 500)
      (c.debugMode == "true") (.value message)⟩
    simp only [CustomHTTPErrorHandler, hm, Bool.false_eq_true, if_false]
  · intro text
    exact sendNewError_code R
      { logger := true, templates := none, DebugMode := c.debugMode == "true",
        Method := c.Method, Path := c.Path, QueryString := c.QueryString }
      400 "emf.400.TokenMissing" text _ rfl rfl
  · intro err
    exact ⟨_, rfl, sendJSONorPanic_code _ _ _⟩

/-- C28: under an unset limit configuration (`GetMaxLimit() = 50`,
`GetDefaultLimit() = 20`), whenever `GetLimitAndOffset` returns without error,
`1 ≤ limit ≤ 50` and `offset ≥ 0`; the limit is 20 when the limit parameter is absent,
empty or `"0"` (it parses to 0), and otherwise the parsed value; the offset is 0 when the
offset parameter is absent or empty and otherwise the parsed value. It does return
without error when the limit parameter is absent, empty or an integer from 0 to 50 and
the offset parameter is absent, empty or an integer that is not negative; and, the limit
parameter being such, a non-integer or negative offset is rejected with an
`emf.400.QueryParameterInvalid` whose `Param` is `"offset"`. -/
theorem getLimitAndOffset_post (limStr offStr : String) :
    GetMaxLimit 0 = 50 ∧ GetDefaultLimit 0 = 20 ∧
    (∀ limit offset,
      GetLimitAndOffset (GetMaxLimit 0) (GetDefaultLimit 0) limStr offStr = .ok (limit, offset) →
      1 ≤ limit ∧ limit ≤ 50 ∧ 0 ≤ offset ∧
      limit = (if limStr = "" ∨ Atoi limStr = .ok 0 then 20 else (Atoi limStr).value) ∧
      offset = (if offStr = "" then 0 else (Atoi offStr).value) ∧
      (limStr = "" ∨ limStr = "0" → limit = 20)) ∧
    ((limStr = "" ∨ ∃ L, Atoi limStr = .ok L ∧ 0 ≤ L ∧ L ≤ 50) →
      ((offStr = "" ∨ ∃ n, Atoi offStr = .ok n ∧ 0 ≤ n) →
        ∃ r, GetLimitAndOffset (GetMaxLimit 0) (GetDefaultLimit 0) limStr offStr = .ok r) ∧
      (offStr ≠ "" → (∀ n, Atoi offStr = .ok n → n < 0) →
        ∃ call,
          GetLimitAndOffset (GetMaxLimit 0) (GetDefaultLimit 0) limStr offStr = .error call ∧
          call.code = "emf.400.QueryParameterInvalid" ∧
          call.param = some (.str "offset"))) := by
  have hmax : GetMaxLimit 0 = 50 := rfl
  have hdef : GetDefaultLimit 0 = 20 := rfl
  refine ⟨hmax, hdef, ?_, ?_⟩
  · intro limit offset h
    rw [getLimitAndOffset_ok_iff] at h
    obtain ⟨limit0, hl, hlim, ho⟩ := h
    rw [hmax, checkLimit_ok_iff] at hl
    rw [hdef] at hlim
    rw [checkOffset_ok_iff] at ho
    have hoff : 0 ≤ offset ∧ offset = (if offStr = "" then 0 else (Atoi offStr).value) := by
      rcases ho with ⟨h1, h2⟩ | ⟨h1, h2, h3⟩
      · rw [if_pos h1]
        exact ⟨by omega, h2⟩
      · rw [if_neg h1, h2]
        exact ⟨h3, rfl⟩
    rcases hl with ⟨h1, h2⟩ | ⟨h1, h2, h3, h4⟩
    · subst h2
      rw [if_pos rfl] at hlim
      rw [if_pos (Or.inl h1)]
      exact ⟨by omega, by omega, hoff.1, hlim, hoff.2, fun _ => hlim⟩
    · by_cases hz : limit0 = 0
      · subst hz
        rw [if_pos rfl] at hlim
        rw [if_pos (Or.inr h2)]
        exact ⟨by omega, by omega, hoff.1, hlim, hoff.2, fun _ => hlim⟩
      · rw [if_neg hz] at hlim
        have hnot : ¬ (limStr = "" ∨ Atoi limStr = .ok 0) := by
          rintro (h | h)
          · exact h1 h
          · rw [h2] at h
            simp only [AtoiResult.ok.injEq] at h
            exact hz h
        rw [if_neg hnot, h2]
        refine ⟨by omega, by omega, hoff.1, hlim, hoff.2, ?_⟩
        rintro (h | h)
        · exact absurd h h1
        · subst h
          have h0 : Atoi "0" = .ok 0 := by decide
          rw [h0] at h2
          simp only [AtoiResult.ok.injEq] at h2
          exact absurd h2.symm hz
  · intro hlimit
    have hl : ∃ limit0, checkLimit (GetMaxLimit 0) limStr = .ok limit0 := by
      rcases hlimit with h | ⟨L, h1, h2, h3⟩
      · exact ⟨0, (checkLimit_ok_iff _ _ _).2 (Or.inl ⟨h, rfl⟩)⟩
      · exact ⟨L, (checkLimit_ok_iff _ _ _).2
          (Or.inr ⟨atoi_ne_empty _ _ h1, h1, h2, by rw [hmax]; exact h3⟩)⟩
    obtain ⟨limit0, hl⟩ := hl
    refine ⟨?_, ?_⟩
    · intro hoffset
      have ho : ∃ offset, checkOffset offStr = .ok offset := by
        rcases hoffset with h | ⟨n, h1, h2⟩
        · exact ⟨0, (checkOffset_ok_iff _ _).2 (Or.inl ⟨h, rfl⟩)⟩
        · exact ⟨n, (checkOffset_ok_iff _ _).2 (Or.inr ⟨atoi_ne_empty _ _ h1, h1, h2⟩)⟩
      obtain ⟨offset, ho⟩ := ho
      exact ⟨(_, offset), (getLimitAndOffset_ok_iff _ _ _ _ _ _).2 ⟨limit0, hl, rfl, ho⟩⟩
    · intro hne hbad
      rcases checkOffset_cases offStr with ⟨offset, ho⟩ | ⟨call, ho⟩
      · rcases (checkOffset_ok_iff _ _).1 ho with ⟨h1, _⟩ | ⟨_, h2, h3⟩
        · exact absurd h1 hne
        · have := hbad offset h2
          omega
      · refine ⟨call, ?_, checkOffset_error _ _ ho⟩
        unfold GetLimitAndOffset
        rw [hl]
        simp only [ho]


/-! ## The maps of a decoded instance -/

/-- Reading a key after a store. -/
theorem entriesGet_set {V : Type} (k k' : String) (v : V) (kvs : List (String × V)) :
    entriesGet k (entriesSet k' v kvs) = if k' = k then some v else entriesGet k kvs := by
  by_cases h : k' = k
  · subst h
    rw [if_pos rfl]
    exact entriesGet_set_eq _ v kvs
  · rw [if_neg h]
    exact entriesGet_set_ne k k' v h kvs

/-- A `map[string]string` decoded from the members of an object holds, under each key,
what the last member with that key decodes to, and under the other keys what it held. -/
theorem decodeStringMembers_get (k : String) :
    ∀ (ms : List (String × JSON)) (acc : List (String × String)),
      entriesGet k (decodeStringMembers ms acc).1
        = match lastMember k ms with
          | some v => some (decodeString "" v).1
          | none => entriesGet k acc
  | [], acc => rfl
  | (k', v) :: rest, acc => by
    simp only [decodeStringMembers, lastMember]
    rw [decodeStringMembers_get k rest]
    cases lastMember k rest with
    | some w => rfl
    | none =>
      simp only [entriesGet_set]
      split_ifs <;> rfl

/-- A `map[string]interface{}` decoded from the members of an object holds, under each
key, what the last member with that key decodes to. -/
theorem decodeAnyMembers_get (k : String) :
    ∀ (ms : List (String × JSON)) (acc : List (String × GoValue)),
      entriesGet k (decodeAnyMembers ms acc).1
        = match lastMember k ms with
          | some v => some (decodeAny v).1
          | none => entriesGet k acc
  | [], acc => by simp only [decodeAnyMembers, lastMember]
  | (k', v) :: rest, acc => by
    simp only [decodeAnyMembers, lastMember]
    rw [decodeAnyMembers_get k rest]
    cases lastMember k rest with
    | some w => rfl
    | none =>
      simp only [entriesGet_set]
      split_ifs <;> rfl

/-- Decoding the members of two objects one after the other into a `map[string]string`
is decoding the members of both. -/
theorem decodeStringMembers_append :
    ∀ (a b : List (String × JSON)) (acc : List (String × String)),
      (decodeStringMembers (a ++ b) acc).1
        = (decodeStringMembers b (decodeStringMembers a acc).1).1
  | [], b, acc => rfl
  | (k, v) :: rest, b, acc => by
    simp only [List.cons_append, decodeStringMembers]
    exact decodeStringMembers_append rest b _

/-- Decoding the members of two objects one after the other into a
`map[string]interface{}` is decoding the members of both. -/
theorem decodeAnyMembers_append :
    ∀ (a b : List (String × JSON)) (acc : List (String × GoValue)),
      (decodeAnyMembers (a ++ b) acc).1
        = (decodeAnyMembers b (decodeAnyMembers a acc).1).1
  | [], b, acc => by simp only [List.nil_append, decodeAnyMembers]
  | (k, v) :: rest, b, acc => by
    simp only [List.cons_append, decodeAnyMembers]
    exact decodeAnyMembers_append rest b _

/-- Objects decoded one after the other into a `map[string]string` that is not nil. -/
theorem foldl_decodeStringMap_objs :
    ∀ (objs : List (List (String × JSON))) (acc : List (String × String)),
      (objs.map JSON.obj).foldl (fun cur v => (decodeStringMap cur v).1) (some acc)
        = some (decodeStringMembers (objs.foldr (fun ms all => ms ++ all) []) acc).1
  | [], acc => rfl
  | o :: rest, acc => by
    simp only [List.map_cons, List.foldl_cons, List.foldr_cons]
    have step : (decodeStringMap (some acc) (.obj o)).1 = some (decodeStringMembers o acc).1 := rfl
    rw [step, foldl_decodeStringMap_objs rest]
    exact congrArg some (decodeStringMembers_append o _ acc).symm

/-- Objects decoded one after the other into a `map[string]interface{}` that is not
nil. -/
theorem foldl_decodeAnyMap_objs :
    ∀ (objs : List (List (String × JSON))) (acc : List (String × GoValue)),
      (objs.map JSON.obj).foldl (fun cur v => (decodeAnyMap cur v).1) (some acc)
        = some (decodeAnyMembers (objs.foldr (fun ms all => ms ++ all) []) acc).1
  | [], acc => rfl
  | o :: rest, acc => by
    simp only [List.map_cons, List.foldl_cons, List.foldr_cons]
    have step : (decodeAnyMap (some acc) (.obj o)).1 = some (decodeAnyMembers o acc).1 := rfl
    rw [step, foldl_decodeAnyMap_objs rest]
    exact congrArg some (decodeAnyMembers_append o _ acc).symm

/-- The elements of a decoded array are the decoded elements, in order. -/
theorem decodeAnyList_fst :
    ∀ xs : List JSON, (decodeAnyList xs).1 = xs.map (fun x => (decodeAny x).1)
  | [] => by simp only [decodeAnyList, List.map_nil]
  | x :: xs => by
    simp only [decodeAnyList, List.map_cons]
    rw [decodeAnyList_fst xs]

/-- What decoding into an `interface{}` gives: nil for `null`, the bool, the string, the
float64 of a number in range, the slice of the decoded elements, and a map that holds
under each key the decoded last member with that key. -/
theorem decodeAny_value :
    (decodeAny .null).1 = .nil ∧
    (∀ b, (decodeAny (.bool b)).1 = .bool b) ∧
    (∀ s, (decodeAny (.str s)).1 = .str s) ∧
    (∀ n, n.finiteFloat = true → (decodeAny (.num n)).1 = .float n) ∧
    (∀ xs, (decodeAny (.arr xs)).1 = .list (xs.map (fun x => (decodeAny x).1))) ∧
    (∀ ms, ∃ inner, (decodeAny (.obj ms)).1 = .map inner ∧
      ∀ k, entriesGet k inner = (lastMember k ms).map (fun v => (decodeAny v).1)) := by
  refine ⟨by simp only [decodeAny], fun b => by simp only [decodeAny],
    fun s => by simp only [decodeAny], ?_, ?_, ?_⟩
  · intro n hn
    simp only [decodeAny, hn, if_true]
  · intro xs
    simp only [decodeAny, decodeAnyList_fst]
  · intro ms
    refine ⟨(decodeAnyMembers ms []).1, by simp only [decodeAny], ?_⟩
    intro k
    rw [decodeAnyMembers_get]
    cases lastMember k ms <;> rfl

/-- C7: when the body is an object that decodes into an `EMFErrorType` without a type
error and whose (last) `errorCode` member is a non-empty string `c`, `DecodeEMFError`
returns the decoded instance itself, whatever the handler is (its `NewError` is not
used): the `ErrorCode` is `c`; the `StatusCode` is that of the (last) `statusCode`
member, and 0 without one; `Message` is nil without a `message` member, and for `message`
members that are objects it holds under each key the string of the last member with that
key; `Data` is nil without a `data` member, and for `data` members that are objects it
holds under each key the Go value of the last member with that key: nil for `null`, the
bool, the string, the float64 of the number, the slice of the elements of an array, and
for an object the map of its members. -/
theorem decodeEMFError_full_instance (now : String) (newError : NewErrorMethod)
    (kvs : List (String × JSON)) (c : String)
    (hdec : (decodeEMFMembers kvs {}).2 = none)
    (hcode : (membersOf "ErrorCode" kvs).getLast? = some (.str c)) (hne : c ≠ "") :
    DecodeEMFError now newError (.value (.obj kvs)) = .ok (decodeEMFMembers kvs {}).1 ∧
    (decodeEMFMembers kvs {}).1.ErrorCode = c ∧
    (∀ s : Int, (membersOf "StatusCode" kvs).getLast? = some (.num (.int s)) →
      (decodeEMFMembers kvs {}).1.StatusCode = s) ∧
    (∀ ms, membersOf "Message" kvs = [.obj ms] →
      (decodeEMFMembers kvs {}).1.Message = some (decodeStringMembers ms []).1) ∧
    (∀ ds, membersOf "Data" kvs = [.obj ds] →
      (decodeEMFMembers kvs {}).1.Data = some (decodeAnyMembers ds []).1) ∧
    (membersOf "StatusCode" kvs = [] → (decodeEMFMembers kvs {}).1.StatusCode = 0) ∧
    (membersOf "Message" kvs = [] → (decodeEMFMembers kvs {}).1.Message = none) ∧
    (membersOf "Data" kvs = [] → (decodeEMFMembers kvs {}).1.Data = none) ∧
    (∀ objs, objs ≠ [] → membersOf "Message" kvs = objs.map JSON.obj →
      ∀ k, mapGet (decodeEMFMembers kvs {}).1.Message k
        = (lastMember k (objs.foldr (fun ms all => ms ++ all) [])).map
            (fun v => match v with
              | .str s => s
              | _ => "")) ∧
    (∀ objs, objs ≠ [] → membersOf "Data" kvs = objs.map JSON.obj →
      ∀ k, mapGet (decodeEMFMembers kvs {}).1.Data k
        = (lastMember k (objs.foldr (fun ms all => ms ++ all) [])).map (fun v => (decodeAny v).1)) ∧
    ((decodeAny .null).1 = .nil ∧
      (∀ b, (decodeAny (.bool b)).1 = .bool b) ∧
      (∀ s, (decodeAny (.str s)).1 = .str s) ∧
      (∀ n, n.finiteFloat = true → (decodeAny (.num n)).1 = .float n) ∧
      (∀ xs, (decodeAny (.arr xs)).1 = .list (xs.map (fun x => (decodeAny x).1))) ∧
      (∀ ms, ∃ inner, (decodeAny (.obj ms)).1 = .map inner ∧
        ∀ k, entriesGet k inner = (lastMember k ms).map (fun v => (decodeAny v).1))) := by
  have hc : (decodeEMFMembers kvs {}).1.ErrorCode = c := by
    rw [decodeEMFMembers_code]
    exact foldl_decodeString_last _ _ _ hcode
  refine ⟨?_, hc, ?_, ?_, ?_, ?_, ?_, ?_, ?_, ?_, decodeAny_value⟩
  · simp only [DecodeEMFError, decodeEMFErrorType, hdec, hc]
    simp [hne]
  · intro s hs
    rw [decodeEMFMembers_status]
    apply foldl_decodeInt_last _ _ _ hs
    apply decodeEMFMembers_status_fits kvs s {} hdec
    exact List.mem_of_mem_getLast? hs
  · intro ms hms
    rw [decodeEMFMembers_message, hms]
    rfl
  · intro ds hds
    rw [decodeEMFMembers_data, hds]
    rfl
  · intro h
    rw [decodeEMFMembers_status, h]
    rfl
  · intro h
    rw [decodeEMFMembers_message, h]
    rfl
  · intro h
    rw [decodeEMFMembers_data, h]
    rfl
  · intro objs hne' hms k
    rw [decodeEMFMembers_message, hms]
    cases objs with
    | nil => exact absurd rfl hne'
    | cons o rest =>
      have h1 : ((o :: rest).map JSON.obj).foldl (fun cur v => (decodeStringMap cur v).1)
          ({} : EMFErrorType).Message
          = (rest.map JSON.obj).foldl (fun cur v => (decodeStringMap cur v).1)
              (some (decodeStringMembers o []).1) := rfl
      rw [h1, foldl_decodeStringMap_objs, ← decodeStringMembers_append]
      show entriesGet k _ = _
      rw [decodeStringMembers_get]
      show _ = (lastMember k (o ++ rest.foldr (fun ms all => ms ++ all) [])).map _
      cases lastMember k (o ++ rest.foldr (fun ms all => ms ++ all) []) with
      | none => rfl
      | some v => cases v <;> rfl
  · intro objs hne' hds k
    rw [decodeEMFMembers_data, hds]
    cases objs with
    | nil => exact absurd rfl hne'
    | cons o rest =>
      have h1 : ((o :: rest).map JSON.obj).foldl (fun cur v => (decodeAnyMap cur v).1)
          ({} : EMFErrorType).Data
          = (rest.map JSON.obj).foldl (fun cur v => (decodeAnyMap cur v).1)
              (some (decodeAnyMembers o []).1) := rfl
      rw [h1, foldl_decodeAnyMap_objs, ← decodeAnyMembers_append]
      show entriesGet k _ = _
      rw [decodeAnyMembers_get]
      show _ = (lastMember k (o ++ rest.foldr (fun ms all => ms ++ all) [])).map _
      cases lastMember k (o ++ rest.foldr (fun ms all => ms ++ all) []) <;> rfl

/-- Witness of `decodeEMFError_full_instance`: a body in the wire shape of debug mode,
decoded with a handler whose `NewError` would make the type assertion fail; the returned
instance has the code, the status, the message and the data of the body. -/
theorem decodeEMFError_full_instance_witness :
    ∃ e,
      DecodeEMFError "2020-01-01T00:00:00Z" (fun _ _ _ => .ok .nil)
        (.value (.obj [("errorCode", .str "auth.401.X"), ("statusCode", .num (.int 401)),
          ("message", .obj [("en", .str "denied"), ("fr", .str "refus")]),
          ("data", .obj [("Role", .str "admin"), ("Ratio", .num (.real "0.5" true)),
            ("Tags", .arr [.str "a", .bool true, .null])])])) = .ok e ∧
      e.ErrorCode = "auth.401.X" ∧ e.StatusCode = 401 ∧
      e.Message = some [("en", "denied"), ("fr", "refus")] ∧
      mapGet e.Data "Role" = some (.str "admin") ∧
      mapGet e.Data "Ratio" = some (.float (.real "0.5" true)) ∧
      mapGet e.Data "Tags" = some (.list [.str "a", .bool true, .nil]) ∧
      mapGet e.Data "Other" = none ∧
      e.Unwrap = none :=
  ⟨_, (decodeEMFError_full_instance "2020-01-01T00:00:00Z" (fun _ _ _ => .ok .nil)
      [("errorCode", .str "auth.401.X"), ("statusCode", .num (.int 401)),
        ("message", .obj [("en", .str "denied"), ("fr", .str "refus")]),
        ("data", .obj [("Role", .str "admin"), ("Ratio", .num (.real "0.5" true)),
          ("Tags", .arr [.str "a", .bool true, .null])])]
      "auth.401.X" rfl rfl (by decide)).1,
    rfl, rfl, rfl, rfl, rfl, rfl, rfl, rfl⟩


/-! ## Panics of `NewError` -/

/-- On a handler with a logger and a source for the code, `NewError` gets to its closing
log call with an instance, or returns an ordinary error value, when every message
template of the resolved definition parses and the cause has not to be stored into a nil
data map. -/
theorem newError_returns (R : Runtime) (eh : EMFErrorHandlerType) (code : String)
    (data : Option (List (String × GoValue))) (errors : List (Option GoError))
    (hlog : eh.logger = true)
    (hsrc : (getBuiltin code).isSome = true ∨ eh.templates.isSome = true)
    (hbind : data.isSome = true ∨ errors = [])
    (hparse : ∀ e0, resolveDefinition eh code = .ok (.ok e0) →
        ∀ entry ∈ e0.Message.getD [], ∀ eh1,
          executeTemplate R eh1 entry.1 entry.2 ≠ .parseError) :
    ∃ v eh', eh.NewError R code data errors = .ok (v, eh') ∧ v ≠ .nil := by
  obtain ⟨r, hr⟩ := resolveDefinition_no_panic eh code hsrc
  cases r with
  | error err =>
    exact ⟨.other err, eh, by simp only [EMFErrorHandlerType.NewError, hr], by simp⟩
  | ok e0 =>
    obtain ⟨⟨e2, data2⟩, hb⟩ :=
      bindCause_ok { e0 with Timestamp := R.now, ErrorCode := code } data errors hbind
    have hm : e2.Message = e0.Message := by
      rw [bindCause_fields _ _ _ _ _ hb]
    cases hmsg : e0.Message with
    | none =>
      rw [hmsg] at hm
      obtain ⟨e, eh', h⟩ : ∃ e eh', eh.NewError R code data errors = .ok (.inst e, eh') :=
        ⟨_, _, by
          simp only [EMFErrorHandlerType.NewError, hr, hb, EMFErrorType.Execute, hm]
          rw [if_pos hlog]⟩
      exact ⟨.inst e, eh', h, by simp⟩
    | some entries =>
      rw [hmsg] at hm
      have hp : ∀ entry ∈ entries, executeTemplate R
          { eh with Data := if eh.DebugMode then some (mergeHandler eh data2) else data2 }
          entry.1 entry.2 ≠ .parseError := by
        intro entry hmem
        exact hparse e0 hr entry (by rw [hmsg]; exact hmem) _
      obtain ⟨x, hx⟩ := executeEntries_no_panic R _ entries [] hp
      cases x with
      | error err =>
        obtain ⟨eh', h⟩ : ∃ eh', eh.NewError R code data errors = .ok (.other err, eh') :=
          ⟨_, by
            simp only [EMFErrorHandlerType.NewError, hr, hb, EMFErrorType.Execute, hm, hx]
            rfl⟩
        exact ⟨.other err, eh', h, by simp⟩
      | ok msgs =>
        obtain ⟨e, eh', h⟩ : ∃ e eh', eh.NewError R code data errors = .ok (.inst e, eh') :=
          ⟨_, _, by
            simp only [EMFErrorHandlerType.NewError, hr, hb, EMFErrorType.Execute, hm, hx]
            rw [if_pos hlog]⟩
        exact ⟨.inst e, eh', h, by simp⟩

/-- A definition whose message templates do not parse makes `template.Must` panic,
whichever entry the loop visits first. -/
theorem newError_template_panic (R : Runtime) (eh : EMFErrorHandlerType) (code : String)
    (data : Option (List (String × GoValue))) (errors : List (Option GoError))
    (hbind : data.isSome = true ∨ errors = [])
    (e0 : EMFErrorType) (entry : String × String) (rest : List (String × String))
    (hr : resolveDefinition eh code = .ok (.ok e0))
    (hmsg : e0.Message = some (entry :: rest))
    (hbad : ∀ x ∈ entry :: rest, ∀ eh1, executeTemplate R eh1 x.1 x.2 = .parseError) :
    eh.NewError R code data errors = .error .templateParse := by
  obtain ⟨⟨e2, data2⟩, hb⟩ :=
    bindCause_ok { e0 with Timestamp := R.now, ErrorCode := code } data errors hbind
  obtain ⟨language, message⟩ := entry
  have hm : e2.Message = some ((language, message) :: rest) := by
    rw [bindCause_fields _ _ _ _ _ hb]
    exact hmsg
  have hfirst : ∀ eh1, executeTemplate R eh1 language message = .parseError :=
    fun eh1 => hbad (language, message) (List.mem_cons_self _ _) eh1
  simp only [EMFErrorHandlerType.NewError, hr, hb, EMFErrorType.Execute, hm, executeEntries,
    hfirst]

/-- A store of a value that `json.Marshal` accepts into a map whose values it accepts. -/
theorem jsonMarshalsEntries_set (R : Runtime) (k : String) (v : GoValue)
    (hv : jsonMarshals R v = true) :
    ∀ kvs : List (String × GoValue), jsonMarshalsEntries R kvs = true →
      jsonMarshalsEntries R (entriesSet k v kvs) = true
  | [], _ => by simp only [entriesSet, jsonMarshalsEntries, hv, Bool.and_self]
  | (k', v') :: rest, h => by
    simp only [jsonMarshalsEntries, Bool.and_eq_true] at h
    simp only [entriesSet]
    split_ifs
    · simp only [jsonMarshalsEntries, hv, h.2, Bool.and_self]
    · simp only [jsonMarshalsEntries, h.1, jsonMarshalsEntries_set R k v hv rest h.2,
        Bool.and_self]

/-- `json.Marshal` accepts a map of strings. -/
theorem jsonMarshalsEntries_strings (R : Runtime) :
    ∀ ms : List (String × String),
      jsonMarshalsEntries R (ms.map (fun kv => (kv.1, GoValue.str kv.2))) = true
  | [] => by simp only [List.map_nil, jsonMarshalsEntries]
  | kv :: rest => by
    simp only [List.map_cons, jsonMarshalsEntries, jsonMarshals,
      jsonMarshalsEntries_strings R rest, Bool.and_self]

/-- `json.Marshal` accepts the error map of an instance exactly when it accepts the
values of its `Data`. -/
theorem errorMap_marshals (R : Runtime) (e : EMFErrorType) :
    jsonMarshalsEntries R e.ErrorMap = jsonMarshalsEntries R (e.Data.getD []) := by
  simp only [EMFErrorType.ErrorMap, jsonMarshalsEntries, jsonMarshals,
    jsonMarshalsEntries_strings, Bool.true_and, Bool.and_true]

/-- `json.Marshal` accepts what `NewError` stores under `"Error"` when it accepts the
first cause. -/
theorem storedCause_marshals (R : Runtime) (first : Option GoError) :
    (∀ c, first = some c → R.marshalError c = true) →
    jsonMarshals R (match first with
      | none => GoValue.nil
      | some err => GoValue.err err) = true := by
  intro h
  cases first with
  | none => simp only [jsonMarshals]
  | some c =>
    simp only [jsonMarshals]
    exact h c rfl

/-- The data after the binding of the cause has values that `json.Marshal` accepts when
the caller's data and the first cause have. -/
theorem bindCause_marshals (R : Runtime) (e e2 : EMFErrorType)
    (data data2 : Option (List (String × GoValue))) (errors : List (Option GoError))
    (h : bindCause e data errors = .ok (e2, data2))
    (hdata : jsonMarshalsEntries R (data.getD []) = true)
    (hcause : ∀ c, errors.head? = some (some c) → R.marshalError c = true) :
    jsonMarshalsEntries R (data2.getD []) = true := by
  obtain ⟨_, hsame, _⟩ := bindCause_data e e2 data data2 errors h
  cases errors with
  | nil =>
    rw [hsame (Or.inl rfl)]
    exact hdata
  | cons first rest =>
    have hstored := storedCause_marshals R first (fun c hc => hcause c (by rw [hc]; rfl))
    cases data with
    | none =>
      simp only [bindCause, mapGet] at h
      cases h
    | some kvs =>
      cases hE : entriesGet "Error" kvs with
      | none =>
        simp only [bindCause, mapGet, hE, Except.ok.injEq, Prod.mk.injEq] at h
        rw [← h.2]
        exact jsonMarshalsEntries_set R _ _ hstored kvs hdata
      | some v =>
        cases v with
        | nil =>
          simp only [bindCause, mapGet, hE, Except.ok.injEq, Prod.mk.injEq] at h
          rw [← h.2]
          exact jsonMarshalsEntries_set R _ _ hstored kvs hdata
        | _ =>
          simp only [bindCause, mapGet, hE, Except.ok.injEq, Prod.mk.injEq] at h
          rw [← h.2]
          exact hdata

/-- The merge of the handler into the data keeps the values within what `json.Marshal`
accepts when the `Data` of the handler is. -/
theorem mergeHandler_marshals (R : Runtime) (eh : EMFErrorHandlerType)
    (data : Option (List (String × GoValue)))
    (hdata : jsonMarshalsEntries R (data.getD []) = true)
    (hheld : jsonMarshalsEntries R (eh.Data.getD []) = true) :
    jsonMarshalsEntries R (mergeHandler eh data) = true := by
  unfold mergeHandler
  apply jsonMarshalsEntries_set R _ _ (by simp only [jsonMarshals]; exact hheld)
  apply jsonMarshalsEntries_set R _ _ (by simp only [jsonMarshals])
  apply jsonMarshalsEntries_set R _ _ (by simp only [jsonMarshals])
  apply jsonMarshalsEntries_set R _ _ (by simp only [jsonMarshals])
  apply jsonMarshalsEntries_set R _ _ (by simp only [jsonMarshals])
  exact hdata

/-- The `Data` of an instance that `NewError` makes has values that `json.Marshal`
accepts when the caller's data, the first cause and, in debug mode, the `Data` of the
handler have. -/
theorem newError_inst_marshals (R : Runtime) (eh eh' : EMFErrorHandlerType) (code : String)
    (data : Option (List (String × GoValue))) (errors : List (Option GoError))
    (e : EMFErrorType) (h : eh.NewError R code data errors = .ok (.inst e, eh'))
    (hdata : jsonMarshalsEntries R (data.getD []) = true)
    (hcause : ∀ c, errors.head? = some (some c) → R.marshalError c = true)
    (hheld : eh.DebugMode = true → jsonMarshalsEntries R (eh.Data.getD []) = true) :
    jsonMarshalsEntries R e.ErrorMap = true := by
  obtain ⟨e1, e2, data2, hb, hD⟩ := newError_inst_data R eh eh' code data errors e h
  have h2 := bindCause_marshals R e1 e2 data data2 errors hb hdata hcause
  rw [errorMap_marshals, hD]
  cases hdebug : eh.DebugMode with
  | false => exact h2
  | true => exact mergeHandler_marshals R eh data2 h2 (hheld hdebug)

/-- C22, as the claim states it, fails on a handler with the logger that `logger.New`
returns by default: a definition from the template source whose message is the unclosed
action `{{.Data.Param` makes `template.Must` panic; a nil data map together with a cause
makes the store of the cause panic; and a value of the data that `json.Marshal` rejects,
here an infinite float64, makes the logger panic in `Debugj`. -/
theorem newError_total_counterexample :
    EMFErrorHandlerType.NewErrorLogged exampleRuntime (.gommon true)
      { templates := some (viperUnmarshalKey
          [("shop.400.Bad",
            .ok { Message := some [("en", "Bad parameter \x7b\x7b.Data.Param")] })]) }
      "shop.400.Bad" (some []) [] = .error .templateParse ∧
    EMFErrorHandlerType.NewErrorLogged exampleRuntime (.gommon true) exampleHandler
      "emf.401.TokenInactive" none [some { msg := "inactive" }]
      = .error .nilMapAssignment ∧
    EMFErrorHandlerType.NewErrorLogged exampleRuntime (.gommon true) exampleHandler
      "emf.400.QueryParameterInvalid" (some [("Param", .float (.real "1e999" false))]) []
      = .error .marshalFailure :=
  ⟨rfl, rfl, rfl⟩

/-- C22 (amended): on a handler with one of the loggers that `logger.New` returns (gommon's
or the logrus wrapper) and, for a code that is not builtin, a template source, `NewError`
returns an instance or an ordinary error value, and does not panic, for every code, every
list of causes and every data map (a nil one when no causes are passed), provided every
message template of the resolved definition parses and, when the logger is gommon's at a
level that admits `DEBUG`, `json.Marshal` accepts the values of the data, the first cause
and, in debug mode, the `Data` of the handler. A definition whose message templates do
not parse makes `template.Must` panic, and an instance whose `Data` holds a value that
`json.Marshal` rejects makes that logger panic in `Debugj`. -/
theorem newError_no_panic (R : Runtime) (lg : Logger) (eh : EMFErrorHandlerType)
    (code : String) (data : Option (List (String × GoValue)))
    (errors : List (Option GoError))
    (hlog : eh.logger = true)
    (hsrc : (getBuiltin code).isSome = true ∨ eh.templates.isSome = true)
    (hbind : data.isSome = true ∨ errors = [])
    (hmarshal : lg = .gommon true →
      jsonMarshalsEntries R (data.getD []) = true ∧
      (∀ c, errors.head? = some (some c) → R.marshalError c = true) ∧
      (eh.DebugMode = true → jsonMarshalsEntries R (eh.Data.getD []) = true)) :
    ((∀ e0, resolveDefinition eh code = .ok (.ok e0) →
        ∀ entry ∈ e0.Message.getD [], ∀ eh1,
          executeTemplate R eh1 entry.1 entry.2 ≠ .parseError) →
      ∃ v eh', eh.NewErrorLogged R lg code data errors = .ok (v, eh') ∧ v ≠ .nil) ∧
    (∀ e0 entry rest, resolveDefinition eh code = .ok (.ok e0) →
      e0.Message = some (entry :: rest) →
      (∀ x ∈ entry :: rest, ∀ eh1, executeTemplate R eh1 x.1 x.2 = .parseError) →
      eh.NewErrorLogged R lg code data errors = .error .templateParse) ∧
    (∀ e eh', eh.NewError R code data errors = .ok (.inst e, eh') →
      jsonMarshalsEntries R (e.Data.getD []) = false →
      eh.NewErrorLogged R (.gommon true) code data errors = .error .marshalFailure) := by
  refine ⟨?_, ?_, ?_⟩
  · intro hparse
    obtain ⟨v, eh', hnew, hv⟩ := newError_returns R eh code data errors hlog hsrc hbind hparse
    refine ⟨v, eh', ?_, hv⟩
    cases v with
    | nil => exact absurd rfl hv
    | other err => simp only [EMFErrorHandlerType.NewErrorLogged, hnew]
    | inst e =>
      have hj : lg.Debugj R e.ErrorMap = .ok () := by
        cases lg with
        | logrus => rfl
        | gommon debug =>
          cases debug with
          | false => rfl
          | true =>
            obtain ⟨h1, h2, h3⟩ := hmarshal rfl
            simp only [Logger.Debugj,
              newError_inst_marshals R eh eh' code data errors e hnew h1 h2 h3, if_true]
      simp only [EMFErrorHandlerType.NewErrorLogged, hnew, hj]
  · intro e0 entry rest hr hmsg hbad
    have hnew := newError_template_panic R eh code data errors hbind e0 entry rest hr hmsg hbad
    simp only [EMFErrorHandlerType.NewErrorLogged, hnew]
  · intro e eh' hnew hbad
    simp only [EMFErrorHandlerType.NewErrorLogged, hnew, Logger.Debugj, errorMap_marshals,
      hbad, Bool.false_eq_true, if_false]

/-- Witness of `newError_no_panic`: the call `NewError("emf.401.TokenInactive", nil)` of
`middleware/auth.go` returns a value on a handler with the default logger. -/
theorem newError_no_panic_witness :
    ∃ v eh',
      EMFErrorHandlerType.NewErrorLogged exampleRuntime (.gommon true) exampleHandler
        "emf.401.TokenInactive" none [] = .ok (v, eh') ∧ v ≠ .nil :=
  (newError_no_panic exampleRuntime (.gommon true) exampleHandler "emf.401.TokenInactive"
    none [] rfl (Or.inl rfl) (Or.inr rfl)
    (fun _ => ⟨rfl, fun c hc => by simp at hc, fun h => by simp [exampleHandler] at h⟩)).1
    (fun e0 h0 => getBuiltin_parses exampleRuntime "emf.401.TokenInactive" e0
      (by
        have hd := resolveDefinition_builtin exampleHandler "emf.401.TokenInactive" _ rfl
        rw [hd] at h0
        simp only [Except.ok.injEq] at h0
        rw [← h0]
        rfl))

end EMF
